import Mathlib

/-!
# SpaceXplorer: turn resolution, inventory and session set-up

A shallow embedding of `src/game.c` / `src/game.h`.

Modelling conventions.

* A C `int` is a Lean `Int`.  Signed overflow is undefined behaviour in C, so the
  embedding describes the executions in which no `int` computation overflows.
* The fixed-size arrays `junkItems[MAX_JUNK_ITEMS]` and
  `impassableCells[IMPASSABLE_CELLS]` are lists.  A loop `for (i = 0; i < n; i++)`
  over such an array visits the indices `0 .. n-1` of the list; reading an index
  that the list does not have does nothing.
* `rand()` is a list of the non-negative numbers it returns, consumed from the front.
* Console and file I/O (`printf`, `getchar`, the rendering buffer `world`) carries
  no game state and is left out; what is read from a file or the keyboard is a
  parameter.
-/

namespace SpaceXplorer

set_option maxRecDepth 1000000

/-! ## Constants and types (`game.h`) -/

/-- Minimum world size in both dimensions. -/
def WORLD_MIN_SIZE : Int := 18
/-- Maximum number of collectible junk items in the world. -/
def MAX_JUNK_ITEMS : Nat := 40
/-- Number of impassable obstacle cells in the world. -/
def IMPASSABLE_CELLS : Nat := 3

inductive Difficulty where
  | EASY
  | MEDIUM
  | HARD
deriving DecidableEq, Repr

structure Position where
  x : Int
  y : Int
deriving DecidableEq, Repr

inductive JunkType where
  | METAL
  | PLASTIC
  | ELECTRONICS
  | FUEL_CELL
deriving DecidableEq, Repr

structure SpaceJunk where
  position : Position
  type : JunkType
  value : Int
  symbol : Char
  collected : Int
deriving DecidableEq, Repr

structure Spaceship where
  position : Position
  fuel : Int
  maxFuel : Int
  health : Int
  maxHealth : Int
  metal : Int
  plastic : Int
  electronics : Int
  fuelCells : Int
deriving DecidableEq, Repr

structure Asteroid where
  position : Position
  direction : Position
  symbol : Char
deriving DecidableEq, Repr

structure ImpassableCell where
  position : Position
  symbol : Char
deriving DecidableEq, Repr

structure Game where
  worldWidth : Int
  worldHeight : Int
  ship : Spaceship
  asteroid : Asteroid
  junkItems : List SpaceJunk
  junkCount : Int
  impassableCells : List ImpassableCell
  score : Int
  isGameOver : Int
  hasWon : Int
  difficulty : Difficulty
  playerName : String
deriving DecidableEq, Repr

/-! ## Per-difficulty tables (`game.c`, lines 14-23) -/

def FUEL_LEVELS : Difficulty → Int
  | .EASY => 500
  | .MEDIUM => 350
  | .HARD => 200

def FUEL_CONSUMPTION : Difficulty → Int
  | .EASY => 1
  | .MEDIUM => 2
  | .HARD => 3

def JUNK_COUNTS : Difficulty → Int
  | .EASY => 40
  | .MEDIUM => 30
  | .HARD => 20

def ASTEROID_SPEEDS : Difficulty → Int
  | .EASY => 1
  | .MEDIUM => 2
  | .HARD => 3

def WIN_SCORES : Difficulty → Int
  | .EASY => 500
  | .MEDIUM => 750
  | .HARD => 1000

/-! ## Turn resolution -/

/-- The scan `for (i = 0; i < IMPASSABLE_CELLS; i++) if (x == cells[i].x && y == cells[i].y)`
used by `moveSpaceship` and `moveAsteroid`: does `(x, y)` hold an impassable cell? -/
def hitsImpassable (cells : List ImpassableCell) (x y : Int) : Bool :=
  (cells.take IMPASSABLE_CELLS).any (fun c => x == c.position.x && y == c.position.y)

/-- The function `collectJunk(game, index)`. -/
def collectJunk (g : Game) (index : Nat) : Game :=
  match g.junkItems[index]? with
  | none => g
  | some j =>
    let g1 : Game := { g with junkItems := g.junkItems.set index { j with collected := 1 } }
    let g2 : Game := { g1 with score := g1.score + j.value }
    match j.type with
    | .METAL => { g2 with ship := { g2.ship with metal := g2.ship.metal + 1 } }
    | .PLASTIC => { g2 with ship := { g2.ship with plastic := g2.ship.plastic + 1 } }
    | .ELECTRONICS => { g2 with ship := { g2.ship with electronics := g2.ship.electronics + 1 } }
    | .FUEL_CELL => { g2 with ship := { g2.ship with fuelCells := g2.ship.fuelCells + 1 } }

/-- One iteration of the item loop of `checkCollisions`, at index `i`. -/
def checkCollisionsBody (g : Game) (i : Nat) : Game :=
  match g.junkItems[i]? with
  | none => g
  | some j =>
    if j.collected = 0 ∧ g.ship.position.x = j.position.x ∧ g.ship.position.y = j.position.y then
      collectJunk g i
    else g

/-- The item loop of `checkCollisions`: `for (i = 0; i < game->junkCount; i++)`. -/
def checkCollisionsLoop (g : Game) : Game :=
  (List.range g.junkCount.toNat).foldl checkCollisionsBody g

/-- The function `checkCollisions(game)`. -/
def checkCollisions (g : Game) : Game :=
  let g1 := checkCollisionsLoop g
  if g1.score ≥ WIN_SCORES g1.difficulty then
    { g1 with isGameOver := 1, hasWon := 1 }
  else g1

/-- The asteroid after the body of the loop of `moveAsteroid` up to the position update
(one sub-step of the hazard): wall bounce on each axis, then obstacle bounce. -/
def stepAsteroid (g : Game) : Asteroid :=
  let px := g.asteroid.position.x
  let py := g.asteroid.position.y
  let newX0 := px + g.asteroid.direction.x
  let newY0 := py + g.asteroid.direction.y
  -- horizontal boundary
  let dx1 := if newX0 < 0 ∨ newX0 ≥ g.worldWidth then g.asteroid.direction.x * -1
             else g.asteroid.direction.x
  let newX1 := if newX0 < 0 ∨ newX0 ≥ g.worldWidth then px + dx1 else newX0
  -- vertical boundary
  let dy1 := if newY0 < 0 ∨ newY0 ≥ g.worldHeight then g.asteroid.direction.y * -1
             else g.asteroid.direction.y
  let newY1 := if newY0 < 0 ∨ newY0 ≥ g.worldHeight then py + dy1 else newY0
  -- impassable cell
  if hitsImpassable g.impassableCells newX1 newY1 then
    let dx2 := dx1 * -1
    let dy2 := dy1 * -1
    let dx3 := if dx2 = 0 ∧ dy2 = 0 then 1 else dx2
    { g.asteroid with
        position := { x := px + dx3, y := py + dy2 },
        direction := { x := dx3, y := dy2 } }
  else
    { g.asteroid with
        position := { x := newX1, y := newY1 },
        direction := { x := dx1, y := dy1 } }

/-- The body of the loop of `moveAsteroid` without the collision test that ends it. -/
def moveAsteroidStep (g : Game) : Game :=
  { g with asteroid := stepAsteroid g }

/-- Does the hazard stand on the ship's cell (the test at the end of the loop body)? -/
def asteroidOnShip (g : Game) : Bool :=
  g.asteroid.position.x == g.ship.position.x && g.asteroid.position.y == g.ship.position.y

/-- The loop `for (i = 0; i < speed; i++)` of `moveAsteroid` with `n` iterations left:
a sub-step, then the collision test, which sets the flags and breaks. -/
def moveAsteroidLoop : Nat → Game → Game
  | 0, g => g
  | n + 1, g =>
    let g1 := moveAsteroidStep g
    if asteroidOnShip g1 then
      { g1 with isGameOver := 1, hasWon := 0 }
    else moveAsteroidLoop n g1

/-- The function `moveAsteroid(game)`. -/
def moveAsteroid (g : Game) : Game :=
  moveAsteroidLoop (ASTEROID_SPEEDS g.difficulty).toNat g

/-- The function `moveSpaceship(game, dx, dy)`. -/
def moveSpaceship (g : Game) (dx dy : Int) : Game :=
  let newX := g.ship.position.x + dx
  let newY := g.ship.position.y + dy
  if newX ≥ 0 ∧ newX < g.worldWidth ∧ newY ≥ 0 ∧ newY < g.worldHeight then
    let canMove := !(hitsImpassable g.impassableCells newX newY)
    if canMove then
      let g1 : Game := { g with ship := { g.ship with position := { x := newX, y := newY } } }
      let g2 : Game := { g1 with ship := { g1.ship with
        fuel := g1.ship.fuel - FUEL_CONSUMPTION g1.difficulty } }
      if g2.ship.fuel ≤ 0 then
        { g2 with isGameOver := 1, hasWon := 0 }
      else
        checkCollisions (moveAsteroid g2)
    else g
  else g

/-! ## Inventory -/

/-- The function `useJunk(game, option)`. -/
def useJunk (g : Game) (option : Int) : Game :=
  if option = 1 then
    if g.ship.metal > 0 then
      let h1 := g.ship.health + 10
      let h2 := if h1 > g.ship.maxHealth then g.ship.maxHealth else h1
      { g with ship := { g.ship with health := h2, metal := g.ship.metal - 1 } }
    else g
  else if option = 2 then
    if g.ship.fuelCells > 0 then
      let f1 := g.ship.fuel + 50
      let f2 := if f1 > g.ship.maxFuel then g.ship.maxFuel else f1
      { g with ship := { g.ship with fuel := f2, fuelCells := g.ship.fuelCells - 1 } }
    else g
  else g

/-! ## Session set-up -/

/-- The function `loadConfig(game)`.  `file` is what the configuration file gives:
`none` when it cannot be opened, otherwise the values the two `fscanf` calls read
(`none` for a value that a call did not read). -/
def loadConfig (g : Game) (file : Option (Option Int × Option Int)) : Game :=
  let g1 : Game := { g with worldWidth := WORLD_MIN_SIZE, worldHeight := WORLD_MIN_SIZE }
  match file with
  | some (w, h) =>
    let g2 : Game := match w with
      | some v => { g1 with worldWidth := v }
      | none => g1
    let g3 : Game := match h with
      | some v => { g2 with worldHeight := v }
      | none => g2
    let g4 : Game := if g3.worldWidth < WORLD_MIN_SIZE then
      { g3 with worldWidth := WORLD_MIN_SIZE } else g3
    if g4.worldHeight < WORLD_MIN_SIZE then { g4 with worldHeight := WORLD_MIN_SIZE } else g4
  | none => g1

/-- The asteroid placement of `initGame` (lines 80-121): the edge, the coordinate along
it and the free direction component are three successive `rand()` results. -/
def placeAsteroid (g : Game) : List Nat → Option (Game × List Nat)
  | r0 :: r1 :: r2 :: rest =>
    let edge := r0 % 4
    let a : Asteroid :=
      if edge = 0 then
        { g.asteroid with
          position := { x := (r1 : Int) % g.worldWidth, y := 0 },
          direction := { x := ((r2 : Int) % 3) - 1, y := 1 } }
      else if edge = 1 then
        { g.asteroid with
          position := { x := g.worldWidth - 1, y := (r1 : Int) % g.worldHeight },
          direction := { x := -1, y := ((r2 : Int) % 3) - 1 } }
      else if edge = 2 then
        { g.asteroid with
          position := { x := (r1 : Int) % g.worldWidth, y := g.worldHeight - 1 },
          direction := { x := ((r2 : Int) % 3) - 1, y := -1 } }
      else
        { g.asteroid with
          position := { x := 0, y := (r1 : Int) % g.worldHeight },
          direction := { x := 1, y := ((r2 : Int) % 3) - 1 } }
    let a1 : Asteroid :=
      if a.direction.x = 0 ∧ a.direction.y = 0 then
        { a with direction := { a.direction with x := 1 } }
      else a
    some ({ g with asteroid := { a1 with symbol := 'A' } }, rest)
  | _ => none

/-- The rejection loop `while (!valid)` that places impassable cell `i` (lines 125-152):
each iteration draws `x` and `y`; the loop ends at the first draw that is off the ship,
off the asteroid and off the cells `0 .. i-1`.  `none`: the draws ran out first. -/
def placeImpassableCell (g : Game) (i : Nat) : List Nat → Option (Game × List Nat)
  | rx :: ry :: rest =>
    let x := (rx : Int) % g.worldWidth
    let y := (ry : Int) % g.worldHeight
    if (x ≠ g.ship.position.x ∨ y ≠ g.ship.position.y) ∧
       (x ≠ g.asteroid.position.x ∨ y ≠ g.asteroid.position.y) then
      let overlap := (g.impassableCells.take i).any
        (fun c => c.position.x == x && c.position.y == y)
      if !overlap then
        let cell : ImpassableCell := { position := { x := x, y := y }, symbol := '#' }
        some ({ g with impassableCells := g.impassableCells.set i cell }, rest)
      else placeImpassableCell g i rest
    else placeImpassableCell g i rest
  | _ => none

/-- The loop `for (i = 0; i < n; i++)` around `placeImpassableCell`. -/
def placeImpassableCells : Nat → Game → List Nat → Option (Game × List Nat)
  | 0, g, draws => some (g, draws)
  | n + 1, g, draws =>
    match placeImpassableCells n g draws with
    | some (g1, rest) => placeImpassableCell g1 n rest
    | none => none

/-- The value and the symbol that `initGame` gives to a junk item of each type. -/
def junkValue : JunkType → Int
  | .METAL => 10
  | .PLASTIC => 5
  | .ELECTRONICS => 15
  | .FUEL_CELL => 20

def junkSymbol : JunkType → Char
  | .METAL => 'M'
  | .PLASTIC => 'P'
  | .ELECTRONICS => 'E'
  | .FUEL_CELL => 'F'

/-- The result of `rand() % 4` read as a `JunkType`. -/
def junkTypeOfNat (r : Nat) : JunkType :=
  if r % 4 = 0 then .METAL
  else if r % 4 = 1 then .PLASTIC
  else if r % 4 = 2 then .ELECTRONICS
  else .FUEL_CELL

/-- The rejection loop `while (!valid)` that places junk item `i` (lines 161-222). -/
def placeJunkItem (g : Game) (i : Nat) : List Nat → Option (Game × List Nat)
  | rx :: ry :: rest =>
    let x := (rx : Int) % g.worldWidth
    let y := (ry : Int) % g.worldHeight
    if (x ≠ g.ship.position.x ∨ y ≠ g.ship.position.y) ∧
       (x ≠ g.asteroid.position.x ∨ y ≠ g.asteroid.position.y) then
      let overlap0 := (g.impassableCells.take IMPASSABLE_CELLS).any
        (fun c => c.position.x == x && c.position.y == y)
      let overlap := if !overlap0 then
          (g.junkItems.take i).any (fun j => j.position.x == x && j.position.y == y)
        else overlap0
      if !overlap then
        match rest with
        | rt :: rest1 =>
          let t := junkTypeOfNat rt
          let item : SpaceJunk :=
            { position := { x := x, y := y }, type := t, value := junkValue t,
              symbol := junkSymbol t, collected := 0 }
          some ({ g with junkItems := g.junkItems.set i item }, rest1)
        | [] => none
      else placeJunkItem g i rest
    else placeJunkItem g i rest
  | _ => none

/-- The loop `for (i = 0; i < n; i++)` around `placeJunkItem`. -/
def placeJunkItems : Nat → Game → List Nat → Option (Game × List Nat)
  | 0, g, draws => some (g, draws)
  | n + 1, g, draws =>
    match placeJunkItems n g draws with
    | some (g1, rest) => placeJunkItem g1 n rest
    | none => none

/-- The function `initGame(game)`.  `g0` is the `Game` object as `main` declares it
(not initialised), `name` and `d` are the player's answers, `file` is the content of the
configuration file and `draws` the results of `rand()`.  `none`: the draws ran out
inside a placement loop. -/
def initGame (g0 : Game) (name : String) (d : Difficulty)
    (file : Option (Option Int × Option Int)) (draws : List Nat) : Option Game :=
  let g1 : Game := { g0 with playerName := name, difficulty := d }
  let g2 := loadConfig g1 file
  let g3 : Game := { g2 with ship :=
    { position := { x := g2.worldWidth / 2, y := g2.worldHeight / 2 },
      fuel := FUEL_LEVELS g2.difficulty, maxFuel := FUEL_LEVELS g2.difficulty,
      health := 100, maxHealth := 100,
      metal := 0, plastic := 0, electronics := 0, fuelCells := 0 } }
  match placeAsteroid g3 draws with
  | none => none
  | some (g4, d4) =>
    match placeImpassableCells IMPASSABLE_CELLS g4 d4 with
    | none => none
    | some (g5, d5) =>
      let g6 : Game := { g5 with junkCount := JUNK_COUNTS g5.difficulty }
      match placeJunkItems g6.junkCount.toNat g6 d5 with
      | none => none
      | some (g7, _) => some { g7 with score := 0, isGameOver := 0, hasWon := 0 }

/-! ## Sessions -/

/-- What the driver can ask of a session: a move or an inventory use. -/
inductive Action where
  | move (dx dy : Int)
  | use (option : Int)
deriving DecidableEq, Repr

/-- One driver request applied to a session. -/
def step (g : Game) : Action → Game
  | .move dx dy => moveSpaceship g dx dy
  | .use option => useJunk g option

/-- A sequence of driver requests applied in order. -/
def run (g : Game) (acts : List Action) : Game :=
  acts.foldl step g

/-- A sequence of `moveSpaceship` calls applied in order. -/
def runMoves (g : Game) (moves : List (Int × Int)) : Game :=
  moves.foldl (fun s m => moveSpaceship s m.1 m.2) g

/-- Object `g0` has the two arrays of a C `Game`. -/
def WellSized (g0 : Game) : Prop :=
  g0.junkItems.length = MAX_JUNK_ITEMS ∧ g0.impassableCells.length = IMPASSABLE_CELLS

/-- Session `g` is what `initGame` returns for some player answers, configuration file
and random draws, started on some (uninitialised) `Game` object. -/
def Created (g : Game) : Prop :=
  ∃ g0 name d file draws, WellSized g0 ∧ initGame g0 name d file draws = some g

/-! ## The driver (`handleInput`, `main`) -/

/-- What the player types for one turn: the command character and, after `U`, the number
that `scanf("%d", &choice)` leaves in `choice`. -/
structure Command where
  key : Char
  choice : Int
deriving DecidableEq, Repr

/-- The function `handleInput(game)`, on the command read from the keyboard. -/
def handleInput (g : Game) (c : Command) : Game :=
  let input := c.key.toUpper
  if input = 'W' then moveSpaceship g 0 (-1)
  else if input = 'S' then moveSpaceship g 0 1
  else if input = 'A' then moveSpaceship g (-1) 0
  else if input = 'D' then moveSpaceship g 1 0
  else if input = 'I' then g
  else if input = 'U' then
    if c.choice ≥ 1 ∧ c.choice ≤ 2 then useJunk g c.choice else g
  else if input = 'Q' then { g with isGameOver := 1 }
  else g

/-- The function `updateGame(game)`: an empty body. -/
def updateGame (g : Game) : Game := g

/-- The loop `while (!game.isGameOver)` of `main` on the commands typed so far. -/
def mainLoop : Game → List Command → Game
  | g, [] => g
  | g, c :: rest =>
    if g.isGameOver ≠ 0 then g
    else mainLoop (updateGame (handleInput g c)) rest

/-! ## Leaderboard -/

/-- Maximum number of entries in the high score leaderboard. -/
def MAX_LEADERBOARD_ENTRIES : Nat := 10

/-- A leaderboard record.  The difficulty is the integer stored in the file. -/
structure LeaderboardEntry where
  playerName : String
  score : Int
  difficulty : Int
deriving DecidableEq, Repr

/-- The integer value of the enumeration `Difficulty`. -/
def difficultyCode : Difficulty → Int
  | .EASY => 0
  | .MEDIUM => 1
  | .HARD => 2

/-- The loop of `loadLeaderboard`: `records` are the records that `fscanf` reads from the
file, in order; each is stored at index `count` while `count < MAX_LEADERBOARD_ENTRIES`. -/
def loadLeaderboard : List LeaderboardEntry → Nat → List LeaderboardEntry →
    List LeaderboardEntry × Nat
  | leaderboard, count, [] => (leaderboard, count)
  | leaderboard, count, e :: rest =>
    if count < MAX_LEADERBOARD_ENTRIES then
      loadLeaderboard (leaderboard.set count e) (count + 1) rest
    else (leaderboard, count)

/-- The search loop of `saveScore`, `for (i = 0; i < count; i++)` with `n` iterations
left at index `i`: the first index whose score is below `score`, else `insertIndex`. -/
def findInsertIndex (leaderboard : List LeaderboardEntry) (score : Int) (insertIndex : Nat) :
    Nat → Nat → Nat
  | 0, _ => insertIndex
  | n + 1, i =>
    match leaderboard[i]? with
    | some e => if score > e.score then i else findInsertIndex leaderboard score insertIndex n (i + 1)
    | none => findInsertIndex leaderboard score insertIndex n (i + 1)

/-- The shift loop of `saveScore`, `for (i = count - 1; i > insertIndex; i--)
leaderboard[i] = leaderboard[i - 1]`, at index `i`. -/
def shiftEntries (insertIndex : Nat) : Nat → List LeaderboardEntry → List LeaderboardEntry
  | 0, leaderboard => leaderboard
  | i + 1, leaderboard =>
    if i + 1 > insertIndex then
      match leaderboard[i]? with
      | some e => shiftEntries insertIndex i (leaderboard.set (i + 1) e)
      | none => shiftEntries insertIndex i leaderboard
    else leaderboard

/-- The function `saveScore(game)`.  `stack` is the local array `leaderboard` as declared
(not initialised), `file` the records of the leaderboard file; the result is the records
of the file afterwards: what `saveLeaderboard` writes, or `file` when nothing is written. -/
def saveScore (stack : List LeaderboardEntry) (file : List LeaderboardEntry) (g : Game) :
    List LeaderboardEntry :=
  let loaded := loadLeaderboard stack 0 file
  let leaderboard := loaded.1
  let count := loaded.2
  let qualifies : Bool :=
    decide (count < MAX_LEADERBOARD_ENTRIES) ||
    (match leaderboard[count - 1]? with
     | some e => decide (g.score > e.score)
     | none => false)
  if qualifies then
    let newEntry : LeaderboardEntry :=
      { playerName := g.playerName, score := g.score, difficulty := difficultyCode g.difficulty }
    let insertIndex := count
    let count1 := if count < MAX_LEADERBOARD_ENTRIES then count + 1 else count
    let insertIndex1 := findInsertIndex leaderboard newEntry.score insertIndex count1 0
    let leaderboard1 := shiftEntries insertIndex1 (count1 - 1) leaderboard
    let leaderboard2 := leaderboard1.set insertIndex1 newEntry
    let count2 := if count1 > MAX_LEADERBOARD_ENTRIES then MAX_LEADERBOARD_ENTRIES else count1
    leaderboard2.take count2
  else file

/-! ## Predicates used in the statements -/

/-- Cell `p` lies inside `[0, worldWidth) x [0, worldHeight)`. -/
def inWorld (g : Game) (p : Position) : Prop :=
  0 ≤ p.x ∧ p.x < g.worldWidth ∧ 0 ≤ p.y ∧ p.y < g.worldHeight

instance (g : Game) (p : Position) : Decidable (inWorld g p) := by
  unfold inWorld; infer_instance

/-- Cell `p` is the position of one of the `IMPASSABLE_CELLS` impassable cells. -/
def onImpassable (g : Game) (p : Position) : Prop :=
  ∃ c ∈ g.impassableCells.take IMPASSABLE_CELLS, c.position = p

instance (g : Game) (p : Position) : Decidable (onImpassable g p) := by
  unfold onImpassable; infer_instance

/-- The cell a move by `(dx, dy)` aims at. -/
def target (g : Game) (dx dy : Int) : Position :=
  { x := g.ship.position.x + dx, y := g.ship.position.y + dy }

/-- The move by `(dx, dy)` is accepted: its target is in the world and not impassable. -/
def Accepted (g : Game) (dx dy : Int) : Prop :=
  inWorld g (target g dx dy) ∧ ¬ onImpassable g (target g dx dy)

instance (g : Game) (dx dy : Int) : Decidable (Accepted g dx dy) := by
  unfold Accepted; infer_instance

/-- The ship is inside the world and on no impassable cell. -/
def ShipSafe (g : Game) : Prop :=
  inWorld g g.ship.position ∧ ¬ onImpassable g g.ship.position

instance (g : Game) : Decidable (ShipSafe g) := by
  unfold ShipSafe; infer_instance

/-- The session after steps 2-3 of a turn: ship on the target cell, fuel charged. -/
def commitMove (g : Game) (dx dy : Int) : Game :=
  { g with ship := { g.ship with
      position := target g dx dy,
      fuel := g.ship.fuel - FUEL_CONSUMPTION g.difficulty } }

/-- Item `j` is picked up by a ship standing on `p`: it is uncollected and lies on `p`
(the test of the item loop of `checkCollisions`). -/
def pickedUp (p : Position) (j : SpaceJunk) : Prop :=
  j.collected = 0 ∧ p.x = j.position.x ∧ p.y = j.position.y

instance (p : Position) (j : SpaceJunk) : Decidable (pickedUp p j) := by
  unfold pickedUp; infer_instance

/-- Item `j` after a visit of the ship at `p`: marked collected when picked up. -/
def markPicked (p : Position) (j : SpaceJunk) : SpaceJunk :=
  if pickedUp p j then { j with collected := 1 } else j

/-- The sum of the values of the items of `l` that a ship at `p` picks up. -/
def pickedValue (p : Position) (l : List SpaceJunk) : Int :=
  ((l.filter (fun j => decide (pickedUp p j))).map (fun j => j.value)).sum

/-- The items of the session: the first `junkCount` entries of the array. -/
def items (g : Game) : List SpaceJunk :=
  g.junkItems.take g.junkCount.toNat

/-- The hazard stands on the ship after one of the first `n` sub-steps. -/
def hazardHits : Nat → Game → Bool
  | 0, _ => false
  | n + 1, g => asteroidOnShip (moveAsteroidStep g) || hazardHits n (moveAsteroidStep g)

/-- The hazard reaches the ship during the turn of the accepted move `(dx, dy)`. -/
def hazardReachesShip (g : Game) (dx dy : Int) : Bool :=
  hazardHits (ASTEROID_SPEEDS g.difficulty).toNat (commitMove g dx dy)

/-- The sum of the values of the collected items of `l`. -/
def collectedValue (l : List SpaceJunk) : Int :=
  ((l.filter (fun j => decide (j.collected ≠ 0))).map (fun j => j.value)).sum

/-- The score is the sum of the values of the collected items, and no item has a
negative value. -/
def ScoreInv (g : Game) : Prop :=
  g.score = collectedValue (items g) ∧ ∀ j ∈ items g, 0 ≤ j.value

/-- How one driver request can change the items and the score: not at all, or by a visit
of the ship at some cell `p`. -/
def ItemsStep (g g' : Game) : Prop :=
  g'.junkCount = g.junkCount ∧
  ((g'.junkItems = g.junkItems ∧ g'.score = g.score) ∨
   ∃ p : Position,
     g'.junkItems = (items g).map (markPicked p) ++ g.junkItems.drop g.junkCount.toNat ∧
     g'.score = g.score + pickedValue p (items g))

/-! ## Concrete sessions used as test inputs -/

/-- A junk item as `initGame` builds it for type `t`, with a given `collected` flag. -/
def mkJunk (x y : Int) (t : JunkType) (collected : Int) : SpaceJunk :=
  { position := { x := x, y := y }, type := t, value := junkValue t,
    symbol := junkSymbol t, collected := collected }

/-- A `Game` object before `initGame`: every field zero. -/
def blankGame : Game :=
  { worldWidth := 0, worldHeight := 0,
    ship := { position := { x := 0, y := 0 }, fuel := 0, maxFuel := 0, health := 0,
              maxHealth := 0, metal := 0, plastic := 0, electronics := 0, fuelCells := 0 },
    asteroid := { position := { x := 0, y := 0 }, direction := { x := 0, y := 0 },
                  symbol := ' ' },
    junkItems := List.replicate MAX_JUNK_ITEMS (mkJunk 0 0 .METAL 0),
    junkCount := 0,
    impassableCells := List.replicate IMPASSABLE_CELLS
      { position := { x := 0, y := 0 }, symbol := ' ' },
    score := 0, isGameOver := 0, hasWon := 0, difficulty := .EASY, playerName := "" }

/-- Draws for `demoGame`: asteroid on the left edge at `(0,5)` heading `(1,0)`,
impassable cells `(1,5)`, `(10,9)`, `(3,3)`, then 40 items on rows 12-14. -/
def demoDraws : List Nat :=
  [3, 5, 1] ++ [1, 5, 10, 9, 3, 3] ++
    (List.range 40).flatMap (fun i => [i % 18, 12 + i / 18, i % 4])

/-- An Easy 18x18 session: ship at the centre `(9,9)`, asteroid at `(0,5)` heading right,
an impassable cell right in front of the asteroid and one right of the ship. -/
def demoGame : Game :=
  { worldWidth := 18, worldHeight := 18,
    ship := { position := { x := 9, y := 9 }, fuel := 500, maxFuel := 500, health := 100,
              maxHealth := 100, metal := 0, plastic := 0, electronics := 0, fuelCells := 0 },
    asteroid := { position := { x := 0, y := 5 }, direction := { x := 1, y := 0 },
                  symbol := 'A' },
    junkItems := (List.range 40).map
      (fun i => mkJunk (i % 18 : Nat) (12 + i / 18 : Nat) (junkTypeOfNat i) 0),
    junkCount := 40,
    impassableCells := [{ position := { x := 1, y := 5 }, symbol := '#' },
                        { position := { x := 10, y := 9 }, symbol := '#' },
                        { position := { x := 3, y := 3 }, symbol := '#' }],
    score := 0, isGameOver := 0, hasWon := 0, difficulty := .EASY, playerName := "pilot" }

/-- The session `demoGame` with the ship at `(9,11)`, just above the item at `(9,12)`,
and one unit of fuel left. -/
def lastFuelGame : Game :=
  { demoGame with ship := { demoGame.ship with position := { x := 9, y := 11 }, fuel := 1 } }

/-- The session `demoGame` some turns later: ship at `(9,11)`, just above the item at
`(9,12)`, asteroid in the open at `(5,5)` heading `(1,1)`. -/
def pickupGame : Game :=
  { demoGame with
    ship := { demoGame.ship with position := { x := 9, y := 11 }, fuel := 480 },
    asteroid := { demoGame.asteroid with position := { x := 5, y := 5 },
                                         direction := { x := 1, y := 1 } } }

/-- Where the items of `crashGame` lie, as `(x, y, type draw)`: 24 fuel cells along the
ship's sweep of rows 9-11, metal at `(2,11)` and `(3,12)`, a fuel cell at `(1,11)` and
13 plastic items on row 15. -/
def crashLayout : List (Nat × Nat × Nat) :=
  (List.range 9).map (fun i => (i, 9, 3)) ++
  (List.range 9).map (fun i => (i, 10, 3)) ++
  (List.range 6).map (fun i => (i + 3, 11, 3)) ++
  [(2, 11, 0), (3, 12, 0), (1, 11, 3)] ++
  (List.range 13).map (fun i => (i, 15, 1))

/-- Draws for `crashGame`: asteroid on the bottom edge at `(3,17)` heading `(0,-1)`,
impassable cells `(15,2)`, `(16,3)`, `(14,5)`, then the items of `crashLayout`. -/
def crashDraws : List Nat :=
  [2, 3, 1] ++ [15, 2, 16, 3, 14, 5] ++ crashLayout.flatMap (fun t => [t.1, t.2.1, t.2.2])

/-- An Easy 18x18 session in which the asteroid patrols column 3. -/
def crashGame : Game :=
  { worldWidth := 18, worldHeight := 18,
    ship := { position := { x := 9, y := 9 }, fuel := 500, maxFuel := 500, health := 100,
              maxHealth := 100, metal := 0, plastic := 0, electronics := 0, fuelCells := 0 },
    asteroid := { position := { x := 3, y := 17 }, direction := { x := 0, y := -1 },
                  symbol := 'A' },
    junkItems := crashLayout.map
      (fun t => mkJunk (t.1 : Nat) (t.2.1 : Nat) (junkTypeOfNat t.2.2) 0),
    junkCount := 40,
    impassableCells := [{ position := { x := 15, y := 2 }, symbol := '#' },
                        { position := { x := 16, y := 3 }, symbol := '#' },
                        { position := { x := 14, y := 5 }, symbol := '#' }],
    score := 0, isGameOver := 0, hasWon := 0, difficulty := .EASY, playerName := "pilot" }

/-- The first 25 moves on `crashGame`: the ship sweeps rows 9, 10 and 11 and picks up
24 fuel cells and one metal item, score 490. -/
def sweepMoves : List (Int × Int) :=
  List.replicate 9 (-1, 0) ++ [(0, 1)] ++ List.replicate 8 (1, 0) ++ [(0, 1)] ++
  List.replicate 6 (-1, 0)

/-- After the sweep the ship waits at `(2,12)` for three moves, next to the cell `(3,12)`
that the asteroid is about to enter. -/
def crashMoves : List (Int × Int) :=
  sweepMoves ++ [(0, 1), (0, 1), (0, -1)]

/-- The session `crashGame` after the sweep: the first 25 items collected, score 490,
with the ship at `pos`, `fuel` left, and the asteroid at `(3, ay)` heading `(0,1)`. -/
def sweptState (pos : Position) (fuel : Int) (ay : Int) : Game :=
  { crashGame with
    ship := { crashGame.ship with position := pos, fuel := fuel, metal := 1, fuelCells := 24 },
    asteroid := { crashGame.asteroid with position := { x := 3, y := ay },
                                          direction := { x := 0, y := 1 } },
    junkItems :=
      (crashLayout.take 25).map
        (fun t => mkJunk (t.1 : Nat) (t.2.1 : Nat) (junkTypeOfNat t.2.2) 1) ++
      (crashLayout.drop 25).map
        (fun t => mkJunk (t.1 : Nat) (t.2.1 : Nat) (junkTypeOfNat t.2.2) 0),
    score := 490 }

/-- The session `crashGame` after `sweepMoves`: ship at `(2,11)`, next to the fuel cell
at `(1,11)`, the asteroid far away at `(3,8)`. -/
def sweptGame : Game := sweptState { x := 2, y := 11 } 475 8

/-- The session `crashGame` after `crashMoves`: ship at `(2,12)`, the asteroid at `(3,11)`
about to enter `(3,12)`, where an uncollected metal item lies. -/
def crashEve : Game := sweptState { x := 2, y := 12 } 472 11

/-- A hazard direction is well formed: each component in `{-1, 0, 1}`, not both zero. -/
def WellFormedDir (d : Position) : Prop :=
  (d.x = -1 ∨ d.x = 0 ∨ d.x = 1) ∧ (d.y = -1 ∨ d.y = 0 ∨ d.y = 1) ∧ ¬ (d.x = 0 ∧ d.y = 0)

instance (d : Position) : Decidable (WellFormedDir d) := by
  unfold WellFormedDir; infer_instance

/-- The pair `(dx, dy)` is a unit direction: each component in `{-1, 0, 1}`, not both
zero. -/
def UnitDirection (dx dy : Int) : Prop :=
  (dx = -1 ∨ dx = 0 ∨ dx = 1) ∧ (dy = -1 ∨ dy = 0 ∨ dy = 1) ∧ ¬ (dx = 0 ∧ dy = 0)

instance (dx dy : Int) : Decidable (UnitDirection dx dy) := by
  unfold UnitDirection; infer_instance

/-- The session `demoGame` with 3 metal in the hold and health 95. -/
def repairGame : Game :=
  { demoGame with ship := { demoGame.ship with metal := 3, health := 95 } }

/-- The session `demoGame` with one fuel cell in the hold and fuel 480. -/
def refuelGame : Game :=
  { demoGame with ship := { demoGame.ship with fuelCells := 1, fuel := 480 } }

/-- The session `demoGame` after the player has typed `Q`. -/
def quitGame : Game :=
  { demoGame with isGameOver := 1 }

/-- The session `sweptGame` after the winning move `(-1,0)`: the fuel cell at `(1,11)`
collected, score 510, won. -/
def wonGame : Game :=
  { sweptGame with
    ship := { sweptGame.ship with position := { x := 1, y := 11 }, fuel := 474, fuelCells := 25 },
    asteroid := { sweptGame.asteroid with position := { x := 3, y := 9 } },
    junkItems := sweptGame.junkItems.map (markPicked { x := 1, y := 11 }),
    score := 510, isGameOver := 1, hasWon := 1 }

/-- A won session with one unit of fuel left. -/
def wonLowFuelGame : Game :=
  { wonGame with ship := { wonGame.ship with fuel := 1 } }

/-- Where the 20 items of `hardGame` lie, as `(x, y, type draw)`. -/
def hardLayout : List (Nat × Nat × Nat) :=
  (List.range 18).map (fun i => (i, 15, i % 4)) ++ [(0, 16, 2), (1, 16, 3)]

/-- Draws for `hardGame`: asteroid on the top edge at `(0,0)` heading `(0,1)`, impassable
cells `(15,2)`, `(16,3)`, `(14,5)`, then the items of `hardLayout`. -/
def hardDraws : List Nat :=
  [0, 0, 1] ++ [15, 2, 16, 3, 14, 5] ++ hardLayout.flatMap (fun t => [t.1, t.2.1, t.2.2])

/-- A Hard 18x18 session (fuel 200, 3 per move) in which the asteroid patrols column 0. -/
def hardGame : Game :=
  { worldWidth := 18, worldHeight := 18,
    ship := { position := { x := 9, y := 9 }, fuel := 200, maxFuel := 200, health := 100,
              maxHealth := 100, metal := 0, plastic := 0, electronics := 0, fuelCells := 0 },
    asteroid := { position := { x := 0, y := 0 }, direction := { x := 0, y := 1 },
                  symbol := 'A' },
    junkItems := hardLayout.map
        (fun t => mkJunk (t.1 : Nat) (t.2.1 : Nat) (junkTypeOfNat t.2.2) 0) ++
      List.replicate 20 (mkJunk 0 0 .METAL 0),
    junkCount := 20,
    impassableCells := [{ position := { x := 15, y := 2 }, symbol := '#' },
                        { position := { x := 16, y := 3 }, symbol := '#' },
                        { position := { x := 14, y := 5 }, symbol := '#' }],
    score := 0, isGameOver := 0, hasWon := 0, difficulty := .HARD, playerName := "pilot" }

/-- The ship steps left and right between `(9,9)` and `(8,9)`, 22 times. -/
def hardLeg : List Action :=
  (List.range 22).map (fun i => if i % 2 = 0 then Action.move (-1) 0 else Action.move 1 0)

/-- Three legs: 66 accepted moves. -/
def hardMoves : List Action :=
  hardLeg ++ hardLeg ++ hardLeg

/-- The session `hardGame` with `fuel` left and the asteroid at `(0, ay)` heading
`(0, -1)`. -/
def hardAt (fuel ay : Int) : Game :=
  { hardGame with
    ship := { hardGame.ship with fuel := fuel },
    asteroid := { hardGame.asteroid with position := { x := 0, y := ay },
                                         direction := { x := 0, y := -1 } } }

/-- The session `hardGame` after `hardMoves`: still in progress, fuel 2. -/
def hardEve : Game := hardAt 2 6

/-- The fuel facts that hold along a session: fuel never above `maxFuel`, `maxFuel` the
level of the difficulty, and fuel positive while the session is in progress. -/
def FuelInv (g : Game) : Prop :=
  g.ship.fuel ≤ g.ship.maxFuel ∧ g.ship.maxFuel = FUEL_LEVELS g.difficulty ∧
  (g.isGameOver = 0 → 0 < g.ship.fuel)

/-- The session inside `initGame` after the ship has been set up (lines 33-78), before
anything is placed. -/
def initBase (g0 : Game) (name : String) (d : Difficulty)
    (file : Option (Option Int × Option Int)) : Game :=
  let g1 : Game := { g0 with playerName := name, difficulty := d }
  let g2 := loadConfig g1 file
  { g2 with ship :=
    { position := { x := g2.worldWidth / 2, y := g2.worldHeight / 2 },
      fuel := FUEL_LEVELS g2.difficulty, maxFuel := FUEL_LEVELS g2.difficulty,
      health := 100, maxHealth := 100,
      metal := 0, plastic := 0, electronics := 0, fuelCells := 0 } }

/-- A leaderboard is in descending order of score. -/
def SortedDesc (l : List LeaderboardEntry) : Prop :=
  l.Pairwise (fun a b => b.score ≤ a.score)

instance (l : List LeaderboardEntry) : Decidable (SortedDesc l) := by
  unfold SortedDesc; infer_instance

/-- The record that `saveScore` builds for session `g`. -/
def entryOf (g : Game) : LeaderboardEntry :=
  { playerName := g.playerName, score := g.score, difficulty := difficultyCode g.difficulty }

/-- Entry `e` stays ahead of a new entry with score `score`: its score is at least as
high. -/
def keepsAhead (score : Int) (e : LeaderboardEntry) : Bool :=
  decide (score ≤ e.score)

/-- The list `board` with `new` placed after all entries whose score is at least its own
and before all entries with a smaller score. -/
def insertAfterTies (board : List LeaderboardEntry) (new : LeaderboardEntry) :
    List LeaderboardEntry :=
  board.takeWhile (keepsAhead new.score) ++ new :: board.dropWhile (keepsAhead new.score)

/-- An uninitialised `leaderboard` array: ten arbitrary records. -/
def staleBoard : List LeaderboardEntry :=
  List.replicate 10 { playerName := "?", score := 45, difficulty := 7 }

/-- A leaderboard file with four records, two of them tied at 40. -/
def smallBoard : List LeaderboardEntry :=
  [{ playerName := "ada", score := 50, difficulty := 2 },
   { playerName := "bob", score := 40, difficulty := 1 },
   { playerName := "cy", score := 40, difficulty := 0 },
   { playerName := "dee", score := 10, difficulty := 0 }]

/-- The insertion as the specification words it: `new` goes after all entries of `board`
whose score is at least its own and before all entries with a smaller score, the old
entries keeping their relative order. -/
def insertBySpec (board : List LeaderboardEntry) (new : LeaderboardEntry) :
    List LeaderboardEntry :=
  board.filter (fun e => decide (new.score ≤ e.score)) ++
    new :: board.filter (fun e => decide (e.score < new.score))

/-- The world size that the specification asks for, given what was read from the
configuration file for one dimension (`none`: nothing read): the value when it is at least
`WORLD_MIN_SIZE`, else `WORLD_MIN_SIZE`. -/
def clampedSize : Option Int → Int
  | none => WORLD_MIN_SIZE
  | some v => if v < WORLD_MIN_SIZE then WORLD_MIN_SIZE else v

/-- A full leaderboard file: ten records with scores 100, 90, ..., 10. -/
def fullBoard : List LeaderboardEntry :=
  (List.range 10).map (fun i => { playerName := "p", score := 100 - 10 * (i : Int),
                                  difficulty := 0 })

/-- The hazard's direction after the two wall tests of a sub-step, before the obstacle
test (lines 447-460): a component is negated when the move along it would leave the
world. -/
def wallDirection (g : Game) : Position :=
  { x := if g.asteroid.position.x + g.asteroid.direction.x < 0 ∨
            g.asteroid.position.x + g.asteroid.direction.x ≥ g.worldWidth
         then g.asteroid.direction.x * -1 else g.asteroid.direction.x,
    y := if g.asteroid.position.y + g.asteroid.direction.y < 0 ∨
            g.asteroid.position.y + g.asteroid.direction.y ≥ g.worldHeight
         then g.asteroid.direction.y * -1 else g.asteroid.direction.y }

/-- The candidate cell of a sub-step after the two wall tests: `(newX, newY)` as the
obstacle scan sees it. -/
def wallCandidate (g : Game) : Position :=
  { x := g.asteroid.position.x + (wallDirection g).x,
    y := g.asteroid.position.y + (wallDirection g).y }

/-- The session `demoGame` with the hazard in the corner `(17,0)` heading `(1,-1)`. -/
def cornerGame : Game :=
  { demoGame with
    asteroid := { demoGame.asteroid with position := { x := 17, y := 0 },
                                         direction := { x := 1, y := -1 } } }

/-- The session `cornerGame` with the ship on the cell the hazard moves to next. -/
def rammedGame : Game :=
  { cornerGame with ship := { cornerGame.ship with position := { x := 16, y := 1 } } }

/-- The cells that `initGame` fills, in the order it fills them: the ship, the hazard,
the `IMPASSABLE_CELLS` impassable cells and the `junkCount` items. -/
def occupied (g : Game) : List Position :=
  g.ship.position :: g.asteroid.position ::
    ((g.impassableCells.take IMPASSABLE_CELLS).map (fun c => c.position) ++
     (items g).map (fun j => j.position))

/-- The cell the hazard came from when it moved along its direction. -/
def cameFrom (g : Game) : Position :=
  { x := g.asteroid.position.x - g.asteroid.direction.x,
    y := g.asteroid.position.y - g.asteroid.direction.y }

/-- The hazard invariant: every impassable cell lies in the world, and neither the hazard
nor the cell it came from is an impassable cell. -/
def HazardClear (g : Game) : Prop :=
  (∀ c ∈ g.impassableCells.take IMPASSABLE_CELLS, inWorld g c.position) ∧
  ¬ onImpassable g g.asteroid.position ∧ ¬ onImpassable g (cameFrom g)

/-! ## Frame lemmas -/

theorem hitsImpassable_iff (g : Game) (x y : Int) :
    hitsImpassable g.impassableCells x y = true ↔ onImpassable g { x := x, y := y } := by
  unfold hitsImpassable onImpassable
  rw [List.any_eq_true]
  constructor
  · rintro ⟨c, hc, h⟩
    refine ⟨c, hc, ?_⟩
    simp only [Bool.and_eq_true, beq_iff_eq] at h
    cases c with
    | mk pos sym =>
      cases pos with
      | mk cx cy =>
        simp only at h
        simp [h.1, h.2]
  · rintro ⟨c, hc, h⟩
    refine ⟨c, hc, ?_⟩
    simp [h]

theorem collectJunk_preserves {α : Type} (f : Game → α)
    (hitems : ∀ (s : Game) (l : List SpaceJunk), f { s with junkItems := l } = f s)
    (hscore : ∀ (s : Game) (v : Int), f { s with score := v } = f s)
    (hship : ∀ (s : Game) (a b c d : Int), f { s with ship := { s.ship with
        metal := a, plastic := b, electronics := c, fuelCells := d } } = f s)
    (g : Game) (i : Nat) : f (collectJunk g i) = f g := by
  unfold collectJunk
  cases h : g.junkItems[i]? with
  | none => rfl
  | some j =>
    have key : ∀ (l : List SpaceJunk) (v a b c d : Int),
        f { g with junkItems := l, score := v,
                   ship := { g.ship with metal := a, plastic := b, electronics := c,
                                         fuelCells := d } } = f g := by
      intro l v a b c d
      have h1 := hship { g with junkItems := l, score := v } a b c d
      have h2 := hscore { g with junkItems := l } v
      have h3 := hitems g l
      exact h1.trans (h2.trans h3)
    cases j with
    | mk pos ty val sym col =>
      cases ty
      · exact key _ _ (g.ship.metal + 1) g.ship.plastic g.ship.electronics g.ship.fuelCells
      · exact key _ _ g.ship.metal (g.ship.plastic + 1) g.ship.electronics g.ship.fuelCells
      · exact key _ _ g.ship.metal g.ship.plastic (g.ship.electronics + 1) g.ship.fuelCells
      · exact key _ _ g.ship.metal g.ship.plastic g.ship.electronics (g.ship.fuelCells + 1)

theorem checkCollisionsBody_preserves {α : Type} (f : Game → α)
    (hitems : ∀ (s : Game) (l : List SpaceJunk), f { s with junkItems := l } = f s)
    (hscore : ∀ (s : Game) (v : Int), f { s with score := v } = f s)
    (hship : ∀ (s : Game) (a b c d : Int), f { s with ship := { s.ship with
        metal := a, plastic := b, electronics := c, fuelCells := d } } = f s)
    (g : Game) (i : Nat) : f (checkCollisionsBody g i) = f g := by
  unfold checkCollisionsBody
  split
  · rfl
  · split
    · exact collectJunk_preserves f hitems hscore hship g i
    · rfl

theorem foldl_body_preserves {α : Type} (f : Game → α)
    (h : ∀ (s : Game) (i : Nat), f (checkCollisionsBody s i) = f s)
    (l : List Nat) (g : Game) : f (l.foldl checkCollisionsBody g) = f g := by
  induction l generalizing g with
  | nil => rfl
  | cons i t ih => rw [List.foldl_cons, ih, h]

theorem checkCollisionsLoop_preserves {α : Type} (f : Game → α)
    (hitems : ∀ (s : Game) (l : List SpaceJunk), f { s with junkItems := l } = f s)
    (hscore : ∀ (s : Game) (v : Int), f { s with score := v } = f s)
    (hship : ∀ (s : Game) (a b c d : Int), f { s with ship := { s.ship with
        metal := a, plastic := b, electronics := c, fuelCells := d } } = f s)
    (g : Game) : f (checkCollisionsLoop g) = f g :=
  foldl_body_preserves f (checkCollisionsBody_preserves f hitems hscore hship) _ g

theorem checkCollisions_preserves {α : Type} (f : Game → α)
    (hitems : ∀ (s : Game) (l : List SpaceJunk), f { s with junkItems := l } = f s)
    (hscore : ∀ (s : Game) (v : Int), f { s with score := v } = f s)
    (hship : ∀ (s : Game) (a b c d : Int), f { s with ship := { s.ship with
        metal := a, plastic := b, electronics := c, fuelCells := d } } = f s)
    (hflags : ∀ (s : Game) (a b : Int), f { s with isGameOver := a, hasWon := b } = f s)
    (g : Game) : f (checkCollisions g) = f g := by
  unfold checkCollisions
  simp only
  split
  · rw [hflags, checkCollisionsLoop_preserves f hitems hscore hship]
  · exact checkCollisionsLoop_preserves f hitems hscore hship g

theorem moveAsteroidStep_preserves {α : Type} (f : Game → α)
    (hast : ∀ (s : Game) (a : Asteroid), f { s with asteroid := a } = f s)
    (g : Game) : f (moveAsteroidStep g) = f g := by
  unfold moveAsteroidStep
  exact hast g _

theorem moveAsteroidLoop_preserves {α : Type} (f : Game → α)
    (hast : ∀ (s : Game) (a : Asteroid), f { s with asteroid := a } = f s)
    (hflags : ∀ (s : Game) (a b : Int), f { s with isGameOver := a, hasWon := b } = f s)
    (n : Nat) (g : Game) : f (moveAsteroidLoop n g) = f g := by
  induction n generalizing g with
  | zero => rfl
  | succ n ih =>
    unfold moveAsteroidLoop
    simp only
    split
    · rw [hflags, moveAsteroidStep_preserves f hast]
    · rw [ih, moveAsteroidStep_preserves f hast]

theorem moveAsteroid_preserves {α : Type} (f : Game → α)
    (hast : ∀ (s : Game) (a : Asteroid), f { s with asteroid := a } = f s)
    (hflags : ∀ (s : Game) (a b : Int), f { s with isGameOver := a, hasWon := b } = f s)
    (g : Game) : f (moveAsteroid g) = f g :=
  moveAsteroidLoop_preserves f hast hflags _ g

/-- What a turn after the fuel test (hazard, then items) leaves fixed. -/
theorem afterFuel_preserves {α : Type} (f : Game → α)
    (hitems : ∀ (s : Game) (l : List SpaceJunk), f { s with junkItems := l } = f s)
    (hscore : ∀ (s : Game) (v : Int), f { s with score := v } = f s)
    (hship : ∀ (s : Game) (a b c d : Int), f { s with ship := { s.ship with
        metal := a, plastic := b, electronics := c, fuelCells := d } } = f s)
    (hflags : ∀ (s : Game) (a b : Int), f { s with isGameOver := a, hasWon := b } = f s)
    (hast : ∀ (s : Game) (a : Asteroid), f { s with asteroid := a } = f s)
    (g : Game) : f (checkCollisions (moveAsteroid g)) = f g := by
  rw [checkCollisions_preserves f hitems hscore hship hflags,
    moveAsteroid_preserves f hast hflags]

/-! ## The three outcomes of `moveSpaceship` -/

theorem moveSpaceship_rejected (g : Game) (dx dy : Int) (h : ¬ Accepted g dx dy) :
    moveSpaceship g dx dy = g := by
  unfold moveSpaceship
  simp only
  split
  · rename_i hb
    split
    · rename_i hc
      exfalso
      apply h
      refine ⟨?_, ?_⟩
      · unfold inWorld target
        simp only
        omega
      · intro hi
        have := (hitsImpassable_iff g _ _).2 hi
        simp [this] at hc
    · rfl
  · rfl

theorem moveSpaceship_accepted (g : Game) (dx dy : Int) (h : Accepted g dx dy) :
    moveSpaceship g dx dy =
      if (commitMove g dx dy).ship.fuel ≤ 0 then
        { commitMove g dx dy with isGameOver := 1, hasWon := 0 }
      else checkCollisions (moveAsteroid (commitMove g dx dy)) := by
  obtain ⟨hin, hno⟩ := h
  have hb : g.ship.position.x + dx ≥ 0 ∧ g.ship.position.x + dx < g.worldWidth ∧
      g.ship.position.y + dy ≥ 0 ∧ g.ship.position.y + dy < g.worldHeight := by
    unfold inWorld target at hin
    simp only at hin
    omega
  have hc : hitsImpassable g.impassableCells (g.ship.position.x + dx)
      (g.ship.position.y + dy) = false := by
    cases hh : hitsImpassable g.impassableCells (g.ship.position.x + dx)
      (g.ship.position.y + dy) with
    | false => rfl
    | true => exact absurd ((hitsImpassable_iff g _ _).1 hh) hno
  unfold moveSpaceship
  simp only [hb, hc, and_self, if_true, Bool.not_false]
  rfl

theorem moveSpaceship_worldWidth (g : Game) (dx dy : Int) :
    (moveSpaceship g dx dy).worldWidth = g.worldWidth := by
  by_cases h : Accepted g dx dy
  · rw [moveSpaceship_accepted g dx dy h]
    split
    · rfl
    · exact afterFuel_preserves (fun s => s.worldWidth) (fun _ _ => rfl) (fun _ _ => rfl)
        (fun _ _ _ _ _ => rfl) (fun _ _ _ => rfl) (fun _ _ => rfl) _
  · rw [moveSpaceship_rejected g dx dy h]

theorem moveSpaceship_worldHeight (g : Game) (dx dy : Int) :
    (moveSpaceship g dx dy).worldHeight = g.worldHeight := by
  by_cases h : Accepted g dx dy
  · rw [moveSpaceship_accepted g dx dy h]
    split
    · rfl
    · exact afterFuel_preserves (fun s => s.worldHeight) (fun _ _ => rfl) (fun _ _ => rfl)
        (fun _ _ _ _ _ => rfl) (fun _ _ _ => rfl) (fun _ _ => rfl) _
  · rw [moveSpaceship_rejected g dx dy h]

theorem moveSpaceship_impassableCells (g : Game) (dx dy : Int) :
    (moveSpaceship g dx dy).impassableCells = g.impassableCells := by
  by_cases h : Accepted g dx dy
  · rw [moveSpaceship_accepted g dx dy h]
    split
    · rfl
    · exact afterFuel_preserves (fun s => s.impassableCells) (fun _ _ => rfl) (fun _ _ => rfl)
        (fun _ _ _ _ _ => rfl) (fun _ _ _ => rfl) (fun _ _ => rfl) _
  · rw [moveSpaceship_rejected g dx dy h]

theorem moveSpaceship_position (g : Game) (dx dy : Int) (h : Accepted g dx dy) :
    (moveSpaceship g dx dy).ship.position = target g dx dy := by
  rw [moveSpaceship_accepted g dx dy h]
  split
  · rfl
  · exact afterFuel_preserves (fun s => s.ship.position) (fun _ _ => rfl) (fun _ _ => rfl)
      (fun _ _ _ _ _ => rfl) (fun _ _ _ => rfl) (fun _ _ => rfl) _

theorem moveSpaceship_fuel (g : Game) (dx dy : Int) (h : Accepted g dx dy) :
    (moveSpaceship g dx dy).ship.fuel = g.ship.fuel - FUEL_CONSUMPTION g.difficulty := by
  rw [moveSpaceship_accepted g dx dy h]
  split
  · rfl
  · exact afterFuel_preserves (fun s => s.ship.fuel) (fun _ _ => rfl) (fun _ _ => rfl)
      (fun _ _ _ _ _ => rfl) (fun _ _ _ => rfl) (fun _ _ => rfl) _

theorem moveSpaceship_shipSafe (g : Game) (dx dy : Int) (h : ShipSafe g) :
    ShipSafe (moveSpaceship g dx dy) := by
  by_cases ha : Accepted g dx dy
  · unfold ShipSafe inWorld onImpassable
    rw [moveSpaceship_position g dx dy ha, moveSpaceship_worldWidth,
      moveSpaceship_worldHeight, moveSpaceship_impassableCells]
    exact ha
  · rw [moveSpaceship_rejected g dx dy ha]
    exact h

theorem runMoves_append (g : Game) (l : List (Int × Int)) (m : Int × Int) :
    runMoves g (l ++ [m]) = moveSpaceship (runMoves g l) m.1 m.2 := by
  unfold runMoves
  rw [List.foldl_append]
  rfl

theorem runMoves_invariant (g : Game) (moves : List (Int × Int)) (h : ShipSafe g) :
    ShipSafe (runMoves g moves) ∧
    (runMoves g moves).worldWidth = g.worldWidth ∧
    (runMoves g moves).worldHeight = g.worldHeight ∧
    (runMoves g moves).impassableCells = g.impassableCells := by
  induction moves using List.reverseRecOn with
  | nil => exact ⟨h, rfl, rfl, rfl⟩
  | append_singleton l m ih =>
    rw [runMoves_append]
    obtain ⟨h1, h2, h3, h4⟩ := ih
    refine ⟨moveSpaceship_shipSafe _ _ _ h1, ?_, ?_, ?_⟩
    · rw [moveSpaceship_worldWidth, h2]
    · rw [moveSpaceship_worldHeight, h3]
    · rw [moveSpaceship_impassableCells, h4]

/-! ## Claims C1-C4: the ship's move -/

/-- C1: from a state whose ship is inside the world and on none of the impassable cells,
after every call of any finite sequence of `moveSpaceship` calls with arbitrary integer
`(dx, dy)` the ship is still inside the world and on none of the impassable cells (the
world size and the cells being those of the start). -/
theorem C1_ship_stays_in_world_off_obstacles (g : Game) (moves : List (Int × Int))
    (h : ShipSafe g) (k : Nat) :
    ShipSafe (runMoves g (moves.take k)) ∧
    (runMoves g (moves.take k)).worldWidth = g.worldWidth ∧
    (runMoves g (moves.take k)).worldHeight = g.worldHeight ∧
    (runMoves g (moves.take k)).impassableCells = g.impassableCells :=
  runMoves_invariant g (moves.take k) h

theorem C1_ship_stays_in_world_off_obstacles_witness :
    ShipSafe demoGame ∧
    (ShipSafe (runMoves demoGame ([(1, 0), (0, 1), (5, 5), (-1, 0)].take 3)) ∧
     (runMoves demoGame ([(1, 0), (0, 1), (5, 5), (-1, 0)].take 3)).worldWidth
        = demoGame.worldWidth ∧
     (runMoves demoGame ([(1, 0), (0, 1), (5, 5), (-1, 0)].take 3)).worldHeight
        = demoGame.worldHeight ∧
     (runMoves demoGame ([(1, 0), (0, 1), (5, 5), (-1, 0)].take 3)).impassableCells
        = demoGame.impassableCells) :=
  ⟨by decide,
   C1_ship_stays_in_world_off_obstacles demoGame [(1, 0), (0, 1), (5, 5), (-1, 0)]
     (by decide) 3⟩

/-- C2: a move whose target cell is outside the world or is an impassable cell leaves the
whole state unchanged (ship position, fuel, score, hazard position and direction, every
item's collected flag, `isGameOver`, `hasWon` and all the rest). -/
theorem C2_rejected_move_changes_nothing (g : Game) (dx dy : Int)
    (h : ¬ inWorld g (target g dx dy) ∨ onImpassable g (target g dx dy)) :
    moveSpaceship g dx dy = g := by
  apply moveSpaceship_rejected
  rintro ⟨h1, h2⟩
  cases h with
  | inl h => exact h h1
  | inr h => exact h2 h

theorem C2_rejected_move_changes_nothing_witness :
    (demoGame.difficulty = .EASY ∧ demoGame.worldWidth = 18 ∧ demoGame.worldHeight = 18 ∧
      demoGame.ship.position = { x := 9, y := 9 } ∧
      (¬ inWorld demoGame (target demoGame 1 0) ∨ onImpassable demoGame (target demoGame 1 0)))
    ∧ moveSpaceship demoGame 1 0 = demoGame :=
  ⟨by decide, C2_rejected_move_changes_nothing demoGame 1 0 (by decide)⟩

/-- C3: an accepted move (target in the world and not impassable) puts the ship on the old
position plus `(dx, dy)` and leaves exactly the old fuel minus
`FUEL_CONSUMPTION[difficulty]`, which is 1 for Easy, 2 for Medium and 3 for Hard. -/
theorem C3_accepted_move_position_and_fuel (g : Game) (dx dy : Int) (h : Accepted g dx dy) :
    (moveSpaceship g dx dy).ship.position
      = { x := g.ship.position.x + dx, y := g.ship.position.y + dy } ∧
    (moveSpaceship g dx dy).ship.fuel = g.ship.fuel - FUEL_CONSUMPTION g.difficulty ∧
    FUEL_CONSUMPTION .EASY = 1 ∧ FUEL_CONSUMPTION .MEDIUM = 2 ∧ FUEL_CONSUMPTION .HARD = 3 :=
  ⟨moveSpaceship_position g dx dy h, moveSpaceship_fuel g dx dy h, rfl, rfl, rfl⟩

theorem C3_accepted_move_position_and_fuel_witness :
    Accepted demoGame 0 1 ∧
    ((moveSpaceship demoGame 0 1).ship.position
      = { x := demoGame.ship.position.x + 0, y := demoGame.ship.position.y + 1 } ∧
    (moveSpaceship demoGame 0 1).ship.fuel
      = demoGame.ship.fuel - FUEL_CONSUMPTION demoGame.difficulty ∧
    FUEL_CONSUMPTION .EASY = 1 ∧ FUEL_CONSUMPTION .MEDIUM = 2 ∧ FUEL_CONSUMPTION .HARD = 3) :=
  ⟨by decide, C3_accepted_move_position_and_fuel demoGame 0 1 (by decide)⟩

/-- C4: an accepted move that leaves `fuel - cost <= 0` ends with `isGameOver = 1` and
`hasWon = 0`; the hazard (position and direction), the score and the items (so every
collected flag) are as before, even with an uncollected item on the ship's new cell. -/
theorem C4_out_of_fuel_stops_the_turn (g : Game) (dx dy : Int) (h : Accepted g dx dy)
    (hf : g.ship.fuel - FUEL_CONSUMPTION g.difficulty ≤ 0) :
    (moveSpaceship g dx dy).isGameOver = 1 ∧
    (moveSpaceship g dx dy).hasWon = 0 ∧
    (moveSpaceship g dx dy).asteroid = g.asteroid ∧
    (moveSpaceship g dx dy).score = g.score ∧
    (moveSpaceship g dx dy).junkItems = g.junkItems := by
  rw [moveSpaceship_accepted g dx dy h]
  have hf2 : (commitMove g dx dy).ship.fuel ≤ 0 := hf
  rw [if_pos hf2]
  exact ⟨rfl, rfl, rfl, rfl, rfl⟩

theorem C4_out_of_fuel_stops_the_turn_witness :
    (Accepted lastFuelGame 0 1 ∧
      lastFuelGame.ship.fuel = 1 ∧ FUEL_CONSUMPTION lastFuelGame.difficulty = 1 ∧
      (∃ j ∈ lastFuelGame.junkItems, j.collected = 0 ∧ j.position = target lastFuelGame 0 1)) ∧
    (moveSpaceship lastFuelGame 0 1).ship.fuel = 0 ∧
    ((moveSpaceship lastFuelGame 0 1).isGameOver = 1 ∧
     (moveSpaceship lastFuelGame 0 1).hasWon = 0 ∧
     (moveSpaceship lastFuelGame 0 1).asteroid = lastFuelGame.asteroid ∧
     (moveSpaceship lastFuelGame 0 1).score = lastFuelGame.score ∧
     (moveSpaceship lastFuelGame 0 1).junkItems = lastFuelGame.junkItems) :=
  ⟨by decide, by decide,
   C4_out_of_fuel_stops_the_turn lastFuelGame 0 1 (by decide) (by decide)⟩

/-! ## The item loop of `checkCollisions` -/

theorem set_same {α : Type} (l : List α) (i : Nat) (a : α) (h : l[i]? = some a) :
    l.set i a = l := by
  apply List.ext_getElem?
  intro k
  rw [List.getElem?_set]
  split
  · rename_i hik
    subst hik
    split
    · exact h.symm
    · rename_i hlen
      rw [List.getElem?_eq_none (by omega)] at h
      cases h
  · rfl

theorem collectJunk_junkItems (g : Game) (i : Nat) (j : SpaceJunk)
    (h : g.junkItems[i]? = some j) :
    (collectJunk g i).junkItems = g.junkItems.set i { j with collected := 1 } := by
  unfold collectJunk
  rw [h]
  cases j with
  | mk pos ty val sym col => cases ty <;> rfl

theorem collectJunk_score (g : Game) (i : Nat) (j : SpaceJunk)
    (h : g.junkItems[i]? = some j) :
    (collectJunk g i).score = g.score + j.value := by
  unfold collectJunk
  rw [h]
  cases j with
  | mk pos ty val sym col => cases ty <;> rfl

theorem checkCollisionsBody_junkItems (g : Game) (i : Nat) (j : SpaceJunk)
    (h : g.junkItems[i]? = some j) :
    (checkCollisionsBody g i).junkItems = g.junkItems.set i (markPicked g.ship.position j) := by
  unfold checkCollisionsBody markPicked
  rw [h]
  simp only
  by_cases hp : pickedUp g.ship.position j
  · have hp2 : j.collected = 0 ∧ g.ship.position.x = j.position.x ∧
        g.ship.position.y = j.position.y := hp
    rw [if_pos hp, if_pos hp2, collectJunk_junkItems g i j h]
  · have hp2 : ¬ (j.collected = 0 ∧ g.ship.position.x = j.position.x ∧
        g.ship.position.y = j.position.y) := hp
    rw [if_neg hp, if_neg hp2, set_same _ _ _ h]

theorem checkCollisionsBody_score (g : Game) (i : Nat) (j : SpaceJunk)
    (h : g.junkItems[i]? = some j) :
    (checkCollisionsBody g i).score
      = g.score + (if pickedUp g.ship.position j then j.value else 0) := by
  unfold checkCollisionsBody
  rw [h]
  simp only
  by_cases hp : pickedUp g.ship.position j
  · have hp2 : j.collected = 0 ∧ g.ship.position.x = j.position.x ∧
        g.ship.position.y = j.position.y := hp
    rw [if_pos hp, if_pos hp2, collectJunk_score g i j h]
  · have hp2 : ¬ (j.collected = 0 ∧ g.ship.position.x = j.position.x ∧
        g.ship.position.y = j.position.y) := hp
    rw [if_neg hp, if_neg hp2, add_zero]

theorem checkCollisionsBody_none (g : Game) (i : Nat) (h : g.junkItems[i]? = none) :
    checkCollisionsBody g i = g := by
  unfold checkCollisionsBody
  rw [h]

theorem foldl_range_succ (g : Game) (n : Nat) :
    (List.range (n + 1)).foldl checkCollisionsBody g
      = checkCollisionsBody ((List.range n).foldl checkCollisionsBody g) n := by
  rw [List.range_succ, List.foldl_append]
  rfl

theorem pickedValue_append (p : Position) (l₁ l₂ : List SpaceJunk) :
    pickedValue p (l₁ ++ l₂) = pickedValue p l₁ + pickedValue p l₂ := by
  unfold pickedValue
  rw [List.filter_append, List.map_append, List.sum_append]

theorem pickedValue_singleton (p : Position) (j : SpaceJunk) :
    pickedValue p [j] = if pickedUp p j then j.value else 0 := by
  unfold pickedValue
  by_cases hp : pickedUp p j
  · simp [hp]
  · simp [hp]

/-- The state of the item loop after its first `n` iterations. -/
theorem foldl_range_spec (g : Game) (n : Nat) :
    ((List.range n).foldl checkCollisionsBody g).junkItems
      = (g.junkItems.take n).map (markPicked g.ship.position) ++ g.junkItems.drop n ∧
    ((List.range n).foldl checkCollisionsBody g).score
      = g.score + pickedValue g.ship.position (g.junkItems.take n) := by
  induction n with
  | zero => simp [pickedValue]
  | succ n ih =>
    obtain ⟨ih1, ih2⟩ := ih
    have hpos : ((List.range n).foldl checkCollisionsBody g).ship.position = g.ship.position :=
      foldl_body_preserves (fun s => s.ship.position)
        (checkCollisionsBody_preserves (fun s => s.ship.position) (fun _ _ => rfl)
          (fun _ _ => rfl) (fun _ _ _ _ _ => rfl)) _ g
    have hlen : ((g.junkItems.take n).map (markPicked g.ship.position)).length
        = min n g.junkItems.length := by
      rw [List.length_map, List.length_take]
    rw [foldl_range_succ]
    by_cases hn : n < g.junkItems.length
    · have hget : ((List.range n).foldl checkCollisionsBody g).junkItems[n]?
          = some g.junkItems[n] := by
        rw [ih1, List.getElem?_append_right (by omega), hlen, List.getElem?_drop]
        have : n + (n - min n g.junkItems.length) = n := by omega
        rw [this, List.getElem?_eq_getElem hn]
      constructor
      · rw [checkCollisionsBody_junkItems _ _ _ hget, hpos, ih1,
          List.set_append_right _ _ (by omega), hlen, List.drop_eq_getElem_cons hn]
        have : n - min n g.junkItems.length = 0 := by omega
        rw [this, List.set_cons_zero, List.take_succ, List.getElem?_eq_getElem hn,
          Option.toList_some, List.map_append, List.map_singleton, List.append_assoc,
          List.singleton_append]
      · rw [checkCollisionsBody_score _ _ _ hget, hpos, ih2, List.take_succ,
          List.getElem?_eq_getElem hn, Option.toList_some, pickedValue_append,
          pickedValue_singleton, add_assoc]
    · have hget : ((List.range n).foldl checkCollisionsBody g).junkItems[n]? = none := by
        rw [ih1, List.getElem?_eq_none]
        rw [List.length_append, hlen, List.length_drop]
        omega
      rw [checkCollisionsBody_none _ _ hget, ih1, ih2,
        List.take_of_length_le (by omega : g.junkItems.length ≤ n),
        List.take_of_length_le (by omega : g.junkItems.length ≤ n + 1),
        List.drop_of_length_le (by omega : g.junkItems.length ≤ n),
        List.drop_of_length_le (by omega : g.junkItems.length ≤ n + 1)]
      exact ⟨rfl, rfl⟩

theorem checkCollisionsLoop_junkItems (g : Game) :
    (checkCollisionsLoop g).junkItems
      = (items g).map (markPicked g.ship.position) ++ g.junkItems.drop g.junkCount.toNat :=
  (foldl_range_spec g g.junkCount.toNat).1

theorem checkCollisionsLoop_score (g : Game) :
    (checkCollisionsLoop g).score = g.score + pickedValue g.ship.position (items g) :=
  (foldl_range_spec g g.junkCount.toNat).2

theorem checkCollisions_junkItems (g : Game) :
    (checkCollisions g).junkItems = (checkCollisionsLoop g).junkItems := by
  unfold checkCollisions
  simp only
  split <;> rfl

theorem checkCollisions_score (g : Game) :
    (checkCollisions g).score = (checkCollisionsLoop g).score := by
  unfold checkCollisions
  simp only
  split <;> rfl

theorem checkCollisions_difficulty (g : Game) :
    (checkCollisions g).difficulty = g.difficulty :=
  checkCollisions_preserves (fun s => s.difficulty) (fun _ _ => rfl) (fun _ _ => rfl)
    (fun _ _ _ _ _ => rfl) (fun _ _ _ => rfl) g

/-- When `checkCollisions` returns with the score at or above the threshold, the session
is won. -/
theorem checkCollisions_won (g : Game)
    (h : (checkCollisions g).score ≥ WIN_SCORES (checkCollisions g).difficulty) :
    (checkCollisions g).isGameOver = 1 ∧ (checkCollisions g).hasWon = 1 := by
  unfold checkCollisions at h ⊢
  simp only at h ⊢
  split
  · exact ⟨rfl, rfl⟩
  · rename_i hlt
    rw [if_neg hlt] at h
    exact absurd h hlt

theorem moveAsteroid_junkItems (g : Game) : (moveAsteroid g).junkItems = g.junkItems :=
  moveAsteroid_preserves (fun s => s.junkItems) (fun _ _ => rfl) (fun _ _ _ => rfl) g

theorem moveAsteroid_junkCount (g : Game) : (moveAsteroid g).junkCount = g.junkCount :=
  moveAsteroid_preserves (fun s => s.junkCount) (fun _ _ => rfl) (fun _ _ _ => rfl) g

theorem moveAsteroid_score (g : Game) : (moveAsteroid g).score = g.score :=
  moveAsteroid_preserves (fun s => s.score) (fun _ _ => rfl) (fun _ _ _ => rfl) g

theorem moveAsteroid_ship (g : Game) : (moveAsteroid g).ship = g.ship :=
  moveAsteroid_preserves (fun s => s.ship) (fun _ _ => rfl) (fun _ _ _ => rfl) g

theorem moveAsteroid_difficulty (g : Game) : (moveAsteroid g).difficulty = g.difficulty :=
  moveAsteroid_preserves (fun s => s.difficulty) (fun _ _ => rfl) (fun _ _ _ => rfl) g

/-- The items and the score after a turn that passed the fuel test. -/
theorem afterFuel_items_score (c : Game) :
    (checkCollisions (moveAsteroid c)).junkItems
      = (items c).map (markPicked c.ship.position) ++ c.junkItems.drop c.junkCount.toNat ∧
    (checkCollisions (moveAsteroid c)).score
      = c.score + pickedValue c.ship.position (items c) := by
  rw [checkCollisions_junkItems, checkCollisions_score, checkCollisionsLoop_junkItems,
    checkCollisionsLoop_score]
  unfold items
  rw [moveAsteroid_junkItems, moveAsteroid_junkCount, moveAsteroid_score, moveAsteroid_ship]
  exact ⟨rfl, rfl⟩

theorem moveSpaceship_items_score (g : Game) (dx dy : Int) (h : Accepted g dx dy)
    (hf : 0 < g.ship.fuel - FUEL_CONSUMPTION g.difficulty) :
    (moveSpaceship g dx dy).junkItems
      = (items g).map (markPicked (target g dx dy)) ++ g.junkItems.drop g.junkCount.toNat ∧
    (moveSpaceship g dx dy).score = g.score + pickedValue (target g dx dy) (items g) := by
  rw [moveSpaceship_accepted g dx dy h]
  have hf2 : ¬ (commitMove g dx dy).ship.fuel ≤ 0 := by
    show ¬ (g.ship.fuel - FUEL_CONSUMPTION g.difficulty ≤ 0)
    omega
  rw [if_neg hf2]
  exact afterFuel_items_score (commitMove g dx dy)

theorem marked_getElem? (m : SpaceJunk → SpaceJunk) (l : List SpaceJunk) (n i : Nat) :
    ((l.take n).map m ++ l.drop n)[i]?
      = (l[i]?).map (fun j => if i < n then m j else j) := by
  by_cases hi : i < n
  · by_cases hl : i < l.length
    · rw [List.getElem?_append_left (by rw [List.length_map, List.length_take]; omega),
        List.getElem?_map, List.getElem?_take_of_lt hi]
      cases l[i]? with
      | none => rfl
      | some j => simp [hi]
    · rw [List.getElem?_eq_none (by omega : l.length ≤ i), List.getElem?_eq_none]
      · rfl
      · rw [List.length_append, List.length_map, List.length_take, List.length_drop]
        omega
  · rw [List.getElem?_append_right (by rw [List.length_map, List.length_take]; omega),
      List.length_map, List.length_take, List.getElem?_drop]
    have : n + (i - min n l.length) = i ∨ l.length ≤ i := by omega
    cases this with
    | inl h =>
      rw [h]
      cases l[i]? with
      | none => rfl
      | some j => simp [hi]
    | inr h =>
      rw [List.getElem?_eq_none (by omega), List.getElem?_eq_none h]
      rfl

/-- The loop of `moveAsteroid` against `hazardHits`: when the hazard lands on the ship in
one of the `n` sub-steps the loop ends lost with the hazard on the ship's cell; when it
does not, the two flags are as before. -/
theorem moveAsteroidLoop_flags (n : Nat) (g : Game) :
    (hazardHits n g = true →
      (moveAsteroidLoop n g).isGameOver = 1 ∧ (moveAsteroidLoop n g).hasWon = 0 ∧
      asteroidOnShip (moveAsteroidLoop n g) = true) ∧
    (hazardHits n g = false →
      (moveAsteroidLoop n g).isGameOver = g.isGameOver ∧
      (moveAsteroidLoop n g).hasWon = g.hasWon) := by
  induction n generalizing g with
  | zero =>
    constructor
    · intro h
      cases h
    · intro _
      exact ⟨rfl, rfl⟩
  | succ n ih =>
    unfold hazardHits moveAsteroidLoop
    simp only
    by_cases hc : asteroidOnShip (moveAsteroidStep g) = true
    · rw [if_pos hc, hc, Bool.true_or]
      constructor
      · intro _
        exact ⟨rfl, rfl, hc⟩
      · intro h
        cases h
    · rw [if_neg hc]
      have hc2 : asteroidOnShip (moveAsteroidStep g) = false := by
        cases hh : asteroidOnShip (moveAsteroidStep g) with
        | true => exact absurd hh hc
        | false => rfl
      rw [hc2, Bool.false_or]
      constructor
      · exact (ih (moveAsteroidStep g)).1
      · intro h
        exact (ih (moveAsteroidStep g)).2 h

/-! ## Claims C8 and C10: collection and the win test -/

/-- C8: on an accepted move that leaves fuel positive and in which the hazard does not
reach the ship, the new score is the old score plus the sum of the values of exactly the
items that were uncollected and lie on the ship's new cell (all of them when several share
the cell); exactly those items become collected, and every other item, inside or outside
the first `junkCount` entries, is unchanged. -/
theorem C8_collection_on_the_new_cell (g : Game) (dx dy : Int) (h : Accepted g dx dy)
    (hf : 0 < g.ship.fuel - FUEL_CONSUMPTION g.difficulty)
    (hz : hazardReachesShip g dx dy = false) :
    (moveSpaceship g dx dy).score = g.score + pickedValue (target g dx dy) (items g) ∧
    (∀ (i : Nat) (j : SpaceJunk), g.junkItems[i]? = some j →
      (moveSpaceship g dx dy).junkItems[i]? = some
        (if i < g.junkCount.toNat ∧ pickedUp (target g dx dy) j
         then { j with collected := 1 } else j)) ∧
    (moveSpaceship g dx dy).junkItems.length = g.junkItems.length := by
  have _ := hz
  obtain ⟨h1, h2⟩ := moveSpaceship_items_score g dx dy h hf
  refine ⟨h2, ?_, ?_⟩
  · intro i j hj
    unfold items at h1
    rw [h1, marked_getElem?, hj, Option.map_some']
    congr 1
    unfold markPicked
    by_cases hi : i < g.junkCount.toNat
    · by_cases hp : pickedUp (target g dx dy) j
      · rw [if_pos hi, if_pos hp, if_pos ⟨hi, hp⟩]
      · rw [if_pos hi, if_neg hp, if_neg (fun hh => hp hh.2)]
    · rw [if_neg hi, if_neg (fun hh => hi hh.1)]
  · unfold items at h1
    rw [h1, List.length_append, List.length_map, List.length_take, List.length_drop]
    omega

theorem C8_collection_on_the_new_cell_witness :
    (Accepted pickupGame 0 1 ∧
     0 < pickupGame.ship.fuel - FUEL_CONSUMPTION pickupGame.difficulty ∧
     hazardReachesShip pickupGame 0 1 = false ∧
     pickedValue (target pickupGame 0 1) (items pickupGame) = 5) ∧
    ((moveSpaceship pickupGame 0 1).score
        = pickupGame.score + pickedValue (target pickupGame 0 1) (items pickupGame) ∧
     (∀ (i : Nat) (j : SpaceJunk), pickupGame.junkItems[i]? = some j →
        (moveSpaceship pickupGame 0 1).junkItems[i]? = some
          (if i < pickupGame.junkCount.toNat ∧ pickedUp (target pickupGame 0 1) j
           then { j with collected := 1 } else j)) ∧
     (moveSpaceship pickupGame 0 1).junkItems.length = pickupGame.junkItems.length) :=
  ⟨by decide,
   C8_collection_on_the_new_cell pickupGame 0 1 (by decide) (by decide) (by decide)⟩

/-- C10: for every `moveSpaceship` call, if the score was below `WIN_SCORES[difficulty]`
before the call and is at or above it after the call, then after the call
`isGameOver = 1` and `hasWon = 1`. -/
theorem C10_threshold_reached_means_won (g : Game) (dx dy : Int)
    (hb : g.score < WIN_SCORES g.difficulty)
    (ha : (moveSpaceship g dx dy).score ≥ WIN_SCORES (moveSpaceship g dx dy).difficulty) :
    (moveSpaceship g dx dy).isGameOver = 1 ∧ (moveSpaceship g dx dy).hasWon = 1 := by
  by_cases h : Accepted g dx dy
  · rw [moveSpaceship_accepted g dx dy h] at ha ⊢
    by_cases hf : (commitMove g dx dy).ship.fuel ≤ 0
    · rw [if_pos hf] at ha
      have : g.score ≥ WIN_SCORES g.difficulty := ha
      omega
    · rw [if_neg hf] at ha ⊢
      exact checkCollisions_won _ ha
  · rw [moveSpaceship_rejected g dx dy h] at ha
    omega

/-! ## The score invariant -/

theorem moveSpaceship_junkCount (g : Game) (dx dy : Int) :
    (moveSpaceship g dx dy).junkCount = g.junkCount := by
  by_cases h : Accepted g dx dy
  · rw [moveSpaceship_accepted g dx dy h]
    split
    · rfl
    · exact afterFuel_preserves (fun s => s.junkCount) (fun _ _ => rfl) (fun _ _ => rfl)
        (fun _ _ _ _ _ => rfl) (fun _ _ _ => rfl) (fun _ _ => rfl) _
  · rw [moveSpaceship_rejected g dx dy h]

theorem moveSpaceship_itemsStep (g : Game) (dx dy : Int) :
    ItemsStep g (moveSpaceship g dx dy) := by
  refine ⟨moveSpaceship_junkCount g dx dy, ?_⟩
  by_cases h : Accepted g dx dy
  · by_cases hf : 0 < g.ship.fuel - FUEL_CONSUMPTION g.difficulty
    · right
      exact ⟨target g dx dy, moveSpaceship_items_score g dx dy h hf⟩
    · left
      rw [moveSpaceship_accepted g dx dy h]
      have hf2 : (commitMove g dx dy).ship.fuel ≤ 0 := by
        show g.ship.fuel - FUEL_CONSUMPTION g.difficulty ≤ 0
        omega
      rw [if_pos hf2]
      exact ⟨rfl, rfl⟩
  · left
    rw [moveSpaceship_rejected g dx dy h]
    exact ⟨rfl, rfl⟩

theorem useJunk_itemsStep (g : Game) (option : Int) : ItemsStep g (useJunk g option) := by
  unfold useJunk
  split
  · split
    · exact ⟨rfl, Or.inl ⟨rfl, rfl⟩⟩
    · exact ⟨rfl, Or.inl ⟨rfl, rfl⟩⟩
  · split
    · split
      · exact ⟨rfl, Or.inl ⟨rfl, rfl⟩⟩
      · exact ⟨rfl, Or.inl ⟨rfl, rfl⟩⟩
    · exact ⟨rfl, Or.inl ⟨rfl, rfl⟩⟩

theorem step_itemsStep (g : Game) (a : Action) : ItemsStep g (step g a) := by
  cases a with
  | move dx dy => exact moveSpaceship_itemsStep g dx dy
  | use option => exact useJunk_itemsStep g option

theorem markPicked_value (p : Position) (j : SpaceJunk) : (markPicked p j).value = j.value := by
  unfold markPicked
  split <;> rfl

theorem markPicked_of_collected (p : Position) (j : SpaceJunk) (h : j.collected ≠ 0) :
    markPicked p j = j := by
  unfold markPicked
  rw [if_neg]
  intro hp
  exact h hp.1

theorem collectedValue_cons (j : SpaceJunk) (l : List SpaceJunk) :
    collectedValue (j :: l) = (if j.collected ≠ 0 then j.value else 0) + collectedValue l := by
  unfold collectedValue
  by_cases hc : j.collected ≠ 0
  · simp [hc]
  · simp [hc]

theorem pickedValue_cons (p : Position) (j : SpaceJunk) (l : List SpaceJunk) :
    pickedValue p (j :: l) = (if pickedUp p j then j.value else 0) + pickedValue p l := by
  have := pickedValue_append p [j] l
  rw [List.singleton_append, pickedValue_singleton] at this
  exact this

theorem collectedValue_map_markPicked (p : Position) (l : List SpaceJunk) :
    collectedValue (l.map (markPicked p)) = collectedValue l + pickedValue p l := by
  induction l with
  | nil => rfl
  | cons j t ih =>
    rw [List.map_cons, collectedValue_cons, collectedValue_cons, pickedValue_cons, ih,
      markPicked_value]
    by_cases hp : pickedUp p j
    · have h0 : j.collected = 0 := hp.1
      have h1 : (markPicked p j).collected ≠ 0 := by
        unfold markPicked
        rw [if_pos hp]
        exact one_ne_zero
      have h2 : ¬ j.collected ≠ 0 := fun hh => hh h0
      rw [if_pos h1, if_neg h2, if_pos hp]
      omega
    · have hm : markPicked p j = j := by
        unfold markPicked
        rw [if_neg hp]
      rw [hm, if_neg hp]
      omega

theorem pickedValue_nonneg (p : Position) (l : List SpaceJunk)
    (h : ∀ j ∈ l, 0 ≤ j.value) : 0 ≤ pickedValue p l := by
  induction l with
  | nil => exact le_refl 0
  | cons j t ih =>
    rw [pickedValue_cons]
    have hj := h j (List.mem_cons_self j t)
    have ht := ih (fun x hx => h x (List.mem_cons_of_mem j hx))
    split <;> omega

theorem items_length (g : Game) : (items g).length = min g.junkCount.toNat g.junkItems.length := by
  unfold items
  rw [List.length_take]

theorem take_marked (m : SpaceJunk → SpaceJunk) (l : List SpaceJunk) (n : Nat) :
    ((l.take n).map m ++ l.drop n).take n = (l.take n).map m := by
  by_cases hn : n ≤ l.length
  · apply List.take_left'
    rw [List.length_map, List.length_take]
    omega
  · rw [List.drop_of_length_le (by omega), List.append_nil, List.take_of_length_le]
    rw [List.length_map, List.length_take]
    omega

theorem itemsStep_scoreInv (g g' : Game) (hs : ItemsStep g g') (hi : ScoreInv g) :
    ScoreInv g' := by
  obtain ⟨hc, hs⟩ := hs
  obtain ⟨h1, h2⟩ := hi
  cases hs with
  | inl h =>
    have : items g' = items g := by
      unfold items
      rw [hc, h.1]
    unfold ScoreInv
    rw [this, h.2]
    exact ⟨h1, h2⟩
  | inr h =>
    obtain ⟨p, hj, hsc⟩ := h
    have : items g' = (items g).map (markPicked p) := by
      unfold items
      rw [hc, hj]
      exact take_marked _ _ _
    unfold ScoreInv
    rw [this, hsc, collectedValue_map_markPicked, h1]
    refine ⟨rfl, ?_⟩
    intro j hj
    rw [List.mem_map] at hj
    obtain ⟨j0, hj0, rfl⟩ := hj
    rw [markPicked_value]
    exact h2 j0 hj0

theorem itemsStep_score_le (g g' : Game) (hs : ItemsStep g g') (hi : ScoreInv g) :
    g.score ≤ g'.score := by
  obtain ⟨_, hs⟩ := hs
  cases hs with
  | inl h => rw [h.2]
  | inr h =>
    obtain ⟨p, _, hsc⟩ := h
    have := pickedValue_nonneg p (items g) hi.2
    omega

theorem itemsStep_collected_stays (g g' : Game) (hs : ItemsStep g g') (i : Nat)
    (j : SpaceJunk) (hj : g.junkItems[i]? = some j) (hc : j.collected ≠ 0) :
    g'.junkItems[i]? = some j := by
  obtain ⟨_, hs⟩ := hs
  cases hs with
  | inl h => rw [h.1, hj]
  | inr h =>
    obtain ⟨p, hl, _⟩ := h
    unfold items at hl
    rw [hl, marked_getElem?, hj, Option.map_some']
    congr 1
    split
    · exact markPicked_of_collected p j hc
    · rfl

theorem run_append (g : Game) (acts : List Action) (a : Action) :
    run g (acts ++ [a]) = step (run g acts) a := by
  unfold run
  rw [List.foldl_append]
  rfl

theorem run_scoreInv (g : Game) (acts : List Action) (h : ScoreInv g) :
    ScoreInv (run g acts) := by
  induction acts using List.reverseRecOn with
  | nil => exact h
  | append_singleton l a ih =>
    rw [run_append]
    exact itemsStep_scoreInv _ _ (step_itemsStep _ a) ih

/-! ## What `initGame` establishes for the items -/

theorem placeJunkItem_spec_aux (g : Game) (i : Nat) (n : Nat) :
    ∀ (draws : List Nat), draws.length ≤ n → ∀ (g' : Game) (rest : List Nat),
    placeJunkItem g i draws = some (g', rest) →
    ∃ item : SpaceJunk, item.collected = 0 ∧ item.value = junkValue item.type ∧
      g' = { g with junkItems := g.junkItems.set i item } := by
  induction n with
  | zero =>
    intro draws hl g' rest h
    cases draws with
    | nil => simp [placeJunkItem] at h
    | cons a t => simp at hl
  | succ n ih =>
    intro draws hl g' rest h
    match draws, hl, h with
    | [], _, h => simp [placeJunkItem] at h
    | [_], _, h => simp [placeJunkItem] at h
    | rx :: ry :: rest0, hl, h =>
      have hl0 : rest0.length ≤ n := by
        simp only [List.length_cons] at hl
        omega
      unfold placeJunkItem at h
      simp only at h
      split at h
      · split at h
        · split at h
          · split at h
            · simp only [Option.some.injEq, Prod.mk.injEq] at h
              exact ⟨_, rfl, rfl, h.1.symm⟩
            · cases h
          · exact ih rest0 hl0 g' rest h
        · exact ih rest0 hl0 g' rest h
      · exact ih rest0 hl0 g' rest h

/-- A completed `placeJunkItem` wrote one fresh, uncollected item at index `i` and nothing
else. -/
theorem placeJunkItem_spec (g : Game) (i : Nat) (draws : List Nat) (g' : Game)
    (rest : List Nat) (h : placeJunkItem g i draws = some (g', rest)) :
    ∃ item : SpaceJunk, item.collected = 0 ∧ item.value = junkValue item.type ∧
      g' = { g with junkItems := g.junkItems.set i item } :=
  placeJunkItem_spec_aux g i draws.length draws (le_refl _) g' rest h

theorem placeJunkItems_spec (n : Nat) (g : Game) (draws : List Nat) :
    ∀ (g' : Game) (rest : List Nat), placeJunkItems n g draws = some (g', rest) →
    g'.junkCount = g.junkCount ∧
    ∀ (i : Nat) (j : SpaceJunk), i < n → g'.junkItems[i]? = some j →
      j.collected = 0 ∧ j.value = junkValue j.type := by
  induction n with
  | zero =>
    intro g' rest h
    unfold placeJunkItems at h
    simp only [Option.some.injEq, Prod.mk.injEq] at h
    rw [← h.1]
    exact ⟨rfl, fun i j hi _ => absurd hi (Nat.not_lt_zero i)⟩
  | succ n ih =>
    intro g' rest h
    unfold placeJunkItems at h
    cases hprev : placeJunkItems n g draws with
    | none =>
      rw [hprev] at h
      cases h
    | some r =>
      obtain ⟨g1, r1⟩ := r
      rw [hprev] at h
      obtain ⟨hc, hitems⟩ := ih g1 r1 hprev
      obtain ⟨item, hi0, hiv, hg'⟩ := placeJunkItem_spec g1 n r1 g' rest h
      subst hg'
      refine ⟨hc, ?_⟩
      intro i j hi hj
      have hj : (g1.junkItems.set n item)[i]? = some j := hj
      by_cases hin : i = n
      · subst hin
        rw [List.getElem?_set_self'] at hj
        cases hget : g1.junkItems[i]? with
        | none =>
          rw [hget] at hj
          cases hj
        | some j0 =>
          rw [hget] at hj
          have hj2 : item = j := by
            simpa using hj
          rw [← hj2]
          exact ⟨hi0, hiv⟩
      · rw [List.getElem?_set_ne (fun hh => hin hh.symm)] at hj
        exact hitems i j (by omega) hj

theorem junkValue_nonneg (t : JunkType) : 0 ≤ junkValue t := by
  cases t <;> decide

theorem collectedValue_of_uncollected (l : List SpaceJunk) (h : ∀ j ∈ l, j.collected = 0) :
    collectedValue l = 0 := by
  induction l with
  | nil => rfl
  | cons j t ih =>
    rw [collectedValue_cons, ih (fun x hx => h x (List.mem_cons_of_mem j hx))]
    have hj := h j (List.mem_cons_self j t)
    have : ¬ j.collected ≠ 0 := fun hh => hh hj
    rw [if_neg this]
    rfl

theorem mem_items_index (g : Game) (j : SpaceJunk) (h : j ∈ items g) :
    ∃ i, i < g.junkCount.toNat ∧ g.junkItems[i]? = some j := by
  unfold items at h
  obtain ⟨i, hi, hget⟩ := List.getElem_of_mem h
  rw [List.length_take] at hi
  refine ⟨i, by omega, ?_⟩
  rw [List.getElem_take] at hget
  rw [← hget]
  exact List.getElem?_eq_getElem (by omega)

/-- A session that `initGame` returns has score 0, all its items uncollected and each
item's value given by its type. -/
theorem initGame_items (g0 : Game) (name : String) (d : Difficulty)
    (file : Option (Option Int × Option Int)) (draws : List Nat) (g : Game)
    (h : initGame g0 name d file draws = some g) :
    g.score = 0 ∧ g.isGameOver = 0 ∧ g.hasWon = 0 ∧
    ∀ j ∈ items g, j.collected = 0 ∧ j.value = junkValue j.type := by
  unfold initGame at h
  simp only at h
  split at h
  · cases h
  · split at h
    · cases h
    · split at h
      · cases h
      · rename_i g7 rest7 hplace
        simp only [Option.some.injEq] at h
        obtain ⟨hcount, hitems⟩ := placeJunkItems_spec _ _ _ g7 rest7 hplace
        subst h
        refine ⟨rfl, rfl, rfl, ?_⟩
        intro j hj
        obtain ⟨i, hi, hget⟩ := mem_items_index _ j hj
        simp only at hi hget
        rw [hcount] at hi
        exact hitems i j hi hget

theorem created_scoreInv (g : Game) (h : Created g) : ScoreInv g := by
  obtain ⟨g0, name, d, file, draws, _, hinit⟩ := h
  obtain ⟨hs, _, _, hitems⟩ := initGame_items g0 name d file draws g hinit
  refine ⟨?_, ?_⟩
  · rw [hs, collectedValue_of_uncollected _ (fun j hj => (hitems j hj).1)]
  · intro j hj
    rw [(hitems j hj).2]
    exact junkValue_nonneg _

/-! ## Claim C9: score and collected flags along a session -/

theorem demoGame_created : Created demoGame :=
  ⟨blankGame, "pilot", .EASY, none, demoDraws, ⟨rfl, rfl⟩, rfl⟩

theorem crashGame_created : Created crashGame :=
  ⟨blankGame, "pilot", .EASY, none, crashDraws, ⟨rfl, rfl⟩, rfl⟩

theorem crashEve_reached : runMoves crashGame crashMoves = crashEve := by
  decide

theorem sweptGame_reached : runMoves crashGame sweepMoves = sweptGame := by
  decide

/-- C9: in every state reached from a session created by `initGame` through any sequence
of `moveSpaceship` and `useJunk` calls, the score is the sum of the values of the collected
items; a further call leaves every collected item as it is (its flag does not go back to 0)
and does not lower the score. -/
theorem C9_score_is_value_of_collected_items (g : Game) (hc : Created g)
    (acts : List Action) (a : Action) :
    (run g acts).score = collectedValue (items (run g acts)) ∧
    (∀ (i : Nat) (j : SpaceJunk), (run g acts).junkItems[i]? = some j → j.collected ≠ 0 →
        (step (run g acts) a).junkItems[i]? = some j) ∧
    (run g acts).score ≤ (step (run g acts) a).score := by
  have hinv := run_scoreInv g acts (created_scoreInv g hc)
  have hstep := step_itemsStep (run g acts) a
  exact ⟨hinv.1, fun i j hj hcol => itemsStep_collected_stays _ _ hstep i j hj hcol,
    itemsStep_score_le _ _ hstep hinv⟩

theorem C9_score_is_value_of_collected_items_witness :
    Created demoGame ∧
    ((run demoGame [.move 0 1, .use 1, .move 0 1, .move 0 1]).score
        = collectedValue (items (run demoGame [.move 0 1, .use 1, .move 0 1, .move 0 1])) ∧
     (∀ (i : Nat) (j : SpaceJunk),
        (run demoGame [.move 0 1, .use 1, .move 0 1, .move 0 1]).junkItems[i]? = some j →
        j.collected ≠ 0 →
        (step (run demoGame [.move 0 1, .use 1, .move 0 1, .move 0 1])
            (.move 1 0)).junkItems[i]? = some j) ∧
     (run demoGame [.move 0 1, .use 1, .move 0 1, .move 0 1]).score
        ≤ (step (run demoGame [.move 0 1, .use 1, .move 0 1, .move 0 1]) (.move 1 0)).score) :=
  ⟨demoGame_created,
   C9_score_is_value_of_collected_items demoGame demoGame_created
     [.move 0 1, .use 1, .move 0 1, .move 0 1] (.move 1 0)⟩

theorem C10_threshold_reached_means_won_witness :
    (sweptGame.score < WIN_SCORES sweptGame.difficulty ∧
     (moveSpaceship sweptGame (-1) 0).score
        ≥ WIN_SCORES (moveSpaceship sweptGame (-1) 0).difficulty ∧
     hazardReachesShip sweptGame (-1) 0 = false) ∧
    ((moveSpaceship sweptGame (-1) 0).isGameOver = 1 ∧
     (moveSpaceship sweptGame (-1) 0).hasWon = 1) :=
  ⟨by decide,
   C10_threshold_reached_means_won sweptGame (-1) 0 (by decide) (by decide)⟩

/-! ## Claims C5-C7: what the hazard's sub-steps do to the turn -/

/-- C5, at a failing input: the session `demoGame` is created by `initGame` with the
hazard on the left border at `(0,5)`, heading right, and an impassable cell at `(1,5)`;
after the first accepted move the obstacle bounce has put the hazard at `(-1,5)`,
outside the world. -/
theorem C5_hazard_bounced_out_of_the_world :
    Created demoGame ∧
    demoGame.worldWidth = 18 ∧ demoGame.worldHeight = 18 ∧
    inWorld demoGame demoGame.asteroid.position ∧
    ¬ onImpassable demoGame demoGame.asteroid.position ∧
    ¬ onImpassable demoGame demoGame.ship.position ∧
    Accepted demoGame 0 1 ∧
    (moveSpaceship demoGame 0 1).asteroid.position = { x := -1, y := 5 } ∧
    ¬ inWorld (moveSpaceship demoGame 0 1) (moveSpaceship demoGame 0 1).asteroid.position :=
  ⟨demoGame_created, by decide, by decide, by decide, by decide, by decide, by decide,
   by decide, by decide⟩

/-- C6, at a failing input: `crashEve` is reached from a session created by `initGame`;
on the accepted move `(1,0)` fuel stays positive and the hazard steps onto the ship's new
cell, so `moveAsteroid` ends with `isGameOver = 1` and `hasWon = 0`; `checkCollisions`
then runs all the same, the item on that cell lifts the score to the threshold, and
`moveSpaceship` returns with `hasWon = 1`. -/
theorem C6_collision_turn_ends_won :
    Created crashGame ∧ runMoves crashGame crashMoves = crashEve ∧
    crashEve.isGameOver = 0 ∧ crashEve.score < WIN_SCORES crashEve.difficulty ∧
    Accepted crashEve 1 0 ∧
    0 < crashEve.ship.fuel - FUEL_CONSUMPTION crashEve.difficulty ∧
    hazardReachesShip crashEve 1 0 = true ∧
    (moveAsteroid (commitMove crashEve 1 0)).isGameOver = 1 ∧
    (moveAsteroid (commitMove crashEve 1 0)).hasWon = 0 ∧
    (moveSpaceship crashEve 1 0).asteroid.position = (moveSpaceship crashEve 1 0).ship.position ∧
    (moveSpaceship crashEve 1 0).isGameOver = 1 ∧
    (moveSpaceship crashEve 1 0).hasWon = 1 :=
  ⟨crashGame_created, crashEve_reached, by decide, by decide, by decide, by decide,
   by decide, by decide, by decide, by decide, by decide, by decide⟩

/-- C7, at a failing input: on the same turn (the hazard steps onto the ship's new cell
`(3,12)`), the uncollected metal item on that cell is collected: the score goes from 490
to 500, the item's flag from 0 to 1 and the metal counter from 1 to 2. -/
theorem C7_collision_turn_still_collects :
    Created crashGame ∧ runMoves crashGame crashMoves = crashEve ∧
    Accepted crashEve 1 0 ∧
    0 < crashEve.ship.fuel - FUEL_CONSUMPTION crashEve.difficulty ∧
    hazardReachesShip crashEve 1 0 = true ∧
    crashEve.score = 490 ∧ (moveSpaceship crashEve 1 0).score = 500 ∧
    (crashEve.junkItems[25]?).map (fun j => j.collected) = some 0 ∧
    ((moveSpaceship crashEve 1 0).junkItems[25]?).map (fun j => j.collected) = some 1 ∧
    crashEve.ship.metal = 1 ∧ (moveSpaceship crashEve 1 0).ship.metal = 2 :=
  ⟨crashGame_created, crashEve_reached, by decide, by decide, by decide, by decide,
   by decide, by decide, by decide, by decide, by decide⟩

/-! ## Claims C13-C15: inventory use -/

/-- C13: repair (`useJunk` option 1) with `metal > 0` sets health to
`min(health + 10, maxHealth)`, takes exactly one metal and changes nothing else in the
session. -/
theorem C13_repair (g : Game) (h : g.ship.metal > 0) :
    useJunk g 1 = { g with ship := { g.ship with
      health := min (g.ship.health + 10) g.ship.maxHealth,
      metal := g.ship.metal - 1 } } := by
  unfold useJunk
  rw [if_pos rfl, if_pos h]
  simp only
  by_cases hc : g.ship.health + 10 > g.ship.maxHealth
  · rw [if_pos hc, min_eq_right (by omega)]
  · rw [if_neg hc, min_eq_left (by omega)]

theorem C13_repair_witness :
    (repairGame.ship.metal > 0 ∧ repairGame.ship.health = 95 ∧ repairGame.ship.maxHealth = 100 ∧
      repairGame.ship.metal = 3 ∧
      (useJunk repairGame 1).ship.health = 100 ∧ (useJunk repairGame 1).ship.metal = 2) ∧
    useJunk repairGame 1 = { repairGame with ship := { repairGame.ship with
      health := min (repairGame.ship.health + 10) repairGame.ship.maxHealth,
      metal := repairGame.ship.metal - 1 } } :=
  ⟨by decide, C13_repair repairGame (by decide)⟩

/-- C14: refuel (`useJunk` option 2) with `fuelCells > 0` sets fuel to
`min(fuel + 50, maxFuel)`, takes exactly one fuel cell and changes nothing else in the
session. -/
theorem C14_refuel (g : Game) (h : g.ship.fuelCells > 0) :
    useJunk g 2 = { g with ship := { g.ship with
      fuel := min (g.ship.fuel + 50) g.ship.maxFuel,
      fuelCells := g.ship.fuelCells - 1 } } := by
  unfold useJunk
  rw [if_neg (by decide), if_pos rfl, if_pos h]
  simp only
  by_cases hc : g.ship.fuel + 50 > g.ship.maxFuel
  · rw [if_pos hc, min_eq_right (by omega)]
  · rw [if_neg hc, min_eq_left (by omega)]

theorem C14_refuel_witness :
    (refuelGame.ship.fuelCells > 0 ∧ refuelGame.ship.fuel = 480 ∧ refuelGame.ship.maxFuel = 500 ∧
      refuelGame.ship.fuelCells = 1 ∧
      (useJunk refuelGame 2).ship.fuel = 500 ∧ (useJunk refuelGame 2).ship.fuelCells = 0) ∧
    useJunk refuelGame 2 = { refuelGame with ship := { refuelGame.ship with
      fuel := min (refuelGame.ship.fuel + 50) refuelGame.ship.maxFuel,
      fuelCells := refuelGame.ship.fuelCells - 1 } } :=
  ⟨by decide, C14_refuel refuelGame (by decide)⟩

/-- C15: a failed inventory use leaves the session unchanged: `useJunk` with option 1 and
`metal = 0`, with option 2 and `fuelCells = 0`, or with any option other than 1 and 2,
returns the input state; and `handleInput` on `U` with a choice outside 1..2 does not
call `useJunk` and returns the input state. -/
theorem C15_failed_use_changes_nothing (g : Game) (option : Int)
    (h : (option = 1 ∧ g.ship.metal = 0) ∨ (option = 2 ∧ g.ship.fuelCells = 0) ∨
         (option ≠ 1 ∧ option ≠ 2)) :
    useJunk g option = g ∧
    (¬ (option ≥ 1 ∧ option ≤ 2) → handleInput g { key := 'U', choice := option } = g) := by
  constructor
  · unfold useJunk
    rcases h with ⟨h1, h2⟩ | ⟨h1, h2⟩ | ⟨h1, h2⟩
    · rw [if_pos h1, if_neg (by omega)]
    · rw [if_neg (by omega), if_pos h1, if_neg (by omega)]
    · rw [if_neg h1, if_neg h2]
  · intro hc
    unfold handleInput
    have hk : ('U' : Char).toUpper = 'U' := by decide
    simp only [hk]
    rw [if_neg (by decide), if_neg (by decide), if_neg (by decide), if_neg (by decide),
      if_neg (by decide), if_pos trivial, if_neg hc]

theorem C15_failed_use_changes_nothing_witness :
    ((1 = 1 ∧ demoGame.ship.metal = 0) ∨ (1 = 2 ∧ demoGame.ship.fuelCells = 0) ∨
      ((1 : Int) ≠ 1 ∧ (1 : Int) ≠ 2)) ∧
    (useJunk demoGame 1 = demoGame ∧
     (¬ ((1 : Int) ≥ 1 ∧ (1 : Int) ≤ 2) →
        handleInput demoGame { key := 'U', choice := 1 } = demoGame)) :=
  ⟨by decide, C15_failed_use_changes_nothing demoGame 1 (by decide)⟩

/-! ## Claim C19: what a call leaves fixed -/

theorem useJunk_statics (g : Game) (option : Int) :
    (useJunk g option).worldWidth = g.worldWidth ∧
    (useJunk g option).worldHeight = g.worldHeight ∧
    (useJunk g option).impassableCells = g.impassableCells ∧
    (useJunk g option).isGameOver = g.isGameOver ∧
    (useJunk g option).hasWon = g.hasWon ∧
    (useJunk g option).difficulty = g.difficulty ∧
    (useJunk g option).ship.maxFuel = g.ship.maxFuel := by
  unfold useJunk
  split
  · split <;> exact ⟨rfl, rfl, rfl, rfl, rfl, rfl, rfl⟩
  · split
    · split <;> exact ⟨rfl, rfl, rfl, rfl, rfl, rfl, rfl⟩
    · exact ⟨rfl, rfl, rfl, rfl, rfl, rfl, rfl⟩

theorem itemsStep_length (g g' : Game) (hs : ItemsStep g g') :
    g'.junkItems.length = g.junkItems.length := by
  obtain ⟨_, hs⟩ := hs
  cases hs with
  | inl h => rw [h.1]
  | inr h =>
    obtain ⟨p, hl, _⟩ := h
    unfold items at hl
    rw [hl, List.length_append, List.length_map, List.length_take, List.length_drop]
    omega

theorem itemsStep_item (g g' : Game) (hs : ItemsStep g g') (i : Nat) (j : SpaceJunk)
    (hj : g.junkItems[i]? = some j) :
    ∃ j' : SpaceJunk, g'.junkItems[i]? = some j' ∧
      j'.position = j.position ∧ j'.type = j.type ∧ j'.value = j.value ∧
      j'.symbol = j.symbol ∧
      (j'.collected = j.collected ∨ (j.collected = 0 ∧ j'.collected = 1)) := by
  obtain ⟨_, hs⟩ := hs
  cases hs with
  | inl h =>
    rw [h.1]
    exact ⟨j, hj, rfl, rfl, rfl, rfl, Or.inl rfl⟩
  | inr h =>
    obtain ⟨p, hl, _⟩ := h
    unfold items at hl
    rw [hl, marked_getElem?, hj, Option.map_some']
    refine ⟨_, rfl, ?_⟩
    split
    · unfold markPicked
      split
      · rename_i hp
        exact ⟨rfl, rfl, rfl, rfl, Or.inr ⟨hp.1, rfl⟩⟩
      · exact ⟨rfl, rfl, rfl, rfl, Or.inl rfl⟩
    · exact ⟨rfl, rfl, rfl, rfl, Or.inl rfl⟩

/-- C19: every `moveSpaceship` or `useJunk` call leaves `worldWidth`, `worldHeight`, the
impassable cells, `junkCount`, the number of array entries and every item's position,
type, value and symbol unchanged; an item's `collected` flag either stays or goes from
0 to 1. -/
theorem C19_static_parts_are_fixed (g : Game) (a : Action) :
    (step g a).worldWidth = g.worldWidth ∧
    (step g a).worldHeight = g.worldHeight ∧
    (step g a).impassableCells = g.impassableCells ∧
    (step g a).junkCount = g.junkCount ∧
    (step g a).junkItems.length = g.junkItems.length ∧
    ∀ (i : Nat) (j : SpaceJunk), g.junkItems[i]? = some j →
      ∃ j' : SpaceJunk, (step g a).junkItems[i]? = some j' ∧
        j'.position = j.position ∧ j'.type = j.type ∧ j'.value = j.value ∧
        j'.symbol = j.symbol ∧
        (j'.collected = j.collected ∨ (j.collected = 0 ∧ j'.collected = 1)) := by
  have hs := step_itemsStep g a
  refine ⟨?_, ?_, ?_, hs.1, itemsStep_length g _ hs, itemsStep_item g _ hs⟩
  · cases a with
    | move dx dy => exact moveSpaceship_worldWidth g dx dy
    | use option => exact (useJunk_statics g option).1
  · cases a with
    | move dx dy => exact moveSpaceship_worldHeight g dx dy
    | use option => exact (useJunk_statics g option).2.1
  · cases a with
    | move dx dy => exact moveSpaceship_impassableCells g dx dy
    | use option => exact (useJunk_statics g option).2.2.1

/-! ## The shape of a session that `initGame` returns -/

theorem loadConfig_frame (g : Game) (file : Option (Option Int × Option Int)) :
    (loadConfig g file).difficulty = g.difficulty ∧
    (loadConfig g file).playerName = g.playerName := by
  cases file with
  | none => exact ⟨rfl, rfl⟩
  | some p =>
    obtain ⟨w, v⟩ := p
    cases w <;> cases v <;> unfold loadConfig <;> simp only <;> split_ifs <;>
      exact ⟨rfl, rfl⟩

theorem placeAsteroid_spec (g : Game) (draws : List Nat) (g' : Game) (rest : List Nat)
    (h : placeAsteroid g draws = some (g', rest)) :
    ∃ a : Asteroid, g' = { g with asteroid := a } := by
  unfold placeAsteroid at h
  split at h
  · simp only [Option.some.injEq, Prod.mk.injEq] at h
    exact ⟨_, h.1.symm⟩
  · cases h

theorem placeImpassableCell_spec_aux (g : Game) (i : Nat) (n : Nat) :
    ∀ (draws : List Nat), draws.length ≤ n → ∀ (g' : Game) (rest : List Nat),
    placeImpassableCell g i draws = some (g', rest) →
    ∃ cell : ImpassableCell, g' = { g with impassableCells := g.impassableCells.set i cell } := by
  induction n with
  | zero =>
    intro draws hl g' rest h
    cases draws with
    | nil => simp [placeImpassableCell] at h
    | cons a t => simp at hl
  | succ n ih =>
    intro draws hl g' rest h
    match draws, hl, h with
    | [], _, h => simp [placeImpassableCell] at h
    | [_], _, h => simp [placeImpassableCell] at h
    | rx :: ry :: rest0, hl, h =>
      have hl0 : rest0.length ≤ n := by
        simp only [List.length_cons] at hl
        omega
      unfold placeImpassableCell at h
      simp only at h
      split at h
      · split at h
        · simp only [Option.some.injEq, Prod.mk.injEq] at h
          exact ⟨_, h.1.symm⟩
        · exact ih rest0 hl0 g' rest h
      · exact ih rest0 hl0 g' rest h

theorem placeImpassableCells_spec (n : Nat) (g : Game) (draws : List Nat) :
    ∀ (g' : Game) (rest : List Nat), placeImpassableCells n g draws = some (g', rest) →
    ∃ cells : List ImpassableCell, g' = { g with impassableCells := cells } := by
  induction n with
  | zero =>
    intro g' rest h
    unfold placeImpassableCells at h
    simp only [Option.some.injEq, Prod.mk.injEq] at h
    exact ⟨g.impassableCells, h.1.symm⟩
  | succ n ih =>
    intro g' rest h
    unfold placeImpassableCells at h
    cases hprev : placeImpassableCells n g draws with
    | none =>
      rw [hprev] at h
      cases h
    | some r =>
      obtain ⟨g1, r1⟩ := r
      rw [hprev] at h
      obtain ⟨cells, hg1⟩ := ih g1 r1 hprev
      obtain ⟨cell, hg'⟩ := placeImpassableCell_spec_aux g1 n r1.length r1 (le_refl _) g' rest h
      subst hg1
      exact ⟨_, hg'⟩

theorem placeJunkItems_shape (n : Nat) (g : Game) (draws : List Nat) :
    ∀ (g' : Game) (rest : List Nat), placeJunkItems n g draws = some (g', rest) →
    ∃ l : List SpaceJunk, g' = { g with junkItems := l } := by
  induction n with
  | zero =>
    intro g' rest h
    unfold placeJunkItems at h
    simp only [Option.some.injEq, Prod.mk.injEq] at h
    exact ⟨g.junkItems, h.1.symm⟩
  | succ n ih =>
    intro g' rest h
    unfold placeJunkItems at h
    cases hprev : placeJunkItems n g draws with
    | none =>
      rw [hprev] at h
      cases h
    | some r =>
      obtain ⟨g1, r1⟩ := r
      rw [hprev] at h
      obtain ⟨l, hg1⟩ := ih g1 r1 hprev
      obtain ⟨item, _, _, hg'⟩ := placeJunkItem_spec g1 n r1 g' rest h
      subst hg1
      exact ⟨_, hg'⟩

/-- Whatever does not depend on the placed entities, the item count and the three
session counters is, after `initGame`, what it was when the ship had been set up. -/
theorem initGame_frame {α : Type} (f : Game → α)
    (hast : ∀ (s : Game) (a : Asteroid), f { s with asteroid := a } = f s)
    (hcells : ∀ (s : Game) (l : List ImpassableCell), f { s with impassableCells := l } = f s)
    (hitems : ∀ (s : Game) (l : List SpaceJunk), f { s with junkItems := l } = f s)
    (hcount : ∀ (s : Game) (n : Int), f { s with junkCount := n } = f s)
    (hflags : ∀ (s : Game) (a b c : Int),
      f { s with score := a, isGameOver := b, hasWon := c } = f s)
    (g0 : Game) (name : String) (d : Difficulty)
    (file : Option (Option Int × Option Int)) (draws : List Nat) (g : Game)
    (h : initGame g0 name d file draws = some g) :
    f g = f (initBase g0 name d file) := by
  unfold initGame at h
  simp only at h
  split at h
  · cases h
  · rename_i g4 d4 h4
    split at h
    · cases h
    · rename_i g5 d5 h5
      split at h
      · cases h
      · rename_i g7 rest7 h7
        simp only [Option.some.injEq] at h
        obtain ⟨a, hg4⟩ := placeAsteroid_spec _ _ _ _ h4
        obtain ⟨cells, hg5⟩ := placeImpassableCells_spec _ _ _ _ _ h5
        obtain ⟨l, hg7⟩ := placeJunkItems_shape _ _ _ _ _ h7
        rw [← h, hflags, hg7, hitems, hcount, hg5, hcells, hg4, hast]
        rfl

theorem initBase_facts (g0 : Game) (name : String) (d : Difficulty)
    (file : Option (Option Int × Option Int)) :
    (initBase g0 name d file).difficulty = d ∧
    (initBase g0 name d file).playerName = name ∧
    (initBase g0 name d file).ship.fuel = FUEL_LEVELS d ∧
    (initBase g0 name d file).ship.maxFuel = FUEL_LEVELS d := by
  have hcfg := loadConfig_frame { g0 with playerName := name, difficulty := d } file
  unfold initBase
  simp only
  rw [hcfg.1]
  exact ⟨rfl, hcfg.2, rfl, rfl⟩

/-! ## Claim C18: the hazard's direction -/

theorem stepAsteroid_direction (g : Game) (h : WellFormedDir g.asteroid.direction) :
    WellFormedDir (stepAsteroid g).direction ∧
    ((stepAsteroid g).direction.x = g.asteroid.direction.x ∨
     (stepAsteroid g).direction.x = -g.asteroid.direction.x) ∧
    ((stepAsteroid g).direction.y = g.asteroid.direction.y ∨
     (stepAsteroid g).direction.y = -g.asteroid.direction.y) := by
  unfold WellFormedDir at h ⊢
  unfold stepAsteroid
  simp only
  split
  · split_ifs <;> (try dsimp only) <;> omega
  · split_ifs <;> (try dsimp only) <;> omega

theorem iterate_step_direction (g : Game) (h : WellFormedDir g.asteroid.direction) (k : Nat) :
    WellFormedDir (Nat.iterate moveAsteroidStep k g).asteroid.direction := by
  induction k with
  | zero => exact h
  | succ k ih =>
    rw [Function.iterate_succ_apply']
    exact (stepAsteroid_direction _ ih).1

theorem moveAsteroidLoop_direction (n : Nat) (g : Game)
    (h : WellFormedDir g.asteroid.direction) :
    WellFormedDir (moveAsteroidLoop n g).asteroid.direction := by
  induction n generalizing g with
  | zero => exact h
  | succ n ih =>
    unfold moveAsteroidLoop
    simp only
    split
    · exact (stepAsteroid_direction g h).1
    · exact ih _ (stepAsteroid_direction g h).1

theorem placeAsteroid_direction (g : Game) (draws : List Nat) (g' : Game) (rest : List Nat)
    (h : placeAsteroid g draws = some (g', rest)) :
    WellFormedDir g'.asteroid.direction := by
  unfold placeAsteroid at h
  split at h
  · simp only [Option.some.injEq, Prod.mk.injEq] at h
    rw [← h.1]
    unfold WellFormedDir
    dsimp only
    split_ifs <;> (try dsimp only) <;> omega
  · cases h

/-- The hazard direction that `initGame` sets up is well formed. -/
theorem initGame_direction (g0 : Game) (name : String) (d : Difficulty)
    (file : Option (Option Int × Option Int)) (draws : List Nat) (g : Game)
    (h : initGame g0 name d file draws = some g) :
    WellFormedDir g.asteroid.direction := by
  unfold initGame at h
  simp only at h
  split at h
  · cases h
  · rename_i g4 d4 h4
    split at h
    · cases h
    · rename_i g5 d5 h5
      split at h
      · cases h
      · rename_i g7 rest7 h7
        simp only [Option.some.injEq] at h
        obtain ⟨cells, hg5⟩ := placeImpassableCells_spec _ _ _ _ _ h5
        obtain ⟨l, hg7⟩ := placeJunkItems_shape _ _ _ _ _ h7
        have hdir := placeAsteroid_direction _ _ _ _ h4
        rw [← h, hg7, hg5]
        exact hdir

/-- C18: from a well-formed hazard direction (each component in `{-1,0,1}`, not both
zero), after any number of sub-steps the direction is still well formed, each sub-step
leaves every component as it was or negated (so the forced `(1,0)` of the obstacle bounce
is never taken), and the direction is well formed when `moveAsteroid` returns; the
direction that `initGame` sets up is well formed. -/
theorem C18_hazard_direction_stays_well_formed (g : Game)
    (h : WellFormedDir g.asteroid.direction) (k : Nat) :
    WellFormedDir (Nat.iterate moveAsteroidStep k g).asteroid.direction ∧
    ((moveAsteroidStep (Nat.iterate moveAsteroidStep k g)).asteroid.direction.x
        = (Nat.iterate moveAsteroidStep k g).asteroid.direction.x ∨
     (moveAsteroidStep (Nat.iterate moveAsteroidStep k g)).asteroid.direction.x
        = -(Nat.iterate moveAsteroidStep k g).asteroid.direction.x) ∧
    ((moveAsteroidStep (Nat.iterate moveAsteroidStep k g)).asteroid.direction.y
        = (Nat.iterate moveAsteroidStep k g).asteroid.direction.y ∨
     (moveAsteroidStep (Nat.iterate moveAsteroidStep k g)).asteroid.direction.y
        = -(Nat.iterate moveAsteroidStep k g).asteroid.direction.y) ∧
    WellFormedDir (moveAsteroid g).asteroid.direction ∧
    (∀ s : Game, Created s → WellFormedDir s.asteroid.direction) := by
  have hk := iterate_step_direction g h k
  have hs := stepAsteroid_direction _ hk
  refine ⟨hk, hs.2.1, hs.2.2, moveAsteroidLoop_direction _ g h, ?_⟩
  rintro s ⟨g0, name, d, file, draws, _, hinit⟩
  exact initGame_direction g0 name d file draws s hinit

theorem C18_hazard_direction_stays_well_formed_witness :
    WellFormedDir demoGame.asteroid.direction ∧
    (WellFormedDir (Nat.iterate moveAsteroidStep 2 demoGame).asteroid.direction ∧
    ((moveAsteroidStep (Nat.iterate moveAsteroidStep 2 demoGame)).asteroid.direction.x
        = (Nat.iterate moveAsteroidStep 2 demoGame).asteroid.direction.x ∨
     (moveAsteroidStep (Nat.iterate moveAsteroidStep 2 demoGame)).asteroid.direction.x
        = -(Nat.iterate moveAsteroidStep 2 demoGame).asteroid.direction.x) ∧
    ((moveAsteroidStep (Nat.iterate moveAsteroidStep 2 demoGame)).asteroid.direction.y
        = (Nat.iterate moveAsteroidStep 2 demoGame).asteroid.direction.y ∨
     (moveAsteroidStep (Nat.iterate moveAsteroidStep 2 demoGame)).asteroid.direction.y
        = -(Nat.iterate moveAsteroidStep 2 demoGame).asteroid.direction.y) ∧
    WellFormedDir (moveAsteroid demoGame).asteroid.direction ∧
    (∀ s : Game, Created s → WellFormedDir s.asteroid.direction)) :=
  ⟨by decide, C18_hazard_direction_stays_well_formed demoGame (by decide) 2⟩

/-! ## Claims C11, C12, C16: what `moveSpaceship` does not test -/

theorem mainLoop_terminal (g : Game) (cmds : List Command) (h : g.isGameOver ≠ 0) :
    mainLoop g cmds = g := by
  cases cmds with
  | nil => rfl
  | cons c rest =>
    unfold mainLoop
    rw [if_pos h]

/-- C11, as first stated, fails: `quitGame` has `isGameOver = 1`, and `moveSpaceship` still
processes the move `(0,1)`: the ship goes from `(9,9)` to `(9,10)` and fuel from 500
to 499. -/
theorem C11_moveSpaceship_ignores_isGameOver :
    quitGame.isGameOver = 1 ∧
    quitGame.ship.position = { x := 9, y := 9 } ∧ quitGame.ship.fuel = 500 ∧
    (moveSpaceship quitGame 0 1).ship.position = { x := 9, y := 10 } ∧
    (moveSpaceship quitGame 0 1).ship.fuel = 499 ∧
    moveSpaceship quitGame 0 1 ≠ quitGame := by
  decide

/-- C11, amended: terminal states are absorbing for the driver: for every state with
`isGameOver = 1` and every sequence of commands, the loop `while (!game.isGameOver)` of
`main` processes none of them and leaves the whole state unchanged. -/
theorem C11_driver_stops_at_terminal_state (g : Game) (cmds : List Command)
    (h : g.isGameOver = 1) : mainLoop g cmds = g :=
  mainLoop_terminal g cmds (by rw [h]; exact one_ne_zero)

theorem C11_driver_stops_at_terminal_state_witness :
    quitGame.isGameOver = 1 ∧
    mainLoop quitGame [{ key := 'S', choice := 0 }, { key := 'U', choice := 2 }] = quitGame :=
  ⟨by decide,
   C11_driver_stops_at_terminal_state quitGame
     [{ key := 'S', choice := 0 }, { key := 'U', choice := 2 }] (by decide)⟩

theorem moveAsteroid_flags_set (g : Game) (h1 : g.isGameOver = 1) :
    (moveAsteroid g).isGameOver = 1 := by
  unfold moveAsteroid
  cases hh : hazardHits (ASTEROID_SPEEDS g.difficulty).toNat g with
  | true => exact ((moveAsteroidLoop_flags _ g).1 hh).1
  | false => rw [((moveAsteroidLoop_flags _ g).2 hh).1, h1]

/-- C12, as first stated, fails: `wonLowFuelGame` is won (`isGameOver = 1`, `hasWon = 1`,
score 510 against a threshold of 500) with one unit of fuel; the accepted move `(1,0)`
empties the tank and the out-of-fuel branch sets `hasWon = 0`. -/
theorem C12_out_of_fuel_move_unsets_hasWon :
    wonLowFuelGame.isGameOver = 1 ∧ wonLowFuelGame.hasWon = 1 ∧
    wonLowFuelGame.score ≥ WIN_SCORES wonLowFuelGame.difficulty ∧
    Accepted wonLowFuelGame 1 0 ∧
    (moveSpaceship wonLowFuelGame 1 0).hasWon = 0 := by
  decide

theorem won_step_keeps_flags (g : Game) (a : Action)
    (h1 : g.isGameOver = 1) (h2 : g.hasWon = 1) (h3 : g.score ≥ WIN_SCORES g.difficulty)
    (hv : ∀ j ∈ items g, 0 ≤ j.value)
    (ha : ∀ dx dy, a = .move dx dy →
      ¬ Accepted g dx dy ∨ 0 < g.ship.fuel - FUEL_CONSUMPTION g.difficulty) :
    (step g a).hasWon = 1 ∧ (step g a).isGameOver = 1 := by
  cases a with
  | use option =>
    have hs := useJunk_statics g option
    exact ⟨hs.2.2.2.2.1.trans h2, hs.2.2.2.1.trans h1⟩
  | move dx dy =>
    show (moveSpaceship g dx dy).hasWon = 1 ∧ (moveSpaceship g dx dy).isGameOver = 1
    cases ha dx dy rfl with
    | inl hr =>
      rw [moveSpaceship_rejected g dx dy hr]
      exact ⟨h2, h1⟩
    | inr hf =>
      by_cases hacc : Accepted g dx dy
      · have hsc := (moveSpaceship_items_score g dx dy hacc hf).2
        have hpv := pickedValue_nonneg (target g dx dy) (items g) hv
        rw [moveSpaceship_accepted g dx dy hacc] at hsc ⊢
        have hf2 : ¬ (commitMove g dx dy).ship.fuel ≤ 0 := by
          show ¬ (g.ship.fuel - FUEL_CONSUMPTION g.difficulty ≤ 0)
          omega
        rw [if_neg hf2] at hsc ⊢
        have hd : (checkCollisions (moveAsteroid (commitMove g dx dy))).difficulty
            = g.difficulty := by
          rw [checkCollisions_difficulty, moveAsteroid_difficulty]
          rfl
        have hw := checkCollisions_won (moveAsteroid (commitMove g dx dy))
          (by rw [hd, hsc]; omega)
        exact ⟨hw.2, hw.1⟩
      · rw [moveSpaceship_rejected g dx dy hacc]
        exact ⟨h2, h1⟩

theorem out_of_fuel_flags (g : Game) (dx dy : Int) (hacc : Accepted g dx dy)
    (hf : g.ship.fuel - FUEL_CONSUMPTION g.difficulty ≤ 0) :
    (moveSpaceship g dx dy).isGameOver = 1 ∧ (moveSpaceship g dx dy).hasWon = 0 := by
  rw [moveSpaceship_accepted g dx dy hacc]
  have hf2 : (commitMove g dx dy).ship.fuel ≤ 0 := hf
  rw [if_pos hf2]
  exact ⟨rfl, rfl⟩

/-- C12, amended: from a state with `isGameOver = 1`, `hasWon = 1` and
`score >= WIN_SCORES[difficulty]` whose items have non-negative values, `hasWon` and
`isGameOver` are still 1 after any `useJunk` call and after any `moveSpaceship` call that
is rejected or leaves fuel positive; an accepted move that leaves `fuel <= 0` sets
`hasWon = 0`. -/
theorem C12_won_stays_won_while_fuel_lasts (g : Game) (a : Action)
    (h1 : g.isGameOver = 1) (h2 : g.hasWon = 1) (h3 : g.score ≥ WIN_SCORES g.difficulty)
    (hv : ∀ j ∈ items g, 0 ≤ j.value)
    (ha : ∀ dx dy, a = .move dx dy →
      ¬ Accepted g dx dy ∨ 0 < g.ship.fuel - FUEL_CONSUMPTION g.difficulty) :
    ((step g a).hasWon = 1 ∧ (step g a).isGameOver = 1) ∧
    (∀ dx dy, Accepted g dx dy → g.ship.fuel - FUEL_CONSUMPTION g.difficulty ≤ 0 →
      (moveSpaceship g dx dy).hasWon = 0) :=
  ⟨won_step_keeps_flags g a h1 h2 h3 hv ha,
   fun dx dy hacc hf => (out_of_fuel_flags g dx dy hacc hf).2⟩

theorem C12_won_stays_won_while_fuel_lasts_witness :
    (wonGame.isGameOver = 1 ∧ wonGame.hasWon = 1 ∧
     wonGame.score ≥ WIN_SCORES wonGame.difficulty ∧
     (∀ j ∈ items wonGame, 0 ≤ j.value) ∧
     Accepted wonGame 1 0 ∧ 0 < wonGame.ship.fuel - FUEL_CONSUMPTION wonGame.difficulty) ∧
    (((step wonGame (.move 1 0)).hasWon = 1 ∧ (step wonGame (.move 1 0)).isGameOver = 1) ∧
     (∀ dx dy, Accepted wonGame dx dy →
        wonGame.ship.fuel - FUEL_CONSUMPTION wonGame.difficulty ≤ 0 →
        (moveSpaceship wonGame dx dy).hasWon = 0)) :=
  ⟨by decide,
   C12_won_stays_won_while_fuel_lasts wonGame (.move 1 0) (by decide) (by decide)
     (by decide) (by decide)
     (fun dx dy hm => Or.inr (by decide))⟩

/-- C16, as first stated, fails: `(0,0)` is not a unit direction, yet on `lastFuelGame`
(in progress, fuel 1) `moveSpaceship` accepts it: fuel drops to 0 and `isGameOver`
is set. -/
theorem C16_zero_direction_is_processed :
    ¬ UnitDirection 0 0 ∧
    lastFuelGame.isGameOver = 0 ∧ lastFuelGame.ship.fuel = 1 ∧
    (moveSpaceship lastFuelGame 0 0).ship.fuel = 0 ∧
    (moveSpaceship lastFuelGame 0 0).isGameOver = 1 ∧
    moveSpaceship lastFuelGame 0 0 ≠ lastFuelGame := by
  decide

theorem FUEL_CONSUMPTION_pos (d : Difficulty) : 0 < FUEL_CONSUMPTION d := by
  cases d <;> decide

theorem moveSpaceship_noop_iff (g : Game) (dx dy : Int) :
    moveSpaceship g dx dy = g ↔ ¬ Accepted g dx dy := by
  constructor
  · intro h hacc
    have hf := moveSpaceship_fuel g dx dy hacc
    rw [h] at hf
    have := FUEL_CONSUMPTION_pos g.difficulty
    omega
  · exact moveSpaceship_rejected g dx dy

theorem handleInput_cases (g : Game) (c : Command) :
    handleInput g c = g ∨
    (∃ dx dy, UnitDirection dx dy ∧ handleInput g c = moveSpaceship g dx dy) ∨
    (∃ option, (option = 1 ∨ option = 2) ∧ handleInput g c = useJunk g option) ∨
    handleInput g c = { g with isGameOver := 1 } := by
  unfold handleInput
  simp only
  split
  · exact Or.inr (Or.inl ⟨0, -1, by decide, rfl⟩)
  · split
    · exact Or.inr (Or.inl ⟨0, 1, by decide, rfl⟩)
    · split
      · exact Or.inr (Or.inl ⟨-1, 0, by decide, rfl⟩)
      · split
        · exact Or.inr (Or.inl ⟨1, 0, by decide, rfl⟩)
        · split
          · exact Or.inl rfl
          · split
            · split
              · rename_i hc
                exact Or.inr (Or.inr (Or.inl ⟨c.choice, by omega, rfl⟩))
              · exact Or.inl rfl
            · split
              · exact Or.inr (Or.inr (Or.inr rfl))
              · exact Or.inl rfl

theorem handleInput_other_key (g : Game) (c : Command)
    (h : c.key.toUpper ≠ 'W' ∧ c.key.toUpper ≠ 'S' ∧ c.key.toUpper ≠ 'A' ∧
         c.key.toUpper ≠ 'D' ∧ c.key.toUpper ≠ 'U' ∧ c.key.toUpper ≠ 'Q') :
    handleInput g c = g := by
  obtain ⟨h1, h2, h3, h4, h5, h6⟩ := h
  unfold handleInput
  simp only
  rw [if_neg h1, if_neg h2, if_neg h3, if_neg h4, if_neg h5, if_neg h6]
  split <;> rfl

/-- C16, amended: `moveSpaceship` does not validate the direction: for every state and
every `(dx, dy)` that is not a unit direction the call is a no-op exactly when the target
cell is out of bounds or impassable, and otherwise it is processed as an accepted move
(ship on the target cell, fuel charged).  Malformed input is recovered one level up:
`handleInput` returns the state unchanged for every key other than W, S, A, D, U, Q, and
the only directions it passes to `moveSpaceship` are unit directions. -/
theorem C16_direction_is_not_validated (g : Game) (dx dy : Int) (h : ¬ UnitDirection dx dy) :
    (moveSpaceship g dx dy = g ↔ ¬ Accepted g dx dy) ∧
    (Accepted g dx dy →
      (moveSpaceship g dx dy).ship.position = target g dx dy ∧
      (moveSpaceship g dx dy).ship.fuel = g.ship.fuel - FUEL_CONSUMPTION g.difficulty) ∧
    (∀ c : Command,
      (c.key.toUpper ≠ 'W' ∧ c.key.toUpper ≠ 'S' ∧ c.key.toUpper ≠ 'A' ∧
       c.key.toUpper ≠ 'D' ∧ c.key.toUpper ≠ 'U' ∧ c.key.toUpper ≠ 'Q') →
      handleInput g c = g) ∧
    (∀ c : Command,
      handleInput g c = g ∨
      (∃ ux uy, UnitDirection ux uy ∧ handleInput g c = moveSpaceship g ux uy) ∨
      (∃ option, (option = 1 ∨ option = 2) ∧ handleInput g c = useJunk g option) ∨
      handleInput g c = { g with isGameOver := 1 }) := by
  have _ := h
  exact ⟨moveSpaceship_noop_iff g dx dy,
    fun hacc => ⟨moveSpaceship_position g dx dy hacc, moveSpaceship_fuel g dx dy hacc⟩,
    handleInput_other_key g, handleInput_cases g⟩

theorem C16_direction_is_not_validated_witness :
    (¬ UnitDirection 2 0 ∧ Accepted demoGame 2 0 ∧ ¬ Accepted demoGame 20 0) ∧
    ((moveSpaceship demoGame 2 0 = demoGame ↔ ¬ Accepted demoGame 2 0) ∧
    (Accepted demoGame 2 0 →
      (moveSpaceship demoGame 2 0).ship.position = target demoGame 2 0 ∧
      (moveSpaceship demoGame 2 0).ship.fuel
        = demoGame.ship.fuel - FUEL_CONSUMPTION demoGame.difficulty) ∧
    (∀ c : Command,
      (c.key.toUpper ≠ 'W' ∧ c.key.toUpper ≠ 'S' ∧ c.key.toUpper ≠ 'A' ∧
       c.key.toUpper ≠ 'D' ∧ c.key.toUpper ≠ 'U' ∧ c.key.toUpper ≠ 'Q') →
      handleInput demoGame c = demoGame) ∧
    (∀ c : Command,
      handleInput demoGame c = demoGame ∨
      (∃ ux uy, UnitDirection ux uy ∧ handleInput demoGame c = moveSpaceship demoGame ux uy) ∨
      (∃ option, (option = 1 ∨ option = 2) ∧ handleInput demoGame c = useJunk demoGame option) ∨
      handleInput demoGame c = { demoGame with isGameOver := 1 })) :=
  ⟨by decide, C16_direction_is_not_validated demoGame 2 0 (by decide)⟩

/-! ## Claim C17: the fuel along a session -/

theorem FUEL_LEVELS_pos (d : Difficulty) : 0 < FUEL_LEVELS d := by
  cases d <;> decide

theorem created_fuelInv (g : Game) (h : Created g) : FuelInv g := by
  obtain ⟨g0, name, d, file, draws, _, hinit⟩ := h
  obtain ⟨hd, _, hfuel, hmax⟩ := initBase_facts g0 name d file
  have h1 := initGame_frame (fun s => s.difficulty) (fun _ _ => rfl) (fun _ _ => rfl)
    (fun _ _ => rfl) (fun _ _ => rfl) (fun _ _ _ _ => rfl) g0 name d file draws g hinit
  have h2 := initGame_frame (fun s => s.ship.fuel) (fun _ _ => rfl) (fun _ _ => rfl)
    (fun _ _ => rfl) (fun _ _ => rfl) (fun _ _ _ _ => rfl) g0 name d file draws g hinit
  have h3 := initGame_frame (fun s => s.ship.maxFuel) (fun _ _ => rfl) (fun _ _ => rfl)
    (fun _ _ => rfl) (fun _ _ => rfl) (fun _ _ _ _ => rfl) g0 name d file draws g hinit
  simp only at h1 h2 h3
  unfold FuelInv
  rw [h1, h2, h3, hd, hfuel, hmax]
  exact ⟨le_refl _, rfl, fun _ => FUEL_LEVELS_pos d⟩

theorem moveSpaceship_maxFuel (g : Game) (dx dy : Int) :
    (moveSpaceship g dx dy).ship.maxFuel = g.ship.maxFuel := by
  by_cases h : Accepted g dx dy
  · rw [moveSpaceship_accepted g dx dy h]
    split
    · rfl
    · exact afterFuel_preserves (fun s => s.ship.maxFuel) (fun _ _ => rfl) (fun _ _ => rfl)
        (fun _ _ _ _ _ => rfl) (fun _ _ _ => rfl) (fun _ _ => rfl) _
  · rw [moveSpaceship_rejected g dx dy h]

theorem moveSpaceship_difficulty (g : Game) (dx dy : Int) :
    (moveSpaceship g dx dy).difficulty = g.difficulty := by
  by_cases h : Accepted g dx dy
  · rw [moveSpaceship_accepted g dx dy h]
    split
    · rfl
    · exact afterFuel_preserves (fun s => s.difficulty) (fun _ _ => rfl) (fun _ _ => rfl)
        (fun _ _ _ _ _ => rfl) (fun _ _ _ => rfl) (fun _ _ => rfl) _
  · rw [moveSpaceship_rejected g dx dy h]

theorem moveSpaceship_fuelInv (g : Game) (dx dy : Int) (h : FuelInv g) :
    FuelInv (moveSpaceship g dx dy) := by
  by_cases hacc : Accepted g dx dy
  · obtain ⟨h1, h2, _⟩ := h
    have hc := FUEL_CONSUMPTION_pos g.difficulty
    unfold FuelInv
    rw [moveSpaceship_fuel g dx dy hacc, moveSpaceship_maxFuel, moveSpaceship_difficulty]
    refine ⟨by omega, h2, ?_⟩
    intro hover
    by_cases hf : g.ship.fuel - FUEL_CONSUMPTION g.difficulty ≤ 0
    · have : (moveSpaceship g dx dy).isGameOver = 1 := by
        rw [moveSpaceship_accepted g dx dy hacc]
        have hf2 : (commitMove g dx dy).ship.fuel ≤ 0 := hf
        rw [if_pos hf2]
      rw [this] at hover
      exact absurd hover one_ne_zero
    · omega
  · rw [moveSpaceship_rejected g dx dy hacc]
    exact h

theorem useJunk_fuelInv (g : Game) (option : Int) (h : FuelInv g) :
    FuelInv (useJunk g option) := by
  obtain ⟨h1, h2, h3⟩ := h
  have hp := FUEL_LEVELS_pos g.difficulty
  unfold FuelInv useJunk
  split
  · split
    · exact ⟨h1, h2, h3⟩
    · exact ⟨h1, h2, h3⟩
  · split
    · split
      · refine ⟨?_, h2, ?_⟩
        · dsimp only
          split <;> omega
        · intro hover
          have := h3 hover
          dsimp only
          split <;> omega
      · exact ⟨h1, h2, h3⟩
    · exact ⟨h1, h2, h3⟩

theorem run_fuelInv (g : Game) (acts : List Action) (h : FuelInv g) :
    FuelInv (run g acts) := by
  induction acts using List.reverseRecOn with
  | nil => exact h
  | append_singleton l a ih =>
    rw [run_append]
    cases a with
    | move dx dy => exact moveSpaceship_fuelInv _ dx dy ih
    | use option => exact useJunk_fuelInv _ option ih

theorem hardGame_created : Created hardGame :=
  ⟨blankGame, "pilot", .HARD, none, hardDraws, ⟨rfl, rfl⟩, rfl⟩

theorem run_concat (g : Game) (l₁ l₂ : List Action) :
    run g (l₁ ++ l₂) = run (run g l₁) l₂ := by
  unfold run
  rw [List.foldl_append]

theorem hardLeg_first : run hardGame hardLeg = hardAt 134 2 := by
  decide

theorem hardLeg_second : run (hardAt 134 2) hardLeg = hardAt 68 4 := by
  decide

theorem hardLeg_third : run (hardAt 68 4) hardLeg = hardAt 2 6 := by
  decide

theorem hardEve_reached : run hardGame hardMoves = hardEve := by
  unfold hardMoves hardEve
  rw [run_concat, run_concat, hardLeg_first, hardLeg_second, hardLeg_third]

/-- C17, as first stated, fails on Hard: `hardGame` is created by `initGame` with fuel
200; after the 66 accepted moves of `hardMoves` the session is in progress with fuel 2,
and the next accepted move charges 3: fuel is -1. -/
theorem C17_fuel_can_go_negative :
    Created hardGame ∧ run hardGame hardMoves = hardEve ∧
    hardEve.isGameOver = 0 ∧ hardEve.ship.fuel = 2 ∧
    (run hardGame (hardMoves ++ [.move (-1) 0])).ship.fuel = -1 ∧
    ¬ (0 ≤ (run hardGame (hardMoves ++ [.move (-1) 0])).ship.fuel) := by
  have hrun : run hardGame (hardMoves ++ [.move (-1) 0]) = moveSpaceship hardEve (-1) 0 := by
    rw [run_append, hardEve_reached]
    rfl
  rw [hrun]
  exact ⟨hardGame_created, hardEve_reached, by decide, by decide, by decide, by decide⟩

/-- C17, amended: in every state reached from a session created by `initGame` through any
sequence of `moveSpaceship` and `useJunk` calls, `fuel <= maxFuel`,
`maxFuel = FUEL_LEVELS[difficulty]`, and `fuel > 0` as long as `isGameOver = 0`. -/
theorem C17_fuel_bounds_along_a_session (g : Game) (hc : Created g) (acts : List Action) :
    (run g acts).ship.fuel ≤ (run g acts).ship.maxFuel ∧
    (run g acts).ship.maxFuel = FUEL_LEVELS (run g acts).difficulty ∧
    ((run g acts).isGameOver = 0 → 0 < (run g acts).ship.fuel) :=
  run_fuelInv g acts (created_fuelInv g hc)

theorem C17_fuel_bounds_along_a_session_witness :
    Created demoGame ∧
    ((run demoGame [.move 0 1, .use 2, .move 0 1]).ship.fuel
        ≤ (run demoGame [.move 0 1, .use 2, .move 0 1]).ship.maxFuel ∧
     (run demoGame [.move 0 1, .use 2, .move 0 1]).ship.maxFuel
        = FUEL_LEVELS (run demoGame [.move 0 1, .use 2, .move 0 1]).difficulty ∧
     ((run demoGame [.move 0 1, .use 2, .move 0 1]).isGameOver = 0 →
        0 < (run demoGame [.move 0 1, .use 2, .move 0 1]).ship.fuel)) :=
  ⟨demoGame_created,
   C17_fuel_bounds_along_a_session demoGame demoGame_created [.move 0 1, .use 2, .move 0 1]⟩

/-! ## Claim C20: the leaderboard after `saveScore` -/

theorem loadLeaderboard_spec (file : List LeaderboardEntry) :
    ∀ (lb : List LeaderboardEntry) (count : Nat),
      count + file.length ≤ MAX_LEADERBOARD_ENTRIES → count + file.length ≤ lb.length →
      loadLeaderboard lb count file
        = (lb.take count ++ file ++ lb.drop (count + file.length), count + file.length) := by
  induction file with
  | nil =>
    intro lb count _ _
    unfold loadLeaderboard
    rw [List.append_nil, List.length_nil, Nat.add_zero, List.take_append_drop]
  | cons e rest ih =>
    intro lb count h1 h2
    rw [List.length_cons] at h1 h2
    unfold loadLeaderboard
    rw [if_pos (by omega)]
    rw [ih (lb.set count e) (count + 1) (by omega) (by rw [List.length_set]; omega)]
    have e1 : (lb.set count e).take (count + 1) = lb.take count ++ [e] := by
      rw [List.set_eq_take_append_cons_drop, if_pos (by omega)]
      have : lb.take count ++ e :: lb.drop (count + 1)
          = (lb.take count ++ [e]) ++ lb.drop (count + 1) := by
        rw [List.append_assoc, List.singleton_append]
      rw [this]
      apply List.take_left'
      rw [List.length_append, List.length_take, List.length_singleton]
      omega
    have e2 : (lb.set count e).drop (count + 1 + rest.length)
        = lb.drop (count + (rest.length + 1)) := by
      rw [List.drop_set_of_lt e lb (by omega)]
      congr 1
      omega
    rw [e1, e2, List.length_cons, List.append_assoc, List.append_assoc, List.append_assoc,
      List.singleton_append]
    congr 1
    omega

/-- The search loop finds the number of entries that stay ahead of the new score. -/
theorem findInsertIndex_spec (score : Int) (board : List LeaderboardEntry) :
    ∀ (pre tl : List LeaderboardEntry) (t : Nat), t ≤ 1 →
      findInsertIndex (pre ++ board ++ tl) score (pre.length + board.length)
          (board.length + t) pre.length
        = pre.length + (board.takeWhile (keepsAhead score)).length := by
  induction board with
  | nil =>
    intro pre tl t ht
    rw [List.append_nil, List.length_nil, Nat.zero_add, Nat.add_zero, List.takeWhile_nil,
      List.length_nil, Nat.add_zero]
    cases t with
    | zero => rfl
    | succ t =>
      have : t = 0 := by omega
      subst this
      unfold findInsertIndex
      split
      · split
        · rfl
        · rfl
      · rfl
  | cons b bs ih =>
    intro pre tl t ht
    have hget : (pre ++ (b :: bs) ++ tl)[pre.length]? = some b := by
      rw [List.append_assoc, List.getElem?_append_right (le_refl _), Nat.sub_self,
        List.cons_append, List.getElem?_cons_zero]
    have hr : (b :: bs).length + t = (bs.length + t) + 1 := by
      rw [List.length_cons]
      omega
    rw [hr]
    unfold findInsertIndex
    rw [hget]
    simp only
    by_cases hb : score > b.score
    · rw [if_pos hb]
      have : keepsAhead score b = false := by
        unfold keepsAhead
        exact decide_eq_false (by omega)
      rw [List.takeWhile_cons_of_neg (by rw [this]; exact Bool.false_ne_true)]
      rfl
    · rw [if_neg hb]
      have hk : keepsAhead score b = true := by
        unfold keepsAhead
        exact decide_eq_true (by omega)
      have hlist : pre ++ (b :: bs) ++ tl = (pre ++ [b]) ++ bs ++ tl := by
        simp only [List.append_assoc, List.singleton_append]
      have h := ih (pre ++ [b]) tl t ht
      rw [List.length_append, List.length_singleton] at h
      rw [hlist, List.length_cons,
        show pre.length + (bs.length + 1) = pre.length + 1 + bs.length by omega, h,
        List.takeWhile_cons_of_pos hk, List.length_cons]
      omega

/-- The shift loop moves the entries `insertIndex .. i-1` one place down. -/
theorem shiftEntries_getElem? (k : Nat) :
    ∀ (i : Nat) (lb : List LeaderboardEntry), i < lb.length → ∀ (j : Nat),
      (shiftEntries k i lb)[j]? = if k < j ∧ j ≤ i then lb[j - 1]? else lb[j]? := by
  intro i
  induction i with
  | zero =>
    intro lb _ j
    unfold shiftEntries
    rw [if_neg (by omega)]
  | succ i ih =>
    intro lb hi j
    unfold shiftEntries
    by_cases hk : i + 1 > k
    · rw [if_pos hk, List.getElem?_eq_getElem (by omega : i < lb.length)]
      simp only
      rw [ih (lb.set (i + 1) lb[i]) (by rw [List.length_set]; omega) j]
      by_cases hj : k < j ∧ j ≤ i
      · rw [if_pos hj, if_pos (by omega), List.getElem?_set_ne (by omega)]
      · rw [if_neg hj]
        by_cases hj2 : j = i + 1
        · subst hj2
          rw [if_pos (by omega), List.getElem?_set_self (by omega)]
          rw [Nat.add_sub_cancel, List.getElem?_eq_getElem (by omega : i < lb.length)]
        · rw [if_neg (by omega), List.getElem?_set_ne (by omega)]
    · rw [if_neg hk, if_neg (by omega)]

/-- The array after the shift and the store of the new entry, cut at `c` entries. -/
theorem shifted_take (file tl : List LeaderboardEntry) (new : LeaderboardEntry)
    (k c : Nat) (hk : k ≤ file.length) (hkc : k < c) (hc : c ≤ file.length + 1)
    (hlen : c ≤ (file ++ tl).length) :
    ((shiftEntries k (c - 1) (file ++ tl)).set k new).take c
      = (file.take k ++ new :: file.drop k).take c := by
  apply List.ext_getElem?
  intro j
  rw [List.getElem?_take, List.getElem?_take]
  by_cases hj : j < c
  · rw [if_pos hj, if_pos hj]
    have hshiftlen : ∀ i l, (shiftEntries k i l).length = l.length := by
      intro i
      induction i with
      | zero => intro l; rfl
      | succ i ih =>
        intro l
        unfold shiftEntries
        split
        · split
          · rw [ih, List.length_set]
          · rw [ih]
        · rfl
    by_cases hjk : j = k
    · subst hjk
      rw [List.getElem?_set_self (by rw [hshiftlen]; omega),
        List.getElem?_append_right (by rw [List.length_take]; omega), List.length_take,
        show j - min j file.length = 0 by omega, List.getElem?_cons_zero]
    · rw [List.getElem?_set_ne (fun h => hjk h.symm),
        shiftEntries_getElem? k (c - 1) (file ++ tl) (by omega) j]
      by_cases hlt : j < k
      · rw [if_neg (by omega), List.getElem?_append_left (by omega),
          List.getElem?_append_left (by rw [List.length_take]; omega),
          List.getElem?_take_of_lt hlt]
      · rw [if_pos (by omega), List.getElem?_append_left (by omega),
          List.getElem?_append_right (by rw [List.length_take]; omega), List.length_take,
          show j - min k file.length = (j - k - 1) + 1 by omega, List.getElem?_cons_succ,
          List.getElem?_drop]
        congr 1
        omega
  · rw [if_neg hj, if_neg hj]

theorem takeWhile_as_take (p : LeaderboardEntry → Bool) (l : List LeaderboardEntry) :
    l.takeWhile p = l.take (l.takeWhile p).length ∧
    l.dropWhile p = l.drop (l.takeWhile p).length := by
  have h := List.takeWhile_append_dropWhile p l
  constructor
  · have := List.take_left (l.takeWhile p) (l.dropWhile p)
    rw [h] at this
    exact this.symm
  · have := List.drop_left (l.takeWhile p) (l.dropWhile p)
    rw [h] at this
    exact this.symm

theorem takeWhile_length_le (p : LeaderboardEntry → Bool) (l : List LeaderboardEntry) :
    (l.takeWhile p).length ≤ l.length := by
  have h := List.takeWhile_append_dropWhile p l
  have := congrArg List.length h
  rw [List.length_append] at this
  omega

theorem takeWhile_length_le_of_not (p : LeaderboardEntry → Bool) (l : List LeaderboardEntry)
    (i : Nat) (e : LeaderboardEntry) (h : l[i]? = some e) (hp : p e = false) :
    (l.takeWhile p).length ≤ i := by
  by_contra hlt
  have hi : i < (l.takeWhile p).length := by omega
  have h2 : (l.takeWhile p)[i]? = some e := by
    rw [← List.takeWhile_append_dropWhile p l, List.getElem?_append_left hi] at h
    exact h
  have hmem : e ∈ l.takeWhile p := List.getElem?_mem h2
  have := List.mem_takeWhile_imp hmem
  rw [hp] at this
  exact Bool.false_ne_true this

theorem sorted_last_le (file : List LeaderboardEntry) (hs : SortedDesc file) (i : Nat)
    (e : LeaderboardEntry) (h : file[i]? = some e) (hlast : i + 1 = file.length) :
    ∀ x ∈ file, e.score ≤ x.score := by
  have hsplit : file = file.take i ++ [e] := by
    have := @List.take_succ _ file i
    rw [h, Option.toList_some, hlast, List.take_length] at this
    exact this
  intro x hx
  rw [hsplit] at hs hx
  unfold SortedDesc at hs
  rw [List.pairwise_append] at hs
  rw [List.mem_append] at hx
  cases hx with
  | inl hx => exact hs.2.2 x hx e (List.mem_singleton_self e)
  | inr hx =>
    rw [List.mem_singleton] at hx
    rw [hx]

theorem insertAfterTies_length (l : List LeaderboardEntry) (new : LeaderboardEntry) :
    (insertAfterTies l new).length = l.length + 1 := by
  unfold insertAfterTies
  rw [List.length_append, List.length_cons]
  have := congrArg List.length (List.takeWhile_append_dropWhile (keepsAhead new.score) l)
  rw [List.length_append] at this
  omega

theorem dropWhile_sorted_lt (score : Int) (l : List LeaderboardEntry) (hs : SortedDesc l) :
    ∀ x ∈ l.dropWhile (keepsAhead score), x.score < score := by
  induction l with
  | nil =>
    intro x hx
    cases hx
  | cons a t ih =>
    unfold SortedDesc at hs
    rw [List.pairwise_cons] at hs
    by_cases ha : keepsAhead score a = true
    · rw [List.dropWhile_cons_of_pos ha]
      exact ih hs.2
    · rw [List.dropWhile_cons_of_neg ha]
      have halt : a.score < score := by
        unfold keepsAhead at ha
        have : ¬ score ≤ a.score := fun hle => ha (decide_eq_true hle)
        omega
      intro x hx
      rw [List.mem_cons] at hx
      cases hx with
      | inl hx => rw [hx]; exact halt
      | inr hx =>
        have := hs.1 x hx
        omega

theorem insertAfterTies_sorted (l : List LeaderboardEntry) (new : LeaderboardEntry)
    (hs : SortedDesc l) : SortedDesc (insertAfterTies l new) := by
  have hsplit := List.takeWhile_append_dropWhile (keepsAhead new.score) l
  have hs2 := hs
  unfold SortedDesc at hs2
  rw [← hsplit, List.pairwise_append] at hs2
  obtain ⟨h1, h2, h3⟩ := hs2
  have hlt := dropWhile_sorted_lt new.score l hs
  have hge : ∀ x ∈ l.takeWhile (keepsAhead new.score), new.score ≤ x.score := by
    intro x hx
    have := List.mem_takeWhile_imp hx
    unfold keepsAhead at this
    exact of_decide_eq_true this
  unfold insertAfterTies SortedDesc
  rw [List.pairwise_append, List.pairwise_cons]
  refine ⟨h1, ⟨?_, h2⟩, ?_⟩
  · intro x hx
    have := hlt x hx
    omega
  · intro a ha b hb
    rw [List.mem_cons] at hb
    cases hb with
    | inl hb =>
      rw [hb]
      exact hge a ha
    | inr hb => exact h3 a ha b hb

theorem loadLeaderboard_file (stack file : List LeaderboardEntry)
    (hs : stack.length = MAX_LEADERBOARD_ENTRIES)
    (hf : file.length ≤ MAX_LEADERBOARD_ENTRIES) :
    loadLeaderboard stack 0 file = (file ++ stack.drop file.length, file.length) := by
  have h := loadLeaderboard_spec file stack 0 (by omega) (by omega)
  rw [List.take_zero, List.nil_append, Nat.zero_add] at h
  exact h

/-- With at most ten records in the file, the file after `saveScore` holds the first ten
entries of the old list with the new entry placed after its ties. -/
theorem saveScore_spec (stack file : List LeaderboardEntry) (g : Game)
    (hs : stack.length = MAX_LEADERBOARD_ENTRIES)
    (hf : file.length ≤ MAX_LEADERBOARD_ENTRIES) (hsorted : SortedDesc file) :
    saveScore stack file g
      = (insertAfterTies file (entryOf g)).take MAX_LEADERBOARD_ENTRIES := by
  have hM : MAX_LEADERBOARD_ENTRIES = 10 := rfl
  obtain ⟨htw, hdw⟩ := takeWhile_as_take (keepsAhead g.score) file
  have hkle := takeWhile_length_le (keepsAhead g.score) file
  have hins : insertAfterTies file (entryOf g)
      = file.take (file.takeWhile (keepsAhead g.score)).length
        ++ entryOf g :: file.drop (file.takeWhile (keepsAhead g.score)).length := by
    unfold insertAfterTies
    show file.takeWhile (keepsAhead g.score) ++ entryOf g :: file.dropWhile (keepsAhead g.score)
      = _
    rw [← htw, ← hdw]
  have hlb : (file ++ stack.drop file.length).length = 10 := by
    rw [List.length_append, List.length_drop]
    omega
  unfold saveScore
  rw [loadLeaderboard_file stack file hs hf]
  simp only
  by_cases hn : file.length < MAX_LEADERBOARD_ENTRIES
  · -- room left: the count grows by one
    have hq : (decide (file.length < MAX_LEADERBOARD_ENTRIES) ||
        (match (file ++ stack.drop file.length)[file.length - 1]? with
         | some e => decide (g.score > e.score)
         | none => false)) = true := by
      rw [decide_eq_true hn, Bool.true_or]
    rw [if_pos hq, if_pos hn, if_neg (by omega)]
    have hfind := findInsertIndex_spec g.score file [] (stack.drop file.length) 1 (le_refl _)
    rw [List.nil_append, List.length_nil, Nat.zero_add, Nat.zero_add] at hfind
    rw [hfind, Nat.add_sub_cancel]
    have := shifted_take file (stack.drop file.length) (entryOf g)
      (file.takeWhile (keepsAhead g.score)).length (file.length + 1) hkle (by omega)
      (le_refl _) (by omega)
    rw [Nat.add_sub_cancel] at this
    have hL : (file.take (file.takeWhile (keepsAhead g.score)).length
        ++ entryOf g :: file.drop (file.takeWhile (keepsAhead g.score)).length).length
        = file.length + 1 := by
      rw [List.length_append, List.length_cons, List.length_take, List.length_drop]
      omega
    have e1 : (file.take (file.takeWhile (keepsAhead g.score)).length
        ++ entryOf g :: file.drop (file.takeWhile (keepsAhead g.score)).length).take
          (file.length + 1)
        = file.take (file.takeWhile (keepsAhead g.score)).length
          ++ entryOf g :: file.drop (file.takeWhile (keepsAhead g.score)).length :=
      List.take_of_length_le (by rw [hL])
    have e2 : (file.take (file.takeWhile (keepsAhead g.score)).length
        ++ entryOf g :: file.drop (file.takeWhile (keepsAhead g.score)).length).take
          MAX_LEADERBOARD_ENTRIES
        = file.take (file.takeWhile (keepsAhead g.score)).length
          ++ entryOf g :: file.drop (file.takeWhile (keepsAhead g.score)).length :=
      List.take_of_length_le (by rw [hL]; omega)
    rw [hins, e2, ← e1]
    exact this
  · -- full board
    have hlen : file.length = 10 := by omega
    have htl : stack.drop file.length = [] := List.drop_of_length_le (by omega)
    have hget : (file ++ stack.drop file.length)[file.length - 1]? = some file[9] := by
      rw [htl, List.append_nil, show file.length - 1 = 9 by omega]
      exact List.getElem?_eq_getElem (by omega)
    by_cases hgt : g.score > file[9].score
    · have hq : (decide (file.length < MAX_LEADERBOARD_ENTRIES) ||
          (match (file ++ stack.drop file.length)[file.length - 1]? with
           | some e => decide (g.score > e.score)
           | none => false)) = true := by
        rw [hget]
        simp only
        rw [decide_eq_true hgt, Bool.or_true]
      rw [if_pos hq, if_neg hn, if_neg (by omega)]
      have hfind := findInsertIndex_spec g.score file [] (stack.drop file.length) 0
        (Nat.zero_le _)
      rw [List.nil_append, List.length_nil, Nat.zero_add, Nat.zero_add, Nat.add_zero] at hfind
      rw [hfind]
      have hk9 : (file.takeWhile (keepsAhead g.score)).length ≤ 9 :=
        takeWhile_length_le_of_not _ file 9 file[9] (List.getElem?_eq_getElem (by omega))
          (by unfold keepsAhead; exact decide_eq_false (by omega))
      have := shifted_take file (stack.drop file.length) (entryOf g)
        (file.takeWhile (keepsAhead g.score)).length file.length hkle (by omega)
        (by omega) (by omega)
      rw [hins]
      show ((shiftEntries _ (file.length - 1) _).set _ (entryOf g)).take file.length = _
      rw [this, hlen]
      rfl
    · have hq : (decide (file.length < MAX_LEADERBOARD_ENTRIES) ||
          (match (file ++ stack.drop file.length)[file.length - 1]? with
           | some e => decide (g.score > e.score)
           | none => false)) = false := by
        rw [hget]
        simp only
        rw [decide_eq_false hn, decide_eq_false hgt, Bool.or_false]
      rw [if_neg (by rw [hq]; exact Bool.false_ne_true)]
      have hall : ∀ x ∈ file, keepsAhead g.score x = true := by
        intro x hx
        have := sorted_last_le file hsorted 9 file[9] (List.getElem?_eq_getElem (by omega))
          (by omega) x hx
        unfold keepsAhead
        exact decide_eq_true (by omega)
      have hfull : file.takeWhile (keepsAhead g.score) = file :=
        List.takeWhile_eq_self_iff.2 hall
      rw [hins, hfull, hM, ← hlen, List.take_length, List.take_left]

/-- C20: for every leaderboard file of `n <= 10` records in descending order of score and
every finished session, the file after `saveScore` is in descending order of score and
has `min(n + 1, 10)` records, whatever the uninitialised local array held. -/
theorem C20_leaderboard_stays_sorted_and_capped (stack file : List LeaderboardEntry)
    (g : Game) (hs : stack.length = MAX_LEADERBOARD_ENTRIES)
    (hf : file.length ≤ MAX_LEADERBOARD_ENTRIES) (hsorted : SortedDesc file) :
    SortedDesc (saveScore stack file g) ∧
    (saveScore stack file g).length = min (file.length + 1) 10 := by
  rw [saveScore_spec stack file g hs hf hsorted]
  constructor
  · exact List.Pairwise.take (insertAfterTies_sorted file (entryOf g) hsorted)
  · rw [List.length_take, insertAfterTies_length]
    show min 10 (file.length + 1) = _
    omega

theorem C20_leaderboard_stays_sorted_and_capped_witness :
    (staleBoard.length = MAX_LEADERBOARD_ENTRIES ∧
     smallBoard.length ≤ MAX_LEADERBOARD_ENTRIES ∧ SortedDesc smallBoard ∧
     (saveScore staleBoard smallBoard { demoGame with score := 40 }).map (fun e => e.score)
       = [50, 40, 40, 40, 10]) ∧
    (SortedDesc (saveScore staleBoard smallBoard { demoGame with score := 40 }) ∧
     (saveScore staleBoard smallBoard { demoGame with score := 40 }).length
       = min (smallBoard.length + 1) 10) :=
  ⟨by decide,
   C20_leaderboard_stays_sorted_and_capped staleBoard smallBoard { demoGame with score := 40 }
     (by decide) (by decide) (by decide)⟩

/-! ## Claim C21: where `saveScore` puts the new entry -/

theorem sorted_split_as_filter (score : Int) (l : List LeaderboardEntry) (hs : SortedDesc l) :
    l.takeWhile (keepsAhead score) = l.filter (fun e => decide (score ≤ e.score)) ∧
    l.dropWhile (keepsAhead score) = l.filter (fun e => decide (e.score < score)) := by
  induction l with
  | nil => exact ⟨rfl, rfl⟩
  | cons a t ih =>
    have hs2 := hs
    unfold SortedDesc at hs2
    rw [List.pairwise_cons] at hs2
    obtain ⟨ih1, ih2⟩ := ih hs2.2
    by_cases ha : score ≤ a.score
    · have hk : keepsAhead score a = true := decide_eq_true ha
      have hd : decide (score ≤ a.score) = true := decide_eq_true ha
      have hn : ¬ (decide (a.score < score) = true) := by
        rw [decide_eq_true_eq]
        omega
      rw [List.takeWhile_cons_of_pos hk, List.dropWhile_cons_of_pos hk, ih1, ih2]
      simp only [List.filter_cons, decide_eq_true_eq, if_pos ha,
        if_neg (show ¬ a.score < score by omega)]
      refine ⟨?_, ?_⟩ <;> first | rfl | trivial
    · have hk : ¬ (keepsAhead score a = true) := by
        unfold keepsAhead
        rw [decide_eq_true_eq]
        exact ha
      have hd : ¬ (decide (score ≤ a.score) = true) := by
        rw [decide_eq_true_eq]
        exact ha
      have hn : decide (a.score < score) = true := decide_eq_true (by omega)
      rw [List.takeWhile_cons_of_neg hk, List.dropWhile_cons_of_neg hk]
      simp only [List.filter_cons, decide_eq_true_eq, if_neg ha,
        if_pos (show a.score < score by omega)]
      constructor
      · symm
        rw [List.filter_eq_nil_iff]
        intro b hb
        have := hs2.1 b hb
        rw [decide_eq_true_eq]
        omega
      · congr 1
        symm
        rw [List.filter_eq_self]
        intro b hb
        have := hs2.1 b hb
        rw [decide_eq_true_eq]
        omega

theorem insertAfterTies_eq_spec (l : List LeaderboardEntry) (new : LeaderboardEntry)
    (hs : SortedDesc l) : insertAfterTies l new = insertBySpec l new := by
  obtain ⟨h1, h2⟩ := sorted_split_as_filter new.score l hs
  unfold insertAfterTies insertBySpec
  rw [h1, h2]

/-- C21: for every leaderboard file of `n <= 10` records in descending order of score, the
file after `saveScore` is the first 10 entries of the list in which the new entry stands
after all old entries whose score is at least its own (so after its ties) and before all
old entries with a smaller score, the old entries in their order; a full board whose last
score the new score does not exceed is left as it is. -/
theorem C21_insertion_is_stable_and_truncates (stack file : List LeaderboardEntry)
    (g : Game) (hs : stack.length = MAX_LEADERBOARD_ENTRIES)
    (hf : file.length ≤ MAX_LEADERBOARD_ENTRIES) (hsorted : SortedDesc file) :
    saveScore stack file g = (insertBySpec file (entryOf g)).take 10 ∧
    (entryOf g).score = g.score ∧
    (file.length = 10 → (∀ e, file[9]? = some e → g.score ≤ e.score) →
      saveScore stack file g = file) := by
  have hspec := saveScore_spec stack file g hs hf hsorted
  rw [insertAfterTies_eq_spec file (entryOf g) hsorted] at hspec
  refine ⟨hspec, rfl, ?_⟩
  intro hlen hlast
  have h9 : file[9]? = some file[9] := List.getElem?_eq_getElem (by omega)
  have hle := hlast _ h9
  have hall := sorted_last_le file hsorted 9 file[9] h9 (by omega)
  rw [hspec]
  unfold insertBySpec
  have e1 : file.filter (fun e => decide ((entryOf g).score ≤ e.score)) = file := by
    rw [List.filter_eq_self]
    intro b hb
    have := hall b hb
    rw [decide_eq_true_eq]
    show g.score ≤ b.score
    omega
  rw [e1]
  show (file ++ _).take 10 = file
  rw [← hlen, List.take_left]

theorem C21_insertion_is_stable_and_truncates_witness :
    (staleBoard.length = MAX_LEADERBOARD_ENTRIES ∧
     smallBoard.length ≤ MAX_LEADERBOARD_ENTRIES ∧ SortedDesc smallBoard ∧
     (saveScore staleBoard smallBoard { demoGame with score := 40 }).map
        (fun e => (e.playerName, e.score))
       = [("ada", 50), ("bob", 40), ("cy", 40), ("pilot", 40), ("dee", 10)]) ∧
    (saveScore staleBoard smallBoard { demoGame with score := 40 }
       = (insertBySpec smallBoard (entryOf { demoGame with score := 40 })).take 10 ∧
     (entryOf { demoGame with score := 40 }).score = ({ demoGame with score := 40 } : Game).score ∧
     (smallBoard.length = 10 →
       (∀ e, smallBoard[9]? = some e → ({ demoGame with score := 40 } : Game).score ≤ e.score) →
       saveScore staleBoard smallBoard { demoGame with score := 40 } = smallBoard)) :=
  ⟨by decide,
   C21_insertion_is_stable_and_truncates staleBoard smallBoard { demoGame with score := 40 }
     (by decide) (by decide) (by decide)⟩

/-! ## Claim C22: the world size after `loadConfig` -/

/-- C22: after `loadConfig`, `worldWidth >= 18` and `worldHeight >= 18`; each dimension is
the value read from the file when that value is at least 18, and 18 when the value read is
below 18, when no value was read, or when the file is missing. -/
theorem C22_world_size_is_clamped (g : Game) (file : Option (Option Int × Option Int)) :
    (loadConfig g file).worldWidth ≥ 18 ∧ (loadConfig g file).worldHeight ≥ 18 ∧
    (file = none →
      (loadConfig g file).worldWidth = 18 ∧ (loadConfig g file).worldHeight = 18) ∧
    (∀ w h, file = some (w, h) →
      (loadConfig g file).worldWidth = clampedSize w ∧
      (loadConfig g file).worldHeight = clampedSize h) ∧
    clampedSize none = 18 ∧
    (∀ v : Int, v ≥ 18 → clampedSize (some v) = v) ∧
    (∀ v : Int, v < 18 → clampedSize (some v) = 18) := by
  have hshape : (loadConfig g file).worldWidth
        = (match file with | none => 18 | some (w, _) => clampedSize w) ∧
      (loadConfig g file).worldHeight
        = (match file with | none => 18 | some (_, h) => clampedSize h) := by
    cases file with
    | none => exact ⟨rfl, rfl⟩
    | some p =>
      obtain ⟨w, v⟩ := p
      cases w <;> cases v <;> unfold loadConfig clampedSize WORLD_MIN_SIZE <;> simp only <;>
        split_ifs <;> (try dsimp only) <;> exact ⟨rfl, rfl⟩
  have hc : ∀ o : Option Int, clampedSize o ≥ 18 := by
    intro o
    cases o with
    | none => decide
    | some v =>
      unfold clampedSize WORLD_MIN_SIZE
      dsimp only
      split_ifs <;> omega
  refine ⟨?_, ?_, ?_, ?_, rfl, ?_, ?_⟩
  · rw [hshape.1]
    cases file with
    | none => decide
    | some p => exact hc p.1
  · rw [hshape.2]
    cases file with
    | none => decide
    | some p => exact hc p.2
  · intro hf
    subst hf
    exact ⟨rfl, rfl⟩
  · intro w h hf
    subst hf
    exact hshape
  · intro v hv
    unfold clampedSize WORLD_MIN_SIZE
    dsimp only
    rw [if_neg (by omega)]
  · intro v hv
    unfold clampedSize WORLD_MIN_SIZE
    dsimp only
    rw [if_pos hv]

/-! ## Claims C25-C27: one sub-step of the hazard, and the loop around it -/

/-- The sub-step in terms of the wall-corrected direction and candidate. -/
theorem stepAsteroid_eq (g : Game) :
    stepAsteroid g =
      if hitsImpassable g.impassableCells (wallCandidate g).x (wallCandidate g).y then
        { g.asteroid with
          position :=
            { x := g.asteroid.position.x +
                (if (wallDirection g).x * -1 = 0 ∧ (wallDirection g).y * -1 = 0 then 1
                 else (wallDirection g).x * -1),
              y := g.asteroid.position.y + (wallDirection g).y * -1 },
          direction :=
            { x := if (wallDirection g).x * -1 = 0 ∧ (wallDirection g).y * -1 = 0 then 1
                   else (wallDirection g).x * -1,
              y := (wallDirection g).y * -1 } }
      else
        { g.asteroid with position := wallCandidate g, direction := wallDirection g } := by
  unfold stepAsteroid wallCandidate wallDirection
  dsimp only
  by_cases hx : g.asteroid.position.x + g.asteroid.direction.x < 0 ∨
      g.asteroid.position.x + g.asteroid.direction.x ≥ g.worldWidth
  · by_cases hy : g.asteroid.position.y + g.asteroid.direction.y < 0 ∨
        g.asteroid.position.y + g.asteroid.direction.y ≥ g.worldHeight
    · simp only [if_pos hx, if_pos hy]
    · simp only [if_pos hx, if_neg hy]
  · by_cases hy : g.asteroid.position.y + g.asteroid.direction.y < 0 ∨
        g.asteroid.position.y + g.asteroid.direction.y ≥ g.worldHeight
    · simp only [if_neg hx, if_pos hy]
    · simp only [if_neg hx, if_neg hy]

/-- C25: for an in-bounds hazard position, a well-formed direction and a world of size at
least 2 in each axis, when the wall-corrected candidate is not an impassable cell, the
sub-step negates the x component exactly when `position.x + direction.x` is outside
`[0, worldWidth)` and the y component exactly when `position.y + direction.y` is outside
`[0, worldHeight)`, commits the old position plus the resulting direction, and that
position is in bounds. -/
theorem C25_wall_bounce (g : Game) (hin : inWorld g g.asteroid.position)
    (hd : WellFormedDir g.asteroid.direction)
    (hw : 2 ≤ g.worldWidth) (hh : 2 ≤ g.worldHeight)
    (hfree : ¬ onImpassable g (wallCandidate g)) :
    ((g.asteroid.position.x + g.asteroid.direction.x < 0 ∨
        g.asteroid.position.x + g.asteroid.direction.x ≥ g.worldWidth) →
      (moveAsteroidStep g).asteroid.direction.x = -g.asteroid.direction.x) ∧
    (¬ (g.asteroid.position.x + g.asteroid.direction.x < 0 ∨
        g.asteroid.position.x + g.asteroid.direction.x ≥ g.worldWidth) →
      (moveAsteroidStep g).asteroid.direction.x = g.asteroid.direction.x) ∧
    ((g.asteroid.position.y + g.asteroid.direction.y < 0 ∨
        g.asteroid.position.y + g.asteroid.direction.y ≥ g.worldHeight) →
      (moveAsteroidStep g).asteroid.direction.y = -g.asteroid.direction.y) ∧
    (¬ (g.asteroid.position.y + g.asteroid.direction.y < 0 ∨
        g.asteroid.position.y + g.asteroid.direction.y ≥ g.worldHeight) →
      (moveAsteroidStep g).asteroid.direction.y = g.asteroid.direction.y) ∧
    (moveAsteroidStep g).asteroid.position
      = { x := g.asteroid.position.x + (moveAsteroidStep g).asteroid.direction.x,
          y := g.asteroid.position.y + (moveAsteroidStep g).asteroid.direction.y } ∧
    inWorld g (moveAsteroidStep g).asteroid.position := by
  have hno : hitsImpassable g.impassableCells (wallCandidate g).x (wallCandidate g).y
      = false := by
    cases hh : hitsImpassable g.impassableCells (wallCandidate g).x (wallCandidate g).y with
    | false => rfl
    | true => exact absurd ((hitsImpassable_iff g _ _).1 hh) hfree
  have hstep : (moveAsteroidStep g).asteroid
      = { g.asteroid with position := wallCandidate g, direction := wallDirection g } := by
    show stepAsteroid g = _
    rw [stepAsteroid_eq, hno]
    rfl
  rw [hstep]
  unfold inWorld at hin ⊢
  unfold WellFormedDir at hd
  unfold wallCandidate wallDirection
  dsimp only
  refine ⟨?_, ?_, ?_, ?_, rfl, ?_⟩
  · intro h
    rw [if_pos h]
    omega
  · intro h
    rw [if_neg h]
  · intro h
    rw [if_pos h]
    omega
  · intro h
    rw [if_neg h]
  · split_ifs <;> omega

theorem C25_wall_bounce_witness :
    (inWorld cornerGame cornerGame.asteroid.position ∧
     WellFormedDir cornerGame.asteroid.direction ∧
     2 ≤ cornerGame.worldWidth ∧ 2 ≤ cornerGame.worldHeight ∧
     ¬ onImpassable cornerGame (wallCandidate cornerGame) ∧
     (moveAsteroidStep cornerGame).asteroid.direction = { x := -1, y := 1 } ∧
     (moveAsteroidStep cornerGame).asteroid.position = { x := 16, y := 1 }) ∧
    (((cornerGame.asteroid.position.x + cornerGame.asteroid.direction.x < 0 ∨
        cornerGame.asteroid.position.x + cornerGame.asteroid.direction.x
          ≥ cornerGame.worldWidth) →
      (moveAsteroidStep cornerGame).asteroid.direction.x = -cornerGame.asteroid.direction.x) ∧
    (¬ (cornerGame.asteroid.position.x + cornerGame.asteroid.direction.x < 0 ∨
        cornerGame.asteroid.position.x + cornerGame.asteroid.direction.x
          ≥ cornerGame.worldWidth) →
      (moveAsteroidStep cornerGame).asteroid.direction.x = cornerGame.asteroid.direction.x) ∧
    ((cornerGame.asteroid.position.y + cornerGame.asteroid.direction.y < 0 ∨
        cornerGame.asteroid.position.y + cornerGame.asteroid.direction.y
          ≥ cornerGame.worldHeight) →
      (moveAsteroidStep cornerGame).asteroid.direction.y = -cornerGame.asteroid.direction.y) ∧
    (¬ (cornerGame.asteroid.position.y + cornerGame.asteroid.direction.y < 0 ∨
        cornerGame.asteroid.position.y + cornerGame.asteroid.direction.y
          ≥ cornerGame.worldHeight) →
      (moveAsteroidStep cornerGame).asteroid.direction.y = cornerGame.asteroid.direction.y) ∧
    (moveAsteroidStep cornerGame).asteroid.position
      = { x := cornerGame.asteroid.position.x + (moveAsteroidStep cornerGame).asteroid.direction.x,
          y := cornerGame.asteroid.position.y
                + (moveAsteroidStep cornerGame).asteroid.direction.y } ∧
    inWorld cornerGame (moveAsteroidStep cornerGame).asteroid.position) :=
  ⟨by decide,
   C25_wall_bounce cornerGame (by decide) (by decide) (by decide) (by decide) (by decide)⟩

/-- The obstacle branch of a sub-step: the wall-corrected direction is negated and the
position recomputed from the pre-step position; a direction that is `(0,0)` after the
negation is set to `(1,0)` first (the guard at lines 477-479). -/
theorem stepAsteroid_on_obstacle (g : Game) (hb : onImpassable g (wallCandidate g)) :
    (¬ ((wallDirection g).x = 0 ∧ (wallDirection g).y = 0) →
      (moveAsteroidStep g).asteroid.direction
        = { x := -(wallDirection g).x, y := -(wallDirection g).y } ∧
      (moveAsteroidStep g).asteroid.position
        = { x := g.asteroid.position.x + -(wallDirection g).x,
            y := g.asteroid.position.y + -(wallDirection g).y }) ∧
    (((wallDirection g).x = 0 ∧ (wallDirection g).y = 0) →
      (moveAsteroidStep g).asteroid.direction = { x := 1, y := 0 } ∧
      (moveAsteroidStep g).asteroid.position
        = { x := g.asteroid.position.x + 1, y := g.asteroid.position.y }) := by
  have hyes : hitsImpassable g.impassableCells (wallCandidate g).x (wallCandidate g).y
      = true := (hitsImpassable_iff g _ _).2 hb
  have hstep : (moveAsteroidStep g).asteroid = stepAsteroid g := rfl
  rw [hstep, stepAsteroid_eq, if_pos hyes]
  dsimp only
  constructor
  · intro hz
    have hz2 : ¬ ((wallDirection g).x * -1 = 0 ∧ (wallDirection g).y * -1 = 0) := by
      intro h
      apply hz
      omega
    rw [if_neg hz2]
    constructor
    · congr 1 <;> omega
    · congr 1 <;> omega
  · intro hz
    have hz2 : (wallDirection g).x * -1 = 0 ∧ (wallDirection g).y * -1 = 0 := by omega
    rw [if_pos hz2]
    constructor
    · congr 1
      omega
    · congr 1
      omega

/-- The wall test keeps or negates each component, so a well-formed direction is not
`(0,0)` after it. -/
theorem wallDirection_nonzero (g : Game) (hd : WellFormedDir g.asteroid.direction) :
    ¬ ((wallDirection g).x = 0 ∧ (wallDirection g).y = 0) := by
  obtain ⟨_, _, hnz⟩ := hd
  unfold wallDirection
  dsimp only
  intro h
  apply hnz
  split_ifs at h <;> omega

/-- C26: for a hazard with a well-formed direction (as in every session that `initGame`
returns and every state after it), whenever the candidate cell after the wall tests is an
impassable cell, the sub-step negates both components of the wall-corrected direction and
commits the pre-step position plus that negated direction, which is not the candidate
cell that the wall tests computed. -/
theorem C26_obstacle_bounce (g : Game) (hd : WellFormedDir g.asteroid.direction)
    (hb : onImpassable g (wallCandidate g)) :
    (moveAsteroidStep g).asteroid.direction
      = { x := -(wallDirection g).x, y := -(wallDirection g).y } ∧
    (moveAsteroidStep g).asteroid.position
      = { x := g.asteroid.position.x + -(wallDirection g).x,
          y := g.asteroid.position.y + -(wallDirection g).y } ∧
    (moveAsteroidStep g).asteroid.position ≠ wallCandidate g := by
  have hnz := wallDirection_nonzero g hd
  obtain ⟨hdir, hpos⟩ := (stepAsteroid_on_obstacle g hb).1 hnz
  refine ⟨hdir, hpos, ?_⟩
  rw [hpos]
  intro heq
  apply hnz
  have hx := congrArg Position.x heq
  have hy := congrArg Position.y heq
  unfold wallCandidate at hx hy
  dsimp only at hx hy
  omega

theorem C26_obstacle_bounce_witness :
    (WellFormedDir demoGame.asteroid.direction ∧
     onImpassable demoGame (wallCandidate demoGame) ∧
     wallDirection demoGame = { x := 1, y := 0 } ∧
     wallCandidate demoGame = { x := 1, y := 5 }) ∧
    ((moveAsteroidStep demoGame).asteroid.direction
        = { x := -(wallDirection demoGame).x, y := -(wallDirection demoGame).y } ∧
     (moveAsteroidStep demoGame).asteroid.position
        = { x := demoGame.asteroid.position.x + -(wallDirection demoGame).x,
            y := demoGame.asteroid.position.y + -(wallDirection demoGame).y } ∧
     (moveAsteroidStep demoGame).asteroid.position ≠ wallCandidate demoGame) :=
  ⟨by decide, C26_obstacle_bounce demoGame (by decide) (by decide)⟩

theorem moveAsteroidStep_flags (g : Game) :
    (moveAsteroidStep g).isGameOver = g.isGameOver ∧
    (moveAsteroidStep g).hasWon = g.hasWon ∧
    (moveAsteroidStep g).ship = g.ship := ⟨rfl, rfl, rfl⟩

theorem iterate_step_frame (k : Nat) (g : Game) :
    (Nat.iterate moveAsteroidStep k g).isGameOver = g.isGameOver ∧
    (Nat.iterate moveAsteroidStep k g).hasWon = g.hasWon ∧
    (Nat.iterate moveAsteroidStep k g).ship = g.ship := by
  induction k generalizing g with
  | zero => exact ⟨rfl, rfl, rfl⟩
  | succ k ih =>
    rw [Function.iterate_succ_apply]
    exact ih (moveAsteroidStep g)

/-- The loop with `n` iterations left stops at the first sub-step that lands on the
ship. -/
theorem moveAsteroidLoop_first_hit (n : Nat) :
    ∀ (g : Game) (k : Nat), 1 ≤ k → k ≤ n →
      asteroidOnShip (Nat.iterate moveAsteroidStep k g) = true →
      (∀ j, 1 ≤ j → j < k → asteroidOnShip (Nat.iterate moveAsteroidStep j g) = false) →
      moveAsteroidLoop n g
        = { Nat.iterate moveAsteroidStep k g with isGameOver := 1, hasWon := 0 } := by
  induction n with
  | zero =>
    intro g k h1 h2
    omega
  | succ n ih =>
    intro g k h1 h2 hhit hbefore
    unfold moveAsteroidLoop
    dsimp only
    by_cases hc : asteroidOnShip (moveAsteroidStep g) = true
    · rw [if_pos hc]
      have hk : k = 1 := by
        by_contra hne
        have := hbefore 1 (le_refl 1) (by omega)
        rw [Function.iterate_one] at this
        rw [this] at hc
        exact Bool.false_ne_true hc
      subst hk
      rw [Function.iterate_one]
    · rw [if_neg hc]
      have hk : 2 ≤ k := by
        by_contra hlt
        have hk1 : k = 1 := by omega
        subst hk1
        rw [Function.iterate_one] at hhit
        exact hc hhit
      obtain ⟨m, rfl⟩ : ∃ m, k = m + 1 := ⟨k - 1, by omega⟩
      rw [Function.iterate_succ_apply] at hhit ⊢
      apply ih (moveAsteroidStep g) m (by omega) (by omega) hhit
      intro j hj1 hj2
      have := hbefore (j + 1) (by omega) (by omega)
      rw [Function.iterate_succ_apply] at this
      exact this

/-- The loop performs all its `n` sub-steps when none of them lands on the ship. -/
theorem moveAsteroidLoop_no_hit (n : Nat) :
    ∀ (g : Game),
      (∀ k, 1 ≤ k → k ≤ n → asteroidOnShip (Nat.iterate moveAsteroidStep k g) = false) →
      moveAsteroidLoop n g = Nat.iterate moveAsteroidStep n g := by
  induction n with
  | zero =>
    intro g _
    rfl
  | succ n ih =>
    intro g hno
    unfold moveAsteroidLoop
    dsimp only
    have h1 := hno 1 (le_refl 1) (by omega)
    rw [Function.iterate_one] at h1
    rw [if_neg (by rw [h1]; exact Bool.false_ne_true), Function.iterate_succ_apply]
    apply ih (moveAsteroidStep g)
    intro k hk1 hk2
    have := hno (k + 1) (by omega) (by omega)
    rw [Function.iterate_succ_apply] at this
    exact this

/-- C27: `moveAsteroid` performs at most `ASTEROID_SPEEDS[difficulty]` sub-steps (1, 2, 3
for Easy, Medium, Hard).  If sub-step `k` is the first after which the hazard is on the
ship's cell, the result is the state after exactly `k` sub-steps with `isGameOver = 1` and
`hasWon = 0`, the hazard on the ship's cell.  If no sub-step lands on the ship, the result
is the state after exactly `speed` sub-steps, `isGameOver` and `hasWon` unchanged. -/
theorem C27_moveAsteroid_substeps (g : Game) :
    (∀ k, 1 ≤ k → k ≤ (ASTEROID_SPEEDS g.difficulty).toNat →
      asteroidOnShip (Nat.iterate moveAsteroidStep k g) = true →
      (∀ j, 1 ≤ j → j < k → asteroidOnShip (Nat.iterate moveAsteroidStep j g) = false) →
      moveAsteroid g = { Nat.iterate moveAsteroidStep k g with isGameOver := 1, hasWon := 0 } ∧
      (moveAsteroid g).asteroid.position = (moveAsteroid g).ship.position) ∧
    ((∀ k, 1 ≤ k → k ≤ (ASTEROID_SPEEDS g.difficulty).toNat →
        asteroidOnShip (Nat.iterate moveAsteroidStep k g) = false) →
      moveAsteroid g = Nat.iterate moveAsteroidStep (ASTEROID_SPEEDS g.difficulty).toNat g ∧
      (moveAsteroid g).isGameOver = g.isGameOver ∧ (moveAsteroid g).hasWon = g.hasWon) ∧
    ASTEROID_SPEEDS .EASY = 1 ∧ ASTEROID_SPEEDS .MEDIUM = 2 ∧ ASTEROID_SPEEDS .HARD = 3 := by
  refine ⟨?_, ?_, rfl, rfl, rfl⟩
  · intro k h1 h2 hhit hbefore
    have heq := moveAsteroidLoop_first_hit _ g k h1 h2 hhit hbefore
    have heq2 : moveAsteroid g
        = { Nat.iterate moveAsteroidStep k g with isGameOver := 1, hasWon := 0 } := heq
    refine ⟨heq2, ?_⟩
    rw [heq2]
    unfold asteroidOnShip at hhit
    rw [Bool.and_eq_true, beq_iff_eq, beq_iff_eq] at hhit
    show (Nat.iterate moveAsteroidStep k g).asteroid.position
      = (Nat.iterate moveAsteroidStep k g).ship.position
    cases hp : (Nat.iterate moveAsteroidStep k g).asteroid.position with
    | mk ax ay =>
      cases hq : (Nat.iterate moveAsteroidStep k g).ship.position with
      | mk sx sy =>
        rw [hp, hq] at hhit
        dsimp only at hhit
        rw [hhit.1, hhit.2]
  · intro hno
    have heq : moveAsteroid g
        = Nat.iterate moveAsteroidStep (ASTEROID_SPEEDS g.difficulty).toNat g :=
      moveAsteroidLoop_no_hit _ g hno
    have hf := iterate_step_frame (ASTEROID_SPEEDS g.difficulty).toNat g
    rw [heq]
    exact ⟨rfl, hf.1, hf.2.1⟩

theorem C27_moveAsteroid_substeps_witness :
    (moveAsteroid rammedGame
        = { Nat.iterate moveAsteroidStep 1 rammedGame with isGameOver := 1, hasWon := 0 } ∧
      (moveAsteroid rammedGame).asteroid.position = (moveAsteroid rammedGame).ship.position) ∧
    (moveAsteroid demoGame = Nat.iterate moveAsteroidStep 1 demoGame ∧
      (moveAsteroid demoGame).isGameOver = demoGame.isGameOver ∧
      (moveAsteroid demoGame).hasWon = demoGame.hasWon) :=
  ⟨(C27_moveAsteroid_substeps rammedGame).1 1 (le_refl 1) (by decide) (by decide)
      (fun j h1 h2 => absurd h1 (by omega)),
   (C27_moveAsteroid_substeps demoGame).2.1 (fun k h1 h2 => by
      have hk : k = 1 := by
        have : (ASTEROID_SPEEDS demoGame.difficulty).toNat = 1 := by decide
        omega
      subst hk
      decide)⟩

/-! ## Claim C23: where `initGame` puts things -/

theorem loadConfig_min (g : Game) (file : Option (Option Int × Option Int)) :
    18 ≤ (loadConfig g file).worldWidth ∧ 18 ≤ (loadConfig g file).worldHeight := by
  cases file with
  | none => exact ⟨le_refl _, le_refl _⟩
  | some p =>
    obtain ⟨w, v⟩ := p
    cases w <;> cases v <;> unfold loadConfig WORLD_MIN_SIZE <;> simp only <;>
      split_ifs <;> (try dsimp only at *) <;> omega

theorem take_succ_set {α : Type} (l : List α) (n : Nat) (a : α) (h : n < l.length) :
    (l.set n a).take (n + 1) = l.take n ++ [a] := by
  induction l generalizing n with
  | nil => simp at h
  | cons x t ih =>
    cases n with
    | zero => simp
    | succ k =>
      simp only [List.length_cons] at h
      simp only [List.set_cons_succ, List.take_succ_cons, List.cons_append]
      rw [ih k (by omega)]

theorem take_set_of_le {α : Type} (l : List α) (n m : Nat) (a : α) (h : m ≤ n) :
    (l.set n a).take m = l.take m := by
  induction l generalizing n m with
  | nil => simp
  | cons x t ih =>
    cases m with
    | zero => simp
    | succ k =>
      cases n with
      | zero => omega
      | succ j =>
        simp only [List.set_cons_succ, List.take_succ_cons]
        rw [ih j k (by omega)]

theorem position_ne_of (p q : Position) (h : p.x ≠ q.x ∨ p.y ≠ q.y) : p ≠ q := by
  intro heq
  subst heq
  cases h with
  | inl h => exact h rfl
  | inr h => exact h rfl

/-- The hazard that `placeAsteroid` sets up stands on the border of the world, off the
centre, and the cell behind it is outside the world. -/
theorem placeAsteroid_strong (g : Game) (draws : List Nat) (g' : Game) (rest : List Nat)
    (h : placeAsteroid g draws = some (g', rest))
    (hW : 3 ≤ g.worldWidth) (hH : 3 ≤ g.worldHeight) :
    ∃ a : Asteroid, g' = { g with asteroid := a } ∧ inWorld g a.position ∧
      ¬ inWorld g { x := a.position.x - a.direction.x, y := a.position.y - a.direction.y } ∧
      (a.position.x ≠ g.worldWidth / 2 ∨ a.position.y ≠ g.worldHeight / 2) := by
  unfold placeAsteroid at h
  split at h
  · rename_i r0 r1 r2 rest0
    simp only [Option.some.injEq, Prod.mk.injEq] at h
    refine ⟨_, h.1.symm, ?_⟩
    have a1 := Int.emod_nonneg (r1 : Int) (show g.worldWidth ≠ 0 by omega)
    have a2 := Int.emod_lt_of_pos (r1 : Int) (show 0 < g.worldWidth by omega)
    have b1 := Int.emod_nonneg (r1 : Int) (show g.worldHeight ≠ 0 by omega)
    have b2 := Int.emod_lt_of_pos (r1 : Int) (show 0 < g.worldHeight by omega)
    unfold inWorld
    dsimp only
    split_ifs <;> (try dsimp only at *) <;> omega
  · cases h

theorem any_position_false {α : Type} (l : List α) (pos : α → Position) (x y : Int)
    (h : (l.any (fun c => (pos c).x == x && (pos c).y == y)) = false) :
    ∀ c ∈ l, pos c ≠ { x := x, y := y } := by
  intro c hc heq
  rw [List.any_eq_false] at h
  have := h c hc
  rw [heq] at this
  simp at this

theorem placeImpassableCell_strong_aux (g : Game) (i : Nat) (n : Nat) :
    ∀ (draws : List Nat), draws.length ≤ n → ∀ (g' : Game) (rest : List Nat),
    placeImpassableCell g i draws = some (g', rest) →
    ∃ cell : ImpassableCell,
      g' = { g with impassableCells := g.impassableCells.set i cell } ∧
      (0 < g.worldWidth → 0 < g.worldHeight → inWorld g cell.position) ∧
      cell.position ≠ g.ship.position ∧ cell.position ≠ g.asteroid.position ∧
      ∀ c ∈ g.impassableCells.take i, c.position ≠ cell.position := by
  induction n with
  | zero =>
    intro draws hl g' rest h
    cases draws with
    | nil => simp [placeImpassableCell] at h
    | cons a t => simp at hl
  | succ n ih =>
    intro draws hl g' rest h
    match draws, hl, h with
    | [], _, h => simp [placeImpassableCell] at h
    | [_], _, h => simp [placeImpassableCell] at h
    | rx :: ry :: rest0, hl, h =>
      have hl0 : rest0.length ≤ n := by
        simp only [List.length_cons] at hl
        omega
      unfold placeImpassableCell at h
      simp only at h
      split at h
      · rename_i hcond
        split at h
        · rename_i hov
          simp only [Option.some.injEq, Prod.mk.injEq] at h
          refine ⟨_, h.1.symm, ?_, ?_, ?_, ?_⟩
          · intro hW hH
            exact ⟨Int.emod_nonneg _ (by omega), Int.emod_lt_of_pos _ hW,
              Int.emod_nonneg _ (by omega), Int.emod_lt_of_pos _ hH⟩
          · exact position_ne_of _ _ hcond.1
          · exact position_ne_of _ _ hcond.2
          · exact any_position_false _ (fun c : ImpassableCell => c.position) _ _
              (by simpa using hov)
        · exact ih rest0 hl0 g' rest h
      · exact ih rest0 hl0 g' rest h

theorem placeJunkItem_strong_aux (g : Game) (i : Nat) (n : Nat) :
    ∀ (draws : List Nat), draws.length ≤ n → ∀ (g' : Game) (rest : List Nat),
    placeJunkItem g i draws = some (g', rest) →
    ∃ item : SpaceJunk,
      g' = { g with junkItems := g.junkItems.set i item } ∧
      (0 < g.worldWidth → 0 < g.worldHeight → inWorld g item.position) ∧
      item.position ≠ g.ship.position ∧ item.position ≠ g.asteroid.position ∧
      (∀ c ∈ g.impassableCells.take IMPASSABLE_CELLS, c.position ≠ item.position) ∧
      ∀ j ∈ g.junkItems.take i, j.position ≠ item.position := by
  induction n with
  | zero =>
    intro draws hl g' rest h
    cases draws with
    | nil => simp [placeJunkItem] at h
    | cons a t => simp at hl
  | succ n ih =>
    intro draws hl g' rest h
    match draws, hl, h with
    | [], _, h => simp [placeJunkItem] at h
    | [_], _, h => simp [placeJunkItem] at h
    | rx :: ry :: rest0, hl, h =>
      have hl0 : rest0.length ≤ n := by
        simp only [List.length_cons] at hl
        omega
      unfold placeJunkItem at h
      simp only at h
      split at h
      · rename_i hcond
        split at h
        · rename_i hov
          split at h
          · rename_i hov2
            split at h
            · simp only [Option.some.injEq, Prod.mk.injEq] at h
              refine ⟨_, h.1.symm, ?_, ?_, ?_, ?_, ?_⟩
              · intro hW hH
                exact ⟨Int.emod_nonneg _ (by omega), Int.emod_lt_of_pos _ hW,
                  Int.emod_nonneg _ (by omega), Int.emod_lt_of_pos _ hH⟩
              · exact position_ne_of _ _ hcond.1
              · exact position_ne_of _ _ hcond.2
              · exact any_position_false _ (fun c : ImpassableCell => c.position) _ _
                  (by simpa using hov)
              · exact any_position_false _ (fun j : SpaceJunk => j.position) _ _
                  (by simpa using hov2)
            · cases h
          · exact ih rest0 hl0 g' rest h
        · exact ih rest0 hl0 g' rest h
      · exact ih rest0 hl0 g' rest h

theorem nodup_snoc_positions {α : Type} (pos : α → Position) (l : List α) (a : α)
    (hl : (l.map pos).Nodup) (ha : ∀ c ∈ l, pos c ≠ pos a) :
    ((l ++ [a]).map pos).Nodup := by
  rw [List.map_append, List.nodup_append]
  refine ⟨hl, List.nodup_singleton _, ?_⟩
  intro p hp hq
  rw [List.mem_map] at hp
  obtain ⟨c, hc, rfl⟩ := hp
  rw [List.map_singleton, List.mem_singleton] at hq
  exact ha c hc hq

/-- The cells that a completed `placeImpassableCells n` wrote: `n` cells in the world, off
the ship and the hazard, no two on the same position. -/
theorem placeImpassableCells_strong (n : Nat) (g : Game) (draws : List Nat)
    (hW : 0 < g.worldWidth) (hH : 0 < g.worldHeight) (hn : n ≤ g.impassableCells.length) :
    ∀ (g' : Game) (rest : List Nat), placeImpassableCells n g draws = some (g', rest) →
    ∃ cells : List ImpassableCell, g' = { g with impassableCells := cells } ∧
      cells.length = g.impassableCells.length ∧
      (∀ c ∈ cells.take n, inWorld g c.position ∧ c.position ≠ g.ship.position ∧
        c.position ≠ g.asteroid.position) ∧
      ((cells.take n).map (fun c => c.position)).Nodup := by
  induction n with
  | zero =>
    intro g' rest h
    unfold placeImpassableCells at h
    simp only [Option.some.injEq, Prod.mk.injEq] at h
    refine ⟨g.impassableCells, h.1.symm, rfl, ?_, ?_⟩
    · intro c hc
      simp at hc
    · simp
  | succ n ih =>
    intro g' rest h
    unfold placeImpassableCells at h
    cases hprev : placeImpassableCells n g draws with
    | none =>
      rw [hprev] at h
      cases h
    | some r =>
      obtain ⟨g1, r1⟩ := r
      rw [hprev] at h
      obtain ⟨cells, hg1, hlen, hin, hnd⟩ := ih (by omega) g1 r1 hprev
      obtain ⟨cell, hg', hcw, hcs, hca, hcc⟩ :=
        placeImpassableCell_strong_aux g1 n r1.length r1 (le_refl _) g' rest h
      subst hg1
      have hlt : n < cells.length := by omega
      have htake : (cells.set n cell).take (n + 1) = cells.take n ++ [cell] :=
        take_succ_set cells n cell hlt
      refine ⟨cells.set n cell, hg', ?_, ?_, ?_⟩
      · rw [List.length_set, hlen]
      · intro c hc
        rw [htake, List.mem_append, List.mem_singleton] at hc
        cases hc with
        | inl hc => exact hin c hc
        | inr hc =>
          subst hc
          exact ⟨hcw hW hH, hcs, hca⟩
      · rw [htake]
        exact nodup_snoc_positions _ _ _ hnd hcc

/-- The items that a completed `placeJunkItems n` wrote: `n` items in the world, off the
ship, the hazard and the impassable cells, no two on the same position. -/
theorem placeJunkItems_strong (n : Nat) (g : Game) (draws : List Nat)
    (hW : 0 < g.worldWidth) (hH : 0 < g.worldHeight) (hn : n ≤ g.junkItems.length) :
    ∀ (g' : Game) (rest : List Nat), placeJunkItems n g draws = some (g', rest) →
    ∃ l : List SpaceJunk, g' = { g with junkItems := l } ∧
      l.length = g.junkItems.length ∧
      (∀ j ∈ l.take n, inWorld g j.position ∧ j.position ≠ g.ship.position ∧
        j.position ≠ g.asteroid.position ∧
        ∀ c ∈ g.impassableCells.take IMPASSABLE_CELLS, c.position ≠ j.position) ∧
      ((l.take n).map (fun j => j.position)).Nodup := by
  induction n with
  | zero =>
    intro g' rest h
    unfold placeJunkItems at h
    simp only [Option.some.injEq, Prod.mk.injEq] at h
    refine ⟨g.junkItems, h.1.symm, rfl, ?_, ?_⟩
    · intro c hc
      simp at hc
    · simp
  | succ n ih =>
    intro g' rest h
    unfold placeJunkItems at h
    cases hprev : placeJunkItems n g draws with
    | none =>
      rw [hprev] at h
      cases h
    | some r =>
      obtain ⟨g1, r1⟩ := r
      rw [hprev] at h
      obtain ⟨l, hg1, hlen, hin, hnd⟩ := ih (by omega) g1 r1 hprev
      obtain ⟨item, hg', hcw, hcs, hca, hcc, hcj⟩ :=
        placeJunkItem_strong_aux g1 n r1.length r1 (le_refl _) g' rest h
      subst hg1
      have hlt : n < l.length := by omega
      have htake : (l.set n item).take (n + 1) = l.take n ++ [item] :=
        take_succ_set l n item hlt
      refine ⟨l.set n item, hg', ?_, ?_, ?_⟩
      · rw [List.length_set, hlen]
      · intro c hc
        rw [htake, List.mem_append, List.mem_singleton] at hc
        cases hc with
        | inl hc => exact hin c hc
        | inr hc =>
          subst hc
          exact ⟨hcw hW hH, hcs, hca, hcc⟩
      · rw [htake]
        exact nodup_snoc_positions _ _ _ hnd hcj

theorem loadConfig_arrays (g : Game) (file : Option (Option Int × Option Int)) :
    (loadConfig g file).junkItems = g.junkItems ∧
    (loadConfig g file).impassableCells = g.impassableCells := by
  cases file with
  | none => exact ⟨rfl, rfl⟩
  | some p =>
    obtain ⟨w, v⟩ := p
    cases w <;> cases v <;> unfold loadConfig <;> simp only <;> split_ifs <;>
      exact ⟨rfl, rfl⟩

theorem initBase_layout (g0 : Game) (name : String) (d : Difficulty)
    (file : Option (Option Int × Option Int)) (hws : WellSized g0) :
    18 ≤ (initBase g0 name d file).worldWidth ∧
    18 ≤ (initBase g0 name d file).worldHeight ∧
    (initBase g0 name d file).ship.position
      = { x := (initBase g0 name d file).worldWidth / 2,
          y := (initBase g0 name d file).worldHeight / 2 } ∧
    (initBase g0 name d file).impassableCells.length = IMPASSABLE_CELLS ∧
    (initBase g0 name d file).junkItems.length = MAX_JUNK_ITEMS := by
  have hmin := loadConfig_min { g0 with playerName := name, difficulty := d } file
  have harr := loadConfig_arrays { g0 with playerName := name, difficulty := d } file
  refine ⟨hmin.1, hmin.2, rfl, ?_, ?_⟩
  · show (loadConfig { g0 with playerName := name, difficulty := d } file).impassableCells.length
      = IMPASSABLE_CELLS
    rw [harr.2]
    exact hws.2
  · show (loadConfig { g0 with playerName := name, difficulty := d } file).junkItems.length
      = MAX_JUNK_ITEMS
    rw [harr.1]
    exact hws.1

theorem JUNK_COUNTS_le (d : Difficulty) : (JUNK_COUNTS d).toNat ≤ MAX_JUNK_ITEMS := by
  cases d <;> decide

/-- The layout of a session that `initGame` returns. -/
theorem initGame_layout (g0 : Game) (name : String) (d : Difficulty)
    (file : Option (Option Int × Option Int)) (draws : List Nat) (g : Game)
    (hws : WellSized g0) (h : initGame g0 name d file draws = some g) :
    18 ≤ g.worldWidth ∧ 18 ≤ g.worldHeight ∧
    g.ship.position = { x := g.worldWidth / 2, y := g.worldHeight / 2 } ∧
    inWorld g g.asteroid.position ∧ ¬ inWorld g (cameFrom g) ∧
    g.asteroid.position ≠ g.ship.position ∧
    g.impassableCells.length = IMPASSABLE_CELLS ∧
    (∀ c ∈ g.impassableCells.take IMPASSABLE_CELLS, inWorld g c.position ∧
      c.position ≠ g.ship.position ∧ c.position ≠ g.asteroid.position) ∧
    ((g.impassableCells.take IMPASSABLE_CELLS).map (fun c => c.position)).Nodup ∧
    g.junkItems.length = MAX_JUNK_ITEMS ∧ g.junkCount = JUNK_COUNTS g.difficulty ∧
    (∀ j ∈ items g, inWorld g j.position ∧ j.position ≠ g.ship.position ∧
      j.position ≠ g.asteroid.position ∧
      ∀ c ∈ g.impassableCells.take IMPASSABLE_CELLS, c.position ≠ j.position) ∧
    ((items g).map (fun j => j.position)).Nodup := by
  obtain ⟨hW, hH, hship, hlenC, hlenJ⟩ := initBase_layout g0 name d file hws
  have h0 : (match placeAsteroid (initBase g0 name d file) draws with
      | none => none
      | some (g4, d4) =>
        match placeImpassableCells IMPASSABLE_CELLS g4 d4 with
        | none => none
        | some (g5, d5) =>
          match placeJunkItems (JUNK_COUNTS g5.difficulty).toNat
              { g5 with junkCount := JUNK_COUNTS g5.difficulty } d5 with
          | none => none
          | some (g7, _) => some { g7 with score := 0, isGameOver := 0, hasWon := 0 }) = some g := h
  clear h
  generalize initBase g0 name d file = B at *
  split at h0
  · cases h0
  · rename_i g4 d4 h4
    split at h0
    · cases h0
    · rename_i g5 d5 h5
      split at h0
      · cases h0
      · rename_i g7 rest7 h7
        simp only [Option.some.injEq] at h0
        obtain ⟨a, hg4, ha1, ha2, ha3⟩ :=
          placeAsteroid_strong B draws g4 d4 h4 (by omega) (by omega)
        subst hg4
        obtain ⟨cells, hg5, hclen, hcin, hcnd⟩ :=
          placeImpassableCells_strong IMPASSABLE_CELLS { B with asteroid := a } d4
            (by show 0 < B.worldWidth; omega) (by show 0 < B.worldHeight; omega)
            (by show IMPASSABLE_CELLS ≤ B.impassableCells.length; omega) g5 d5 h5
        subst hg5
        obtain ⟨l, hg7, hllen, hlin, hlnd⟩ :=
          placeJunkItems_strong (JUNK_COUNTS B.difficulty).toNat _ d5
            (by show 0 < B.worldWidth; omega) (by show 0 < B.worldHeight; omega)
            (by
              show (JUNK_COUNTS B.difficulty).toNat ≤ B.junkItems.length
              rw [hlenJ]
              exact JUNK_COUNTS_le _) g7 rest7 h7
        subst hg7
        subst h0
        refine ⟨hW, hH, hship, ha1, ha2, ?_, hclen.trans hlenC, hcin, hcnd,
          hllen.trans hlenJ, rfl, hlin, hlnd⟩
        rw [hship]
        exact position_ne_of _ _ ha3

theorem created_layout (g : Game) (hc : Created g) :
    18 ≤ g.worldWidth ∧ 18 ≤ g.worldHeight ∧
    g.ship.position = { x := g.worldWidth / 2, y := g.worldHeight / 2 } ∧
    inWorld g g.asteroid.position ∧ ¬ inWorld g (cameFrom g) ∧
    g.asteroid.position ≠ g.ship.position ∧
    g.impassableCells.length = IMPASSABLE_CELLS ∧
    (∀ c ∈ g.impassableCells.take IMPASSABLE_CELLS, inWorld g c.position ∧
      c.position ≠ g.ship.position ∧ c.position ≠ g.asteroid.position) ∧
    ((g.impassableCells.take IMPASSABLE_CELLS).map (fun c => c.position)).Nodup ∧
    g.junkItems.length = MAX_JUNK_ITEMS ∧ g.junkCount = JUNK_COUNTS g.difficulty ∧
    (∀ j ∈ items g, inWorld g j.position ∧ j.position ≠ g.ship.position ∧
      j.position ≠ g.asteroid.position ∧
      ∀ c ∈ g.impassableCells.take IMPASSABLE_CELLS, c.position ≠ j.position) ∧
    ((items g).map (fun j => j.position)).Nodup := by
  obtain ⟨g0, name, d, file, draws, hws, hinit⟩ := hc
  exact initGame_layout g0 name d file draws g hws hinit

theorem created_items_length (g : Game) (hc : Created g) :
    (items g).length = (JUNK_COUNTS g.difficulty).toNat := by
  obtain ⟨_, _, _, _, _, _, _, _, _, hlen, hcount, _, _⟩ := created_layout g hc
  rw [items_length, hlen, hcount]
  exact Nat.min_eq_left (JUNK_COUNTS_le _)

/-- C23: in a session that `initGame` returns, the world is at least 18 x 18, the ship
stands on `(worldWidth / 2, worldHeight / 2)`, there are 3 impassable cells and
`JUNK_COUNTS[difficulty]` items, and the positions of the ship, the hazard, the 3
impassable cells and all the items are inside the world and pairwise distinct. -/
theorem C23_initial_positions_distinct_and_in_bounds (g : Game) (hc : Created g) :
    18 ≤ g.worldWidth ∧ 18 ≤ g.worldHeight ∧
    g.ship.position = { x := g.worldWidth / 2, y := g.worldHeight / 2 } ∧
    (g.impassableCells.take IMPASSABLE_CELLS).length = 3 ∧
    (items g).length = (JUNK_COUNTS g.difficulty).toNat ∧
    (occupied g).length = 2 + 3 + (JUNK_COUNTS g.difficulty).toNat ∧
    (∀ p ∈ occupied g, inWorld g p) ∧
    (occupied g).Nodup := by
  have hitems := created_items_length g hc
  obtain ⟨hW, hH, hship, ha1, _, ha3, hclen, hcin, hcnd, _, _, hjin, hjnd⟩ :=
    created_layout g hc
  have hc3 : (g.impassableCells.take IMPASSABLE_CELLS).length = 3 := by
    rw [List.length_take, hclen]
    rfl
  have hsw : inWorld g g.ship.position := by
    rw [hship]
    unfold inWorld
    dsimp only
    omega
  refine ⟨hW, hH, hship, hc3, hitems, ?_, ?_, ?_⟩
  · unfold occupied
    rw [List.length_cons, List.length_cons, List.length_append, List.length_map,
      List.length_map, hc3, hitems]
    omega
  · intro p hp
    unfold occupied at hp
    rw [List.mem_cons, List.mem_cons, List.mem_append, List.mem_map, List.mem_map] at hp
    rcases hp with rfl | rfl | ⟨c, hc, rfl⟩ | ⟨j, hj, rfl⟩
    · exact hsw
    · exact ha1
    · exact (hcin c hc).1
    · exact (hjin j hj).1
  · unfold occupied
    rw [List.nodup_cons, List.nodup_cons, List.nodup_append]
    refine ⟨?_, ?_, hcnd, hjnd, ?_⟩
    · intro hmem
      rw [List.mem_cons, List.mem_append, List.mem_map, List.mem_map] at hmem
      rcases hmem with h | ⟨c, hc, h⟩ | ⟨j, hj, h⟩
      · exact ha3 h.symm
      · exact (hcin c hc).2.1 h
      · exact (hjin j hj).2.1 h
    · intro hmem
      rw [List.mem_append, List.mem_map, List.mem_map] at hmem
      rcases hmem with ⟨c, hc, h⟩ | ⟨j, hj, h⟩
      · exact (hcin c hc).2.2 h
      · exact (hjin j hj).2.2.1 h
    · intro p hp hq
      rw [List.mem_map] at hp hq
      obtain ⟨c, hc, rfl⟩ := hp
      obtain ⟨j, hj, h⟩ := hq
      exact (hjin j hj).2.2.2 c hc h.symm

theorem C23_initial_positions_distinct_and_in_bounds_witness :
    Created demoGame ∧
    (18 ≤ demoGame.worldWidth ∧ 18 ≤ demoGame.worldHeight ∧
     demoGame.ship.position = { x := demoGame.worldWidth / 2, y := demoGame.worldHeight / 2 } ∧
     (demoGame.impassableCells.take IMPASSABLE_CELLS).length = 3 ∧
     (items demoGame).length = (JUNK_COUNTS demoGame.difficulty).toNat ∧
     (occupied demoGame).length = 2 + 3 + (JUNK_COUNTS demoGame.difficulty).toNat ∧
     (∀ p ∈ occupied demoGame, inWorld demoGame p) ∧
     (occupied demoGame).Nodup) :=
  ⟨demoGame_created, C23_initial_positions_distinct_and_in_bounds demoGame demoGame_created⟩

/-! ## Claim C24: the value of an item -/

theorem markPicked_type (p : Position) (j : SpaceJunk) : (markPicked p j).type = j.type := by
  unfold markPicked
  split <;> rfl

/-- A driver request keeps "each item's value is the value of its kind". -/
theorem itemsStep_values (g g' : Game) (hs : ItemsStep g g')
    (hi : ∀ j ∈ items g, j.value = junkValue j.type) :
    ∀ j ∈ items g', j.value = junkValue j.type := by
  obtain ⟨hc, hs⟩ := hs
  cases hs with
  | inl h =>
    have : items g' = items g := by
      unfold items
      rw [hc, h.1]
    rw [this]
    exact hi
  | inr h =>
    obtain ⟨p, hj, _⟩ := h
    have : items g' = (items g).map (markPicked p) := by
      unfold items
      rw [hc, hj]
      exact take_marked _ _ _
    rw [this]
    intro j hj
    rw [List.mem_map] at hj
    obtain ⟨j0, hj0, rfl⟩ := hj
    rw [markPicked_value, markPicked_type]
    exact hi j0 hj0

theorem run_values (g : Game) (acts : List Action)
    (hi : ∀ j ∈ items g, j.value = junkValue j.type) :
    ∀ j ∈ items (run g acts), j.value = junkValue j.type := by
  induction acts using List.reverseRecOn with
  | nil => exact hi
  | append_singleton l a ih =>
    rw [run_append]
    exact itemsStep_values _ _ (step_itemsStep _ a) ih

theorem run_junkCount (g : Game) (acts : List Action) :
    (run g acts).junkCount = g.junkCount := by
  induction acts using List.reverseRecOn with
  | nil => rfl
  | append_singleton l a ih =>
    rw [run_append, (step_itemsStep _ a).1, ih]

theorem run_junkItems_length (g : Game) (acts : List Action) :
    (run g acts).junkItems.length = g.junkItems.length := by
  induction acts using List.reverseRecOn with
  | nil => rfl
  | append_singleton l a ih =>
    rw [run_append, itemsStep_length _ _ (step_itemsStep _ a), ih]

theorem run_items_length (g : Game) (acts : List Action) :
    (items (run g acts)).length = (items g).length := by
  rw [items_length, items_length, run_junkCount, run_junkItems_length]

/-- C24: every item of a session that `initGame` returns is uncollected, and in every
state reached from it by moves and inventory uses each of the `JUNK_COUNTS[difficulty]`
items has the value of its kind: METAL 10, PLASTIC 5, ELECTRONICS 15, FUEL_CELL 20. -/
theorem C24_item_value_follows_kind (g : Game) (hc : Created g) (acts : List Action) :
    (items g).length = (JUNK_COUNTS g.difficulty).toNat ∧
    (∀ j ∈ items g, j.collected = 0 ∧ j.value = junkValue j.type) ∧
    (items (run g acts)).length = (JUNK_COUNTS g.difficulty).toNat ∧
    (∀ j ∈ items (run g acts), j.value = junkValue j.type) ∧
    junkValue .METAL = 10 ∧ junkValue .PLASTIC = 5 ∧
    junkValue .ELECTRONICS = 15 ∧ junkValue .FUEL_CELL = 20 := by
  have hlen := created_items_length g hc
  obtain ⟨g0, name, d, file, draws, _, hinit⟩ := hc
  obtain ⟨_, _, _, hitems⟩ := initGame_items g0 name d file draws g hinit
  refine ⟨hlen, hitems, ?_, ?_, rfl, rfl, rfl, rfl⟩
  · rw [run_items_length, hlen]
  · exact run_values g acts (fun j hj => (hitems j hj).2)

theorem C24_item_value_follows_kind_witness :
    Created demoGame ∧
    ((items demoGame).length = (JUNK_COUNTS demoGame.difficulty).toNat ∧
     (∀ j ∈ items demoGame, j.collected = 0 ∧ j.value = junkValue j.type) ∧
     (items (run demoGame [.move 0 1, .use 1])).length
        = (JUNK_COUNTS demoGame.difficulty).toNat ∧
     (∀ j ∈ items (run demoGame [.move 0 1, .use 1]), j.value = junkValue j.type) ∧
     junkValue .METAL = 10 ∧ junkValue .PLASTIC = 5 ∧
     junkValue .ELECTRONICS = 15 ∧ junkValue .FUEL_CELL = 20) :=
  ⟨demoGame_created, C24_item_value_follows_kind demoGame demoGame_created [.move 0 1, .use 1]⟩

/-! ## Claim C30: the score that a session can reach -/

theorem junkValue_le (t : JunkType) : junkValue t ≤ 20 := by
  cases t <;> decide

theorem collectedValue_le (l : List SpaceJunk) (h : ∀ j ∈ l, j.value ≤ 20) :
    collectedValue l ≤ 20 * (l.length : Int) := by
  induction l with
  | nil => exact le_refl 0
  | cons j t ih =>
    rw [collectedValue_cons, List.length_cons]
    have hj := h j (List.mem_cons_self j t)
    have ht := ih (fun x hx => h x (List.mem_cons_of_mem j hx))
    push_cast
    split <;> omega

theorem checkCollisions_hasWon (g : Game) :
    (checkCollisions g).hasWon = g.hasWon ∨
    (checkCollisions g).score ≥ WIN_SCORES (checkCollisions g).difficulty := by
  unfold checkCollisions
  simp only
  split
  · rename_i hge
    exact Or.inr hge
  · exact Or.inl (checkCollisionsLoop_preserves (fun s => s.hasWon) (fun _ _ => rfl)
      (fun _ _ => rfl) (fun _ _ _ _ _ => rfl) g)

theorem moveAsteroid_hasWon (g : Game) :
    (moveAsteroid g).hasWon = g.hasWon ∨ (moveAsteroid g).hasWon = 0 := by
  unfold moveAsteroid
  cases hh : hazardHits (ASTEROID_SPEEDS g.difficulty).toNat g with
  | true => exact Or.inr ((moveAsteroidLoop_flags _ g).1 hh).2.1
  | false => exact Or.inl ((moveAsteroidLoop_flags _ g).2 hh).2

/-- A driver request leaves `hasWon` as it was or sets it to 0, unless the score after it
is at or above the threshold. -/
theorem step_hasWon (g : Game) (a : Action) :
    (step g a).hasWon = g.hasWon ∨ (step g a).hasWon = 0 ∨
    (step g a).score ≥ WIN_SCORES (step g a).difficulty := by
  cases a with
  | use option => exact Or.inl (useJunk_statics g option).2.2.2.2.1
  | move dx dy =>
    show (moveSpaceship g dx dy).hasWon = g.hasWon ∨ (moveSpaceship g dx dy).hasWon = 0 ∨
      (moveSpaceship g dx dy).score ≥ WIN_SCORES (moveSpaceship g dx dy).difficulty
    by_cases hacc : Accepted g dx dy
    · rw [moveSpaceship_accepted g dx dy hacc]
      split
      · exact Or.inr (Or.inl rfl)
      · cases checkCollisions_hasWon (moveAsteroid (commitMove g dx dy)) with
        | inr h => exact Or.inr (Or.inr h)
        | inl h =>
          rw [h]
          cases moveAsteroid_hasWon (commitMove g dx dy) with
          | inl h2 => exact Or.inl h2
          | inr h2 => exact Or.inr (Or.inl h2)
    · rw [moveSpaceship_rejected g dx dy hacc]
      exact Or.inl rfl

theorem run_difficulty (g : Game) (acts : List Action) :
    (run g acts).difficulty = g.difficulty := by
  induction acts using List.reverseRecOn with
  | nil => rfl
  | append_singleton l a ih =>
    rw [run_append]
    cases a with
    | use option => exact (useJunk_statics _ option).2.2.2.2.2.1.trans ih
    | move dx dy => exact (moveSpaceship_difficulty _ dx dy).trans ih

theorem run_hasWon (g : Game) (acts : List Action) (h0 : g.hasWon = 0)
    (hb : ∀ l : List Action, (run g l).score < WIN_SCORES (run g l).difficulty) :
    (run g acts).hasWon = 0 := by
  induction acts using List.reverseRecOn with
  | nil => exact h0
  | append_singleton l a ih =>
    have hlt := hb (l ++ [a])
    rw [run_append] at hlt ⊢
    rcases step_hasWon (run g l) a with h | h | h
    · rw [h, ih]
    · exact h
    · omega

theorem created_score_le (g : Game) (hc : Created g) (acts : List Action) :
    (run g acts).score ≤ 20 * (run g acts).junkCount ∧
    (run g acts).junkCount = JUNK_COUNTS g.difficulty := by
  have hinv := run_scoreInv g acts (created_scoreInv g hc)
  have hlen := created_items_length g hc
  have hcount : g.junkCount = JUNK_COUNTS g.difficulty := by
    obtain ⟨_, _, _, _, _, _, _, _, _, _, hcount, _, _⟩ := created_layout g hc
    exact hcount
  obtain ⟨g0, name, d, file, draws, _, hinit⟩ := hc
  obtain ⟨_, _, _, hitems⟩ := initGame_items g0 name d file draws g hinit
  have hval := run_values g acts (fun j hj => (hitems j hj).2)
  have hle := collectedValue_le (items (run g acts)) (fun j hj => by
    rw [hval j hj]
    exact junkValue_le _)
  rw [run_items_length, hlen] at hle
  rw [run_junkCount, hcount, hinv.1]
  have hnn : ((JUNK_COUNTS g.difficulty).toNat : Int) = JUNK_COUNTS g.difficulty := by
    cases g.difficulty <;> decide
  rw [hnn] at hle
  exact ⟨hle, rfl⟩

/-- C30: in every state reached from a session that `initGame` returns, by moves and
inventory uses, `score <= 20 * junkCount`, and `junkCount` is `JUNK_COUNTS[difficulty]`;
this bound is 600 < 750 on Medium and 400 < 1000 on Hard (800 against 500 on Easy), so on
Medium and on Hard `hasWon` stays 0. -/
theorem C30_threshold_out_of_reach (g : Game) (hc : Created g) (acts : List Action) :
    (run g acts).score ≤ 20 * (run g acts).junkCount ∧
    (run g acts).junkCount = JUNK_COUNTS g.difficulty ∧
    (g.difficulty = .MEDIUM → (run g acts).score ≤ 600 ∧ (run g acts).hasWon = 0) ∧
    (g.difficulty = .HARD → (run g acts).score ≤ 400 ∧ (run g acts).hasWon = 0) ∧
    20 * JUNK_COUNTS .MEDIUM = 600 ∧ WIN_SCORES .MEDIUM = 750 ∧
    20 * JUNK_COUNTS .HARD = 400 ∧ WIN_SCORES .HARD = 1000 ∧
    20 * JUNK_COUNTS .EASY = 800 ∧ WIN_SCORES .EASY = 500 := by
  have hb := created_score_le g hc
  have h0 : g.hasWon = 0 := by
    obtain ⟨g0, name, d, file, draws, _, hinit⟩ := hc
    exact (initGame_items g0 name d file draws g hinit).2.2.1
  refine ⟨(hb acts).1, (hb acts).2, ?_, ?_, rfl, rfl, rfl, rfl, rfl, rfl⟩
  · intro hd
    have hs : ∀ l : List Action, (run g l).score ≤ 600 := by
      intro l
      have := hb l
      rw [this.2, hd] at this
      exact this.1
    refine ⟨hs acts, run_hasWon g acts h0 ?_⟩
    intro l
    rw [run_difficulty, hd]
    exact lt_of_le_of_lt (hs l) (by decide)
  · intro hd
    have hs : ∀ l : List Action, (run g l).score ≤ 400 := by
      intro l
      have := hb l
      rw [this.2, hd] at this
      exact this.1
    refine ⟨hs acts, run_hasWon g acts h0 ?_⟩
    intro l
    rw [run_difficulty, hd]
    exact lt_of_le_of_lt (hs l) (by decide)

theorem C30_threshold_out_of_reach_witness :
    Created hardGame ∧ hardGame.difficulty = .HARD ∧
    (run hardGame hardLeg).score ≤ 400 ∧ (run hardGame hardLeg).hasWon = 0 :=
  ⟨hardGame_created, rfl,
   (C30_threshold_out_of_reach hardGame hardGame_created hardLeg).2.2.2.1 rfl⟩

/-! ## Claim C28: the hazard and the impassable cells -/

theorem position_eta (p : Position) (x y : Int) (hx : x = p.x) (hy : y = p.y) :
    ({ x := x, y := y } : Position) = p := by
  subst hx
  subst hy
  rfl

/-- One sub-step keeps the hazard invariant. -/
theorem moveAsteroidStep_hazardClear (g : Game) (h : HazardClear g) :
    HazardClear (moveAsteroidStep g) := by
  obtain ⟨hcells, hpos, hfrom⟩ := h
  have hout : ∀ q : Position, ¬ inWorld g q → ¬ onImpassable g q := by
    intro q hq hon
    obtain ⟨c, hc, hcq⟩ := hon
    apply hq
    rw [← hcq]
    exact hcells c hc
  show (∀ c ∈ g.impassableCells.take IMPASSABLE_CELLS, inWorld g c.position) ∧
    ¬ onImpassable g (stepAsteroid g).position ∧
    ¬ onImpassable g { x := (stepAsteroid g).position.x - (stepAsteroid g).direction.x,
                       y := (stepAsteroid g).position.y - (stepAsteroid g).direction.y }
  refine ⟨hcells, ?_⟩
  rw [stepAsteroid_eq]
  by_cases hb : hitsImpassable g.impassableCells (wallCandidate g).x (wallCandidate g).y = true
  · rw [if_pos hb]
    dsimp only
    have hon := (hitsImpassable_iff g _ _).1 hb
    have hnz : ¬ ((wallDirection g).x * -1 = 0 ∧ (wallDirection g).y * -1 = 0) := by
      intro hz
      apply hpos
      have heq : ({ x := (wallCandidate g).x, y := (wallCandidate g).y } : Position)
          = g.asteroid.position := by
        apply position_eta
        · show g.asteroid.position.x + (wallDirection g).x = g.asteroid.position.x
          omega
        · show g.asteroid.position.y + (wallDirection g).y = g.asteroid.position.y
          omega
      rw [← heq]
      exact hon
    rw [if_neg hnz]
    constructor
    · by_cases hx : g.asteroid.position.x + g.asteroid.direction.x < 0 ∨
          g.asteroid.position.x + g.asteroid.direction.x ≥ g.worldWidth
      · apply hout
        have hwx : (wallDirection g).x = g.asteroid.direction.x * -1 := by
          unfold wallDirection
          dsimp only
          rw [if_pos hx]
        unfold inWorld
        dsimp only
        rw [hwx]
        omega
      · by_cases hy : g.asteroid.position.y + g.asteroid.direction.y < 0 ∨
            g.asteroid.position.y + g.asteroid.direction.y ≥ g.worldHeight
        · apply hout
          have hwy : (wallDirection g).y = g.asteroid.direction.y * -1 := by
            unfold wallDirection
            dsimp only
            rw [if_pos hy]
          unfold inWorld
          dsimp only
          rw [hwy]
          omega
        · have hwx : (wallDirection g).x = g.asteroid.direction.x := by
            unfold wallDirection
            dsimp only
            rw [if_neg hx]
          have hwy : (wallDirection g).y = g.asteroid.direction.y := by
            unfold wallDirection
            dsimp only
            rw [if_neg hy]
          have heq : ({ x := g.asteroid.position.x + (wallDirection g).x * -1,
                        y := g.asteroid.position.y + (wallDirection g).y * -1 } : Position)
              = cameFrom g := by
            unfold cameFrom
            rw [hwx, hwy]
            congr 1 <;> omega
          rw [heq]
          exact hfrom
    · have heq : ({ x := g.asteroid.position.x + (wallDirection g).x * -1
                        - (wallDirection g).x * -1,
                    y := g.asteroid.position.y + (wallDirection g).y * -1
                        - (wallDirection g).y * -1 } : Position)
          = g.asteroid.position := by
        apply position_eta <;> omega
      rw [heq]
      exact hpos
  · rw [if_neg hb]
    dsimp only
    constructor
    · intro hon
      apply hb
      exact (hitsImpassable_iff g _ _).2 hon
    · have heq : ({ x := (wallCandidate g).x - (wallDirection g).x,
                    y := (wallCandidate g).y - (wallDirection g).y } : Position)
          = g.asteroid.position := by
        apply position_eta
        · show g.asteroid.position.x + (wallDirection g).x - (wallDirection g).x
            = g.asteroid.position.x
          omega
        · show g.asteroid.position.y + (wallDirection g).y - (wallDirection g).y
            = g.asteroid.position.y
          omega
      rw [heq]
      exact hpos

/-- The hazard invariant reads only the world size, the cells and the hazard. -/
theorem hazardClear_congr (g g' : Game)
    (h : (g'.worldWidth, g'.worldHeight, g'.impassableCells, g'.asteroid)
      = (g.worldWidth, g.worldHeight, g.impassableCells, g.asteroid))
    (hg : HazardClear g) : HazardClear g' := by
  simp only [Prod.mk.injEq] at h
  obtain ⟨h1, h2, h3, h4⟩ := h
  unfold HazardClear inWorld onImpassable cameFrom at hg ⊢
  rw [h1, h2, h3, h4]
  exact hg

theorem moveAsteroidLoop_hazardClear (n : Nat) (g : Game) (h : HazardClear g) :
    HazardClear (moveAsteroidLoop n g) := by
  induction n generalizing g with
  | zero => exact h
  | succ n ih =>
    unfold moveAsteroidLoop
    simp only
    split
    · exact hazardClear_congr (moveAsteroidStep g) _ rfl (moveAsteroidStep_hazardClear g h)
    · exact ih _ (moveAsteroidStep_hazardClear g h)

theorem moveSpaceship_hazardClear (g : Game) (dx dy : Int) (h : HazardClear g) :
    HazardClear (moveSpaceship g dx dy) := by
  by_cases hacc : Accepted g dx dy
  · rw [moveSpaceship_accepted g dx dy hacc]
    have hc : HazardClear (commitMove g dx dy) := hazardClear_congr g _ rfl h
    split
    · exact hazardClear_congr (commitMove g dx dy) _ rfl hc
    · apply hazardClear_congr (moveAsteroid (commitMove g dx dy))
      · exact checkCollisions_preserves
          (fun s => (s.worldWidth, s.worldHeight, s.impassableCells, s.asteroid))
          (fun _ _ => rfl) (fun _ _ => rfl) (fun _ _ _ _ _ => rfl) (fun _ _ _ => rfl) _
      · exact moveAsteroidLoop_hazardClear _ _ hc
  · rw [moveSpaceship_rejected g dx dy hacc]
    exact h

theorem runMoves_hazardClear (moves : List (Int × Int)) :
    ∀ g : Game, HazardClear g → HazardClear (runMoves g moves) := by
  induction moves with
  | nil =>
    intro g h
    exact h
  | cons m t ih =>
    intro g h
    exact ih _ (moveSpaceship_hazardClear g m.1 m.2 h)

theorem runMoves_impassableCells (moves : List (Int × Int)) :
    ∀ g : Game, (runMoves g moves).impassableCells = g.impassableCells := by
  induction moves with
  | nil =>
    intro g
    rfl
  | cons m t ih =>
    intro g
    exact (ih _).trans (moveSpaceship_impassableCells g m.1 m.2)

theorem created_hazardClear (g : Game) (hc : Created g) : HazardClear g := by
  obtain ⟨_, _, _, _, hfrom, _, _, hcin, _, _, _, _, _⟩ := created_layout g hc
  refine ⟨fun c hcm => (hcin c hcm).1, ?_, ?_⟩
  · intro hon
    obtain ⟨c, hcm, hcq⟩ := hon
    exact (hcin c hcm).2.2 hcq
  · intro hon
    obtain ⟨c, hcm, hcq⟩ := hon
    apply hfrom
    rw [← hcq]
    exact (hcin c hcm).1

/-- C28: in every state reached from a session that `initGame` returns, by any sequence of
`moveSpaceship` calls, there are 3 impassable cells and the hazard's position differs from
the position of each of them. -/
theorem C28_hazard_never_on_impassable_cell (g : Game) (hc : Created g)
    (moves : List (Int × Int)) :
    (runMoves g moves).impassableCells.length = 3 ∧
    (∀ (i : Nat) (c : ImpassableCell), i < 3 → (runMoves g moves).impassableCells[i]? = some c →
      c.position ≠ (runMoves g moves).asteroid.position) ∧
    ¬ onImpassable (runMoves g moves) (runMoves g moves).asteroid.position := by
  have hclear := runMoves_hazardClear moves g (created_hazardClear g hc)
  have hlen : g.impassableCells.length = IMPASSABLE_CELLS := by
    obtain ⟨_, _, _, _, _, _, hlen, _⟩ := created_layout g hc
    exact hlen
  refine ⟨?_, ?_, hclear.2.1⟩
  · rw [runMoves_impassableCells, hlen]
    rfl
  · intro i c hi hget heq
    apply hclear.2.1
    refine ⟨c, ?_, heq⟩
    rw [List.mem_iff_getElem?]
    refine ⟨i, ?_⟩
    rw [List.getElem?_take_of_lt (by exact hi)]
    exact hget

theorem C28_hazard_never_on_impassable_cell_witness :
    Created demoGame ∧
    ((runMoves demoGame [(0, 1), (1, 0)]).impassableCells.length = 3 ∧
     (∀ (i : Nat) (c : ImpassableCell), i < 3 →
        (runMoves demoGame [(0, 1), (1, 0)]).impassableCells[i]? = some c →
        c.position ≠ (runMoves demoGame [(0, 1), (1, 0)]).asteroid.position) ∧
     ¬ onImpassable (runMoves demoGame [(0, 1), (1, 0)])
        (runMoves demoGame [(0, 1), (1, 0)]).asteroid.position) :=
  ⟨demoGame_created,
   C28_hazard_never_on_impassable_cell demoGame demoGame_created [(0, 1), (1, 0)]⟩

/-! ## Claim C29: ship and hazard on the same cell -/

theorem asteroidOnShip_iff (g : Game) :
    asteroidOnShip g = true ↔ g.ship.position = g.asteroid.position := by
  unfold asteroidOnShip
  rw [Bool.and_eq_true, beq_iff_eq, beq_iff_eq]
  constructor
  · intro h
    exact ((position_eta g.asteroid.position _ _ h.1.symm h.2.symm).symm.trans
      (position_eta g.ship.position _ _ rfl rfl)).symm
  · intro h
    rw [h]
    exact ⟨rfl, rfl⟩

theorem ASTEROID_SPEEDS_pos (d : Difficulty) : 1 ≤ (ASTEROID_SPEEDS d).toNat := by
  cases d <;> decide

/-- After a loop of at least one sub-step, a hazard on the ship's cell means that the loop
has ended the session. -/
theorem moveAsteroidLoop_onShip (n : Nat) (hn : 1 ≤ n) (g : Game)
    (h : asteroidOnShip (moveAsteroidLoop n g) = true) :
    (moveAsteroidLoop n g).isGameOver = 1 := by
  induction n generalizing g with
  | zero => omega
  | succ m ih =>
    unfold moveAsteroidLoop at h ⊢
    simp only at h ⊢
    by_cases hc : asteroidOnShip (moveAsteroidStep g) = true
    · rw [if_pos hc]
    · rw [if_neg hc] at h ⊢
      cases m with
      | zero => exact absurd h hc
      | succ k => exact ih (by omega) _ h

theorem checkCollisions_isGameOver (g : Game) :
    (checkCollisions g).isGameOver = 1 ∨ (checkCollisions g).isGameOver = g.isGameOver := by
  unfold checkCollisions
  simp only
  split
  · exact Or.inl rfl
  · exact Or.inr (checkCollisionsLoop_preserves (fun s => s.isGameOver) (fun _ _ => rfl)
      (fun _ _ => rfl) (fun _ _ _ _ _ => rfl) g)

theorem checkCollisions_onShip (g : Game) :
    asteroidOnShip (checkCollisions g) = asteroidOnShip g :=
  checkCollisions_preserves asteroidOnShip (fun _ _ => rfl) (fun _ _ => rfl)
    (fun _ _ _ _ _ => rfl) (fun _ _ _ => rfl) g

theorem useJunk_onShip (g : Game) (option : Int) :
    asteroidOnShip (useJunk g option) = asteroidOnShip g := by
  unfold useJunk
  split_ifs <;> rfl

/-- A driver request keeps "hazard on the ship's cell means the session is over". -/
theorem step_onShip (g : Game) (a : Action)
    (h : asteroidOnShip g = true → g.isGameOver = 1) :
    asteroidOnShip (step g a) = true → (step g a).isGameOver = 1 := by
  cases a with
  | use option =>
    show asteroidOnShip (useJunk g option) = true → (useJunk g option).isGameOver = 1
    rw [useJunk_onShip, (useJunk_statics g option).2.2.2.1]
    exact h
  | move dx dy =>
    show asteroidOnShip (moveSpaceship g dx dy) = true → (moveSpaceship g dx dy).isGameOver = 1
    by_cases hacc : Accepted g dx dy
    · rw [moveSpaceship_accepted g dx dy hacc]
      split
      · intro _
        rfl
      · rw [checkCollisions_onShip]
        intro hon
        have hover := moveAsteroidLoop_onShip _ (ASTEROID_SPEEDS_pos _) _ hon
        cases checkCollisions_isGameOver (moveAsteroid (commitMove g dx dy)) with
        | inl h1 => exact h1
        | inr h1 => exact h1.trans hover
    · rw [moveSpaceship_rejected g dx dy hacc]
      exact h

/-- A driver request never takes `isGameOver` back from 1, and never gives it a value
other than the one it had or 1. -/
theorem step_isGameOver (g : Game) (a : Action) :
    (step g a).isGameOver = 1 ∨ (step g a).isGameOver = g.isGameOver := by
  cases a with
  | use option => exact Or.inr (useJunk_statics g option).2.2.2.1
  | move dx dy =>
    show (moveSpaceship g dx dy).isGameOver = 1 ∨ (moveSpaceship g dx dy).isGameOver = g.isGameOver
    by_cases hacc : Accepted g dx dy
    · rw [moveSpaceship_accepted g dx dy hacc]
      split
      · exact Or.inl rfl
      · cases checkCollisions_isGameOver (moveAsteroid (commitMove g dx dy)) with
        | inl h1 => exact Or.inl h1
        | inr h1 =>
          rw [h1]
          unfold moveAsteroid
          cases hh : hazardHits (ASTEROID_SPEEDS (commitMove g dx dy).difficulty).toNat
              (commitMove g dx dy) with
          | true => exact Or.inl ((moveAsteroidLoop_flags _ _).1 hh).1
          | false => exact Or.inr ((moveAsteroidLoop_flags _ _).2 hh).1
    · rw [moveSpaceship_rejected g dx dy hacc]
      exact Or.inr rfl

theorem run_onShip (g : Game) (acts : List Action)
    (h : asteroidOnShip g = true → g.isGameOver = 1) :
    asteroidOnShip (run g acts) = true → (run g acts).isGameOver = 1 := by
  induction acts using List.reverseRecOn with
  | nil => exact h
  | append_singleton l a ih =>
    rw [run_append]
    exact step_onShip _ a ih

theorem run_isGameOver (g : Game) (acts : List Action) (h : g.isGameOver = 0) :
    (run g acts).isGameOver = 0 ∨ (run g acts).isGameOver = 1 := by
  induction acts using List.reverseRecOn with
  | nil => exact Or.inl h
  | append_singleton l a ih =>
    rw [run_append]
    cases step_isGameOver (run g l) a with
    | inl h1 => exact Or.inr h1
    | inr h1 =>
      rw [h1]
      exact ih

/-- C29: in every state reached from a session that `initGame` returns (its world is at
least 18 x 18), by moves and inventory uses: `isGameOver` is 0 or 1; if the ship and the
hazard are on the same cell then `isGameOver = 1`; while `isGameOver = 0` they are on
different cells; and a further request leaves `isGameOver = 1` when it is 1. -/
theorem C29_shared_cell_means_game_over (g : Game) (hc : Created g) (acts : List Action)
    (a : Action) :
    18 ≤ g.worldWidth ∧ 18 ≤ g.worldHeight ∧
    ((run g acts).isGameOver = 0 ∨ (run g acts).isGameOver = 1) ∧
    ((run g acts).ship.position = (run g acts).asteroid.position →
      (run g acts).isGameOver = 1) ∧
    ((run g acts).isGameOver = 0 →
      (run g acts).ship.position ≠ (run g acts).asteroid.position) ∧
    ((run g acts).isGameOver = 1 → (step (run g acts) a).isGameOver = 1) := by
  obtain ⟨hW, hH, _, _, _, hne, _⟩ := created_layout g hc
  have h0 : g.isGameOver = 0 := by
    obtain ⟨g0, name, d, file, draws, _, hinit⟩ := hc
    exact (initGame_items g0 name d file draws g hinit).2.1
  have hinit : asteroidOnShip g = true → g.isGameOver = 1 := by
    intro hon
    exact absurd ((asteroidOnShip_iff g).1 hon).symm hne
  have hrun := run_onShip g acts hinit
  refine ⟨hW, hH, run_isGameOver g acts h0, ?_, ?_, ?_⟩
  · intro heq
    exact hrun ((asteroidOnShip_iff _).2 heq)
  · intro hz heq
    have := hrun ((asteroidOnShip_iff _).2 heq)
    omega
  · intro h1
    cases step_isGameOver (run g acts) a with
    | inl h => exact h
    | inr h => exact h.trans h1

theorem C29_shared_cell_means_game_over_witness :
    Created crashGame ∧
    (18 ≤ crashGame.worldWidth ∧ 18 ≤ crashGame.worldHeight ∧
     ((run crashGame [.move 0 1, .use 2]).isGameOver = 0 ∨
      (run crashGame [.move 0 1, .use 2]).isGameOver = 1) ∧
     ((run crashGame [.move 0 1, .use 2]).ship.position
        = (run crashGame [.move 0 1, .use 2]).asteroid.position →
      (run crashGame [.move 0 1, .use 2]).isGameOver = 1) ∧
     ((run crashGame [.move 0 1, .use 2]).isGameOver = 0 →
      (run crashGame [.move 0 1, .use 2]).ship.position
        ≠ (run crashGame [.move 0 1, .use 2]).asteroid.position) ∧
     ((run crashGame [.move 0 1, .use 2]).isGameOver = 1 →
      (step (run crashGame [.move 0 1, .use 2]) (.move 1 0)).isGameOver = 1)) :=
  ⟨crashGame_created,
   C29_shared_cell_means_game_over crashGame crashGame_created [.move 0 1, .use 2] (.move 1 0)⟩

end SpaceXplorer
